import Mathlib

/-!
# The FFI bridge runtime of `breez_sdk_spark.go`

A shallow embedding of the bridge runtime in `obs-qr-donations/breez_sdk_spark.go`:
the binary codec (fixed-width integers, strings, byte sequences, records), the buffer
lifting and lowering helpers, the call-status triage, the proxy of a native object
(`FfiObject`) and the handle table (`concurrentHandleMap`).

Conventions of the embedding

* A byte is a `Fin 256`; a Go `string` and a Go `[]byte` are both finite byte
  sequences (`List Byte`), so `len` is `List.length` (bytes, not characters).
* Fixed-width integers are `Nat` / `Int` with an explicit reduction modulo `2^w`
  where the Go type would wrap.
* A Go `panic` is the `error` side of an `Except Panic _`.
* `io.Reader` is the in-memory `*bytes.Reader` that `GoRustBuffer.AsReader` builds:
  its state is the list of bytes not yet read.  `io.Writer` is the `bytes.Buffer`
  that `LowerIntoRustBuffer` uses: its state is the list of bytes written so far and
  a write never fails.
* The native library is outside the repository.  A `World` holds the log of the
  calls made into it and the statuses it is going to report; functions that reach
  the native side take a `World` and return the `World` after them.
* A deferred call runs on every exit of its function; when it panics, its panic is
  the one the caller sees.
-/

namespace BreezSdkSpark

deriving instance DecidableEq for Except

/-! ## Bytes, strings, panics -/

/-- One octet. -/
abbrev Byte := Fin 256

/-- The Go conversion `byte(x)` of an unsigned integer: the low eight bits. -/
def byte (x : Nat) : Byte := ⟨x % 256, Nat.mod_lt x (by decide)⟩

/-- A Go `string`: an immutable sequence of bytes. -/
abbrev GoString := List Byte

/-- A string literal of the source, as its bytes (the literals used are ASCII). -/
def lit (s : String) : GoString := s.data.map (fun c => byte c.toNat)

/-- The verb `%d` of package `fmt` applied to an integer: its decimal digits. -/
def fmtD (i : Int) : GoString := lit (toString i)

/-- The two sentinel errors of package `io` that `io.ReadFull` can return. -/
inductive IoError where
  | EOF
  | ErrUnexpectedEOF
  deriving DecidableEq, Repr

/-- The value carried by a Go `panic`. -/
inductive Panic where
  /-- An `error` value made by `fmt.Errorf`, with its rendered message. -/
  | err (msg : GoString)
  /-- A plain string passed to `panic`. -/
  | str (msg : GoString)
  /-- An `io` error passed on with `panic(err)`. -/
  | io (e : IoError)
  /-- The runtime error of `make([]byte, n)` with a negative `n`. -/
  | makeslice
  /-- The runtime error of a method call on a nil interface value. -/
  | nilDereference
  /-- The runtime failure of a call chain deeper than the stack allows. -/
  | stackOverflow
  deriving DecidableEq, Repr

/-! ## `encoding/binary` with `binary.BigEndian` on in-memory streams -/

/-- The unread part of a `*bytes.Reader`. -/
abbrev Reader := List Byte

/-- The contents of a `bytes.Buffer` used as an `io.Writer`. -/
abbrev Writer := List Byte

/-- The `n` big-endian bytes of `v`: byte `i` is `byte(v >> (8 * (n - 1 - i)))`
(`binary.BigEndian.PutUint16/32/64`). -/
def putBigEndian : Nat → Nat → List Byte
  | 0, _ => []
  | n + 1, v => byte (v >>> (8 * n)) :: putBigEndian n v

/-- The unsigned value of a big-endian byte sequence
(`binary.BigEndian.Uint16/32/64`). -/
def getBigEndian (bs : List Byte) : Nat :=
  bs.foldl (fun acc b => acc * 256 + b.val) 0

/-- The Go conversion of a signed `bits`-wide integer to the unsigned type of the
same width (two's complement). -/
def asUnsigned (bits : Nat) (value : Int) : Nat := (value % 2 ^ bits).toNat

/-- The Go conversion of an unsigned `bits`-wide integer to the signed type of the
same width (two's complement). -/
def asSigned (bits : Nat) (u : Nat) : Int :=
  if u % 2 ^ bits < 2 ^ (bits - 1) then ((u % 2 ^ bits : Nat) : Int)
  else ((u % 2 ^ bits : Nat) : Int) - 2 ^ bits

/-- The method `Read` of `*bytes.Reader` for a destination of `n` bytes: at the end
of the data it returns `(0, io.EOF)`, otherwise it copies as many bytes as fit and
returns no error.  The result is the count, the error, the destination after the
call (zero-filled beyond the count) and the reader after the call. -/
def bytesReaderRead (reader : Reader) (n : Nat) :
    Nat × Option IoError × List Byte × Reader :=
  if reader.length = 0 then (0, some IoError.EOF, List.replicate n 0, reader)
  else
    let k := min n reader.length
    (k, none, reader.take k ++ List.replicate (n - k) 0, reader.drop k)

/-- The function `io.ReadFull` on a `*bytes.Reader` for a destination of `n` bytes. -/
def ioReadFull (reader : Reader) (n : Nat) : Except IoError (List Byte × Reader) :=
  if n = 0 then .ok ([], reader)
  else if reader.length = 0 then .error IoError.EOF
  else if reader.length < n then .error IoError.ErrUnexpectedEOF
  else .ok (reader.take n, reader.drop n)

/-- The call `binary.Read(reader, binary.BigEndian, &result)` for an integer of
`size` bytes: the unsigned value of the next `size` bytes. -/
def binaryRead (reader : Reader) (size : Nat) : Except IoError (Nat × Reader) :=
  match ioReadFull reader size with
  | .error e => .error e
  | .ok (bs, reader') => .ok (getBigEndian bs, reader')

/-- The method `Write` of `*bytes.Buffer` (also what `io.WriteString` calls): the
bytes are appended, the count is their number and the error is nil.  The result is
the count, the error and the stream after the call. -/
def bufferWrite (writer : Writer) (p : List Byte) : Nat × Option IoError × Writer :=
  (p.length, none, writer ++ p)

/-- The call `binary.Write(writer, binary.BigEndian, value)` for an integer of
`size` bytes given by its unsigned value: one `Write` of the encoded bytes.  The
result is the error and the stream after the call. -/
def binaryWrite (writer : Writer) (size : Nat) (u : Nat) : Option IoError × Writer :=
  match bufferWrite writer (putBigEndian size u) with
  | (_, err, w) => (err, w)

/-! ## The fixed-width integer writers and readers -/

/-- The function `writeInt8`. -/
def writeInt8 (writer : Writer) (value : Int) : Except Panic Unit × Writer :=
  match binaryWrite writer 1 (asUnsigned 8 value) with
  | (some err, w) => (.error (Panic.io err), w)
  | (none, w) => (.ok (), w)

/-- The function `writeUint8`. -/
def writeUint8 (writer : Writer) (value : Nat) : Except Panic Unit × Writer :=
  match binaryWrite writer 1 (value % 2 ^ 8) with
  | (some err, w) => (.error (Panic.io err), w)
  | (none, w) => (.ok (), w)

/-- The function `writeInt16`. -/
def writeInt16 (writer : Writer) (value : Int) : Except Panic Unit × Writer :=
  match binaryWrite writer 2 (asUnsigned 16 value) with
  | (some err, w) => (.error (Panic.io err), w)
  | (none, w) => (.ok (), w)

/-- The function `writeUint16`. -/
def writeUint16 (writer : Writer) (value : Nat) : Except Panic Unit × Writer :=
  match binaryWrite writer 2 (value % 2 ^ 16) with
  | (some err, w) => (.error (Panic.io err), w)
  | (none, w) => (.ok (), w)

/-- The function `writeInt32`. -/
def writeInt32 (writer : Writer) (value : Int) : Except Panic Unit × Writer :=
  match binaryWrite writer 4 (asUnsigned 32 value) with
  | (some err, w) => (.error (Panic.io err), w)
  | (none, w) => (.ok (), w)

/-- The function `writeUint32`. -/
def writeUint32 (writer : Writer) (value : Nat) : Except Panic Unit × Writer :=
  match binaryWrite writer 4 (value % 2 ^ 32) with
  | (some err, w) => (.error (Panic.io err), w)
  | (none, w) => (.ok (), w)

/-- The function `writeInt64`. -/
def writeInt64 (writer : Writer) (value : Int) : Except Panic Unit × Writer :=
  match binaryWrite writer 8 (asUnsigned 64 value) with
  | (some err, w) => (.error (Panic.io err), w)
  | (none, w) => (.ok (), w)

/-- The function `writeUint64`. -/
def writeUint64 (writer : Writer) (value : Nat) : Except Panic Unit × Writer :=
  match binaryWrite writer 8 (value % 2 ^ 64) with
  | (some err, w) => (.error (Panic.io err), w)
  | (none, w) => (.ok (), w)

/-- The function `readInt8`. -/
def readInt8 (reader : Reader) : Except Panic (Int × Reader) :=
  match binaryRead reader 1 with
  | .error e => .error (Panic.io e)
  | .ok (u, reader') => .ok (asSigned 8 u, reader')

/-- The function `readUint8`. -/
def readUint8 (reader : Reader) : Except Panic (Nat × Reader) :=
  match binaryRead reader 1 with
  | .error e => .error (Panic.io e)
  | .ok (u, reader') => .ok (u, reader')

/-- The function `readInt16`. -/
def readInt16 (reader : Reader) : Except Panic (Int × Reader) :=
  match binaryRead reader 2 with
  | .error e => .error (Panic.io e)
  | .ok (u, reader') => .ok (asSigned 16 u, reader')

/-- The function `readUint16`. -/
def readUint16 (reader : Reader) : Except Panic (Nat × Reader) :=
  match binaryRead reader 2 with
  | .error e => .error (Panic.io e)
  | .ok (u, reader') => .ok (u, reader')

/-- The function `readInt32`. -/
def readInt32 (reader : Reader) : Except Panic (Int × Reader) :=
  match binaryRead reader 4 with
  | .error e => .error (Panic.io e)
  | .ok (u, reader') => .ok (asSigned 32 u, reader')

/-- The function `readUint32`. -/
def readUint32 (reader : Reader) : Except Panic (Nat × Reader) :=
  match binaryRead reader 4 with
  | .error e => .error (Panic.io e)
  | .ok (u, reader') => .ok (u, reader')

/-- The function `readInt64`. -/
def readInt64 (reader : Reader) : Except Panic (Int × Reader) :=
  match binaryRead reader 8 with
  | .error e => .error (Panic.io e)
  | .ok (u, reader') => .ok (asSigned 64 u, reader')

/-- The function `readUint64`. -/
def readUint64 (reader : Reader) : Except Panic (Nat × Reader) :=
  match binaryRead reader 8 with
  | .error e => .error (Panic.io e)
  | .ok (u, reader') => .ok (u, reader')

/-! ## `FfiConverterString` and `FfiConverterBytes` -/

/-- The constant `math.MaxInt32`. -/
def MaxInt32 : Nat := 2147483647

/-- The method `FfiConverterString.Read`: a 4-byte signed length, then one `Read` of
the reader into a buffer of that length. -/
def FfiConverterString.Read (reader : Reader) : Except Panic (GoString × Reader) :=
  match readInt32 reader with
  | .error p => .error p
  | .ok (length, reader) =>
    if length < 0 then .error Panic.makeslice
    else
      match bytesReaderRead reader length.toNat with
      | (read_length, err, buffer, reader) =>
        if err ≠ none ∧ err ≠ some IoError.EOF then
          .error (Panic.io (err.getD IoError.EOF))
        else if (read_length : Int) ≠ length then
          .error (Panic.err (lit "bad read length when reading string, expected "
            ++ fmtD length ++ lit ", read " ++ fmtD read_length))
        else .ok (buffer, reader)

/-- The method `FfiConverterString.Write`: the length check, the 4-byte signed
length, then the bytes of the string. -/
def FfiConverterString.Write (writer : Writer) (value : GoString) :
    Except Panic Unit × Writer :=
  if value.length > MaxInt32 then
    (.error (Panic.str (lit "String is too large to fit into Int32")), writer)
  else
    match writeInt32 writer (value.length : Int) with
    | (.error p, w) => (.error p, w)
    | (.ok (), w) =>
      match bufferWrite w value with
      | (write_length, err, w) =>
        match err with
        | some e => (.error (Panic.io e), w)
        | none =>
          if write_length ≠ value.length then
            (.error (Panic.err (lit "bad write length when writing string, expected "
              ++ fmtD value.length ++ lit ", written " ++ fmtD write_length)), w)
          else (.ok (), w)

/-- The method `FfiConverterBytes.Write`. -/
def FfiConverterBytes.Write (writer : Writer) (value : List Byte) :
    Except Panic Unit × Writer :=
  if value.length > MaxInt32 then
    (.error (Panic.str (lit "[]byte is too large to fit into Int32")), writer)
  else
    match writeInt32 writer (value.length : Int) with
    | (.error p, w) => (.error p, w)
    | (.ok (), w) =>
      match bufferWrite w value with
      | (write_length, err, w) =>
        match err with
        | some e => (.error (Panic.io e), w)
        | none =>
          if write_length ≠ value.length then
            (.error (Panic.err (lit "bad write length when writing []byte, expected "
              ++ fmtD value.length ++ lit ", written " ++ fmtD write_length)), w)
          else (.ok (), w)

/-- The method `FfiConverterBytes.Read`. -/
def FfiConverterBytes.Read (reader : Reader) : Except Panic (List Byte × Reader) :=
  match readInt32 reader with
  | .error p => .error p
  | .ok (length, reader) =>
    if length < 0 then .error Panic.makeslice
    else
      match bytesReaderRead reader length.toNat with
      | (read_length, err, buffer, reader) =>
        if err ≠ none ∧ err ≠ some IoError.EOF then
          .error (Panic.io (err.getD IoError.EOF))
        else if (read_length : Int) ≠ length then
          .error (Panic.err (lit "bad read length when reading []byte, expected "
            ++ fmtD length ++ lit ", read " ++ fmtD read_length))
        else .ok (buffer, reader)

/-! ## Buffers, the native side and the call status -/

/-- The C struct `RustBuffer`.  A buffer is well formed when `data` points to at
least `len` readable bytes; the model keeps exactly those bytes, and `none` is the
null pointer (whose `len` is 0). -/
structure RustBuffer where
  capacity : Nat
  data : Option (List Byte)
  deriving DecidableEq, Repr

/-- The field `len` of a `RustBuffer`. -/
def RustBuffer.len (b : RustBuffer) : Nat :=
  match b.data with
  | none => 0
  | some bs => bs.length

/-- The C struct `RustCallStatus`; `code` is an `int8_t`. -/
structure RustCallStatus where
  code : Int
  errorBuf : RustBuffer
  deriving DecidableEq, Repr

/-- The zero value `var status C.RustCallStatus`. -/
def RustCallStatus.zero : RustCallStatus := ⟨0, ⟨0, none⟩⟩

/-- An `unsafe.Pointer` to a native object, as its address. -/
abbrev Pointer := Nat

/-- The C struct `ForeignBytes`: `len` is a C `int`, `data` points into a Go slice,
kept here as the bytes of that slice. -/
structure ForeignBytes where
  len : Int
  data : List Byte
  deriving DecidableEq, Repr

/-- A call into the native library that the bridge has made. -/
inductive NativeCall where
  | rustbuffer_free (buf : RustBuffer)
  | rustbuffer_from_bytes (foreign : ForeignBytes)
  | object_clone (pointer : Pointer)
  | object_free (pointer : Pointer)
  | init_callback_vtable (name : String)
  deriving DecidableEq, Repr

/-- What the bridge does not own: the log of the calls made into the native library,
in order, and the statuses the native side is going to report on the next calls
(once this list is used up, a native call leaves the status untouched). -/
structure World where
  calls : List NativeCall
  script : List RustCallStatus
  deriving DecidableEq, Repr

/-- The native entry point `ffi_breez_sdk_spark_rustbuffer_free(buf, status)`.  The
native library is not part of the repository: the call is logged and the status it
writes is the next one of the script. -/
def ffi_breez_sdk_spark_rustbuffer_free (buf : RustBuffer) (status : RustCallStatus)
    (w : World) : RustCallStatus × World :=
  match w.script with
  | [] => (status, { w with calls := w.calls ++ [NativeCall.rustbuffer_free buf] })
  | s :: rest => (s, { calls := w.calls ++ [NativeCall.rustbuffer_free buf], script := rest })

/-- The interface `RustBufferI`, as the two methods the lifting code calls. -/
structure RustBufferI where
  AsReader : Reader
  Free : World → Except Panic Unit × World

/-- The interface `BufReader[GoType]`: `none` is the nil interface value, `some read`
a converter whose method `Read` is `read`. -/
abbrev BufReader (GoType : Type) := Option (Reader → Except Panic (GoType × Reader))

/-- The function `LiftFromRustBuffer`.  The deferred `rbuf.Free()` runs on every
exit; a panic of the deferred call is the one the caller sees. -/
def LiftFromRustBuffer {GoType : Type} (bufReader : BufReader GoType) (rbuf : RustBufferI)
    (w : World) : Except Panic GoType × World :=
  let reader := rbuf.AsReader
  let body : Except Panic GoType :=
    match bufReader with
    | none => .error Panic.nilDereference
    | some read =>
      match read reader with
      | .error p => .error p
      | .ok (item, reader) =>
        if reader.length > 0 then
          .error (Panic.err (lit "Junk remaining in buffer after lifting: " ++ reader))
        else .ok item
  match rbuf.Free w with
  | (.error p, w) => (.error p, w)
  | (.ok (), w) => (body, w)

/-- The method `FfiConverterString.Lift`: the whole buffer as a string, with the
deferred `rb.Free()`. -/
def FfiConverterString.Lift (rb : RustBufferI) (w : World) : Except Panic GoString × World :=
  let reader := rb.AsReader
  let body : Except Panic GoString := .ok reader
  match rb.Free w with
  | (.error p, w) => (.error p, w)
  | (.ok (), w) => (body, w)

/-- The function `checkCallStatus`, with the constructor `GoRustBuffer{inner: ...}`
(a buffer together with its methods) passed in as `goRustBuffer`. -/
def checkCallStatusWith {E : Type} (goRustBuffer : RustBuffer → RustBufferI)
    (converter : BufReader (Option E)) (status : RustCallStatus) (w : World) :
    Except Panic (Option E) × World :=
  if status.code = 0 then (.ok none, w)
  else if status.code = 1 then
    LiftFromRustBuffer converter (goRustBuffer status.errorBuf) w
  else if status.code = 2 then
    if status.errorBuf.len > 0 then
      match FfiConverterString.Lift (goRustBuffer status.errorBuf) w with
      | (.error p, w) => (.error p, w)
      | (.ok s, w) => (.error (Panic.err s), w)
    else (.error (Panic.err (lit "Rust panicked while handling Rust panic")), w)
  else (.error (Panic.err (lit "unknown status code: " ++ fmtD status.code)), w)

/-- The function `checkCallStatusUnknown`; the returned `error` is `none` for nil and
`some msg` for an error value with message `msg`. -/
def checkCallStatusUnknownWith (goRustBuffer : RustBuffer → RustBufferI)
    (status : RustCallStatus) (w : World) : Except Panic (Option GoString) × World :=
  if status.code = 0 then (.ok none, w)
  else if status.code = 1 then
    (.error (Panic.err (lit "function not returning an error returned an error")), w)
  else if status.code = 2 then
    if status.errorBuf.len > 0 then
      match FfiConverterString.Lift (goRustBuffer status.errorBuf) w with
      | (.error p, w) => (.error p, w)
      | (.ok s, w) => (.error (Panic.err s), w)
    else (.error (Panic.err (lit "Rust panicked while handling Rust panic")), w)
  else (.ok (some (lit "unknown status code: " ++ fmtD status.code)), w)

/-- The function `rustCallWithError`: the callback receives the zero status and
hands back its return value, the status it left and the world after it. -/
def rustCallWithErrorWith {E U : Type} (goRustBuffer : RustBuffer → RustBufferI)
    (converter : BufReader (Option E))
    (callback : RustCallStatus → World → U × RustCallStatus × World) (w : World) :
    Except Panic (U × Option E) × World :=
  match callback RustCallStatus.zero w with
  | (returnValue, status, w) =>
    match checkCallStatusWith goRustBuffer converter status w with
    | (.error p, w) => (.error p, w)
    | (.ok err, w) => (.ok (returnValue, err), w)

/-- The function `rustCall`: `rustCallWithError` with the nil converter; an error
value is the message of the `error` it points to. -/
def rustCallWith {U : Type} (goRustBuffer : RustBuffer → RustBufferI)
    (callback : RustCallStatus → World → U × RustCallStatus × World) (w : World) :
    Except Panic U × World :=
  match rustCallWithErrorWith goRustBuffer (none : BufReader (Option GoString)) callback w with
  | (.error p, w) => (.error p, w)
  | (.ok (returnValue, err), w) =>
    match err with
    | some e => (.error (Panic.err e), w)
    | none => (.ok returnValue, w)

/-- The method `GoRustBuffer.AsReader`: a reader over the `len` bytes at `data`. -/
def GoRustBuffer.AsReader (cb : RustBuffer) : Reader :=
  match cb.data with
  | none => []
  | some bs => bs

/-- The method `GoRustBuffer.Free` with a bound on the depth of the call chain
`Free → rustCall → checkCallStatus → LiftFromRustBuffer → Free`, which goes one
level deeper each time the native side answers a free with a failure status. -/
def GoRustBuffer.FreeDepth : Nat → RustBuffer → World → Except Panic Unit × World
  | 0, _, w => (.error Panic.stackOverflow, w)
  | depth + 1, cb, w =>
    match rustCallWith (fun b => ⟨GoRustBuffer.AsReader b, GoRustBuffer.FreeDepth depth b⟩)
        (fun status w =>
          match ffi_breez_sdk_spark_rustbuffer_free cb status w with
          | (status, w) => (false, status, w)) w with
    | (.error p, w) => (.error p, w)
    | (.ok _, w) => (.ok (), w)

/-- The method `GoRustBuffer.Free`.  Every level of the call chain uses up one
status of the script, so a depth of one more than the length of the script is never
exceeded. -/
def GoRustBuffer.Free (cb : RustBuffer) (w : World) : Except Panic Unit × World :=
  GoRustBuffer.FreeDepth (w.script.length + 1) cb w

/-- The value `GoRustBuffer{inner: cb}` as a `RustBufferI`. -/
def GoRustBuffer (cb : RustBuffer) : RustBufferI :=
  ⟨GoRustBuffer.AsReader cb, GoRustBuffer.Free cb⟩

/-- The function `checkCallStatus`. -/
def checkCallStatus {E : Type} (converter : BufReader (Option E)) (status : RustCallStatus)
    (w : World) : Except Panic (Option E) × World :=
  checkCallStatusWith GoRustBuffer converter status w

/-- The function `checkCallStatusUnknown`. -/
def checkCallStatusUnknown (status : RustCallStatus) (w : World) :
    Except Panic (Option GoString) × World :=
  checkCallStatusUnknownWith GoRustBuffer status w

/-- The function `rustCallWithError`. -/
def rustCallWithError {E U : Type} (converter : BufReader (Option E))
    (callback : RustCallStatus → World → U × RustCallStatus × World) (w : World) :
    Except Panic (U × Option E) × World :=
  rustCallWithErrorWith GoRustBuffer converter callback w

/-- The function `rustCall`. -/
def rustCall {U : Type} (callback : RustCallStatus → World → U × RustCallStatus × World)
    (w : World) : Except Panic U × World :=
  rustCallWith GoRustBuffer callback w

/-! ## `FfiConverterBool` and the record converters -/

/-- The method `FfiConverterBool.Write`. -/
def FfiConverterBool.Write (writer : Writer) (value : Bool) : Except Panic Unit × Writer :=
  if value then writeInt8 writer 1 else writeInt8 writer 0

/-- The method `FfiConverterBool.Read`. -/
def FfiConverterBool.Read (reader : Reader) : Except Panic (Bool × Reader) :=
  match readInt8 reader with
  | .error p => .error p
  | .ok (v, reader) => .ok (decide (v ≠ 0), reader)

/-- The record `Credentials`. -/
structure Credentials where
  Username : GoString
  Password : GoString
  deriving DecidableEq, Repr

/-- The method `FfiConverterCredentials.Read`: the operands of the composite literal
are evaluated from left to right. -/
def FfiConverterCredentials.Read (reader : Reader) : Except Panic (Credentials × Reader) :=
  match FfiConverterString.Read reader with
  | .error p => .error p
  | .ok (f0, reader) =>
    match FfiConverterString.Read reader with
    | .error p => .error p
    | .ok (f1, reader) => .ok (⟨f0, f1⟩, reader)

/-- The method `FfiConverterCredentials.Write`. -/
def FfiConverterCredentials.Write (writer : Writer) (value : Credentials) :
    Except Panic Unit × Writer :=
  match FfiConverterString.Write writer value.Username with
  | (.error p, w) => (.error p, w)
  | (.ok (), w) => FfiConverterString.Write w value.Password

/-- The record `AesSuccessActionData`. -/
structure AesSuccessActionData where
  Description : GoString
  Ciphertext : GoString
  Iv : GoString
  deriving DecidableEq, Repr

/-- The method `FfiConverterAesSuccessActionData.Read`. -/
def FfiConverterAesSuccessActionData.Read (reader : Reader) :
    Except Panic (AesSuccessActionData × Reader) :=
  match FfiConverterString.Read reader with
  | .error p => .error p
  | .ok (f0, reader) =>
    match FfiConverterString.Read reader with
    | .error p => .error p
    | .ok (f1, reader) =>
      match FfiConverterString.Read reader with
      | .error p => .error p
      | .ok (f2, reader) => .ok (⟨f0, f1, f2⟩, reader)

/-- The method `FfiConverterAesSuccessActionData.Write`. -/
def FfiConverterAesSuccessActionData.Write (writer : Writer) (value : AesSuccessActionData) :
    Except Panic Unit × Writer :=
  match FfiConverterString.Write writer value.Description with
  | (.error p, w) => (.error p, w)
  | (.ok (), w) =>
    match FfiConverterString.Write w value.Ciphertext with
    | (.error p, w) => (.error p, w)
    | (.ok (), w) => FfiConverterString.Write w value.Iv

/-- The record `CheckMessageResponse`. -/
structure CheckMessageResponse where
  IsValid : Bool
  deriving DecidableEq, Repr

/-- The method `FfiConverterCheckMessageResponse.Read`. -/
def FfiConverterCheckMessageResponse.Read (reader : Reader) :
    Except Panic (CheckMessageResponse × Reader) :=
  match FfiConverterBool.Read reader with
  | .error p => .error p
  | .ok (f0, reader) => .ok (⟨f0⟩, reader)

/-- The method `FfiConverterCheckMessageResponse.Write`. -/
def FfiConverterCheckMessageResponse.Write (writer : Writer) (value : CheckMessageResponse) :
    Except Panic Unit × Writer :=
  FfiConverterBool.Write writer value.IsValid

/-! ## Lowering into a buffer -/

/-- The native entry point `ffi_breez_sdk_spark_rustbuffer_from_bytes(foreign, status)`.
The native library is not part of the repository: the call is logged, the status it
writes is the next one of the script, and the buffer it returns holds a copy of the
`len` bytes at `data` in an allocation of its own. -/
def ffi_breez_sdk_spark_rustbuffer_from_bytes (foreign : ForeignBytes)
    (status : RustCallStatus) (w : World) : RustBuffer × RustCallStatus × World :=
  let copy : RustBuffer :=
    ⟨foreign.len.toNat, some (foreign.data.take foreign.len.toNat)⟩
  match w.script with
  | [] => (copy, status,
      { w with calls := w.calls ++ [NativeCall.rustbuffer_from_bytes foreign] })
  | s :: rest => (copy, s,
      { calls := w.calls ++ [NativeCall.rustbuffer_from_bytes foreign], script := rest })

/-- The function `bytesToRustBuffer`; `C.RustBuffer{}` is the zero value, whose `data`
is the null pointer, and `C.int(len(b))` keeps the low 32 bits of the length. -/
def bytesToRustBuffer (b : List Byte) (w : World) : Except Panic RustBuffer × World :=
  if b.length = 0 then (.ok ⟨0, none⟩, w)
  else
    let foreign : ForeignBytes := ⟨asSigned 32 b.length, b⟩
    rustCall (fun status w => ffi_breez_sdk_spark_rustbuffer_from_bytes foreign status w) w

/-- The function `stringToRustBuffer`. -/
def stringToRustBuffer (str : GoString) (w : World) : Except Panic RustBuffer × World :=
  bytesToRustBuffer str w

/-- The interface `BufWriter[GoType]`, as its method `Write`. -/
abbrev BufWriter (GoType : Type) := Writer → GoType → Except Panic Unit × Writer

/-- The function `LowerIntoRustBuffer`: the value is written into a fresh
`bytes.Buffer`, whose contents `io.ReadAll` then returns without error. -/
def LowerIntoRustBuffer {GoType : Type} (bufWriter : BufWriter GoType) (value : GoType)
    (w : World) : Except Panic RustBuffer × World :=
  match bufWriter [] value with
  | (.error p, _) => (.error p, w)
  | (.ok (), buffer) => bytesToRustBuffer buffer w

/-- The method `FfiConverterString.Lower`. -/
def FfiConverterString.Lower (value : GoString) (w : World) : Except Panic RustBuffer × World :=
  stringToRustBuffer value w

/-- The method `FfiConverterBytes.Lower`. -/
def FfiConverterBytes.Lower (value : List Byte) (w : World) : Except Panic RustBuffer × World :=
  LowerIntoRustBuffer FfiConverterBytes.Write value w

/-! ## `FfiObject`: the proxy of a native object -/

/-- The constant `math.MaxInt64`. -/
def MaxInt64 : Int := 9223372036854775807

/-- The value of an `int64` computation whose mathematical result is `x`
(two's-complement wrap-around). -/
def wrapInt64 (x : Int) : Int := asSigned 64 (asUnsigned 64 x)

/-- The struct `FfiObject`.  The fields `cloneFunction` and `freeFunction` hold the
native entry points `uniffi_breez_sdk_spark_fn_clone_<type>` and
`uniffi_breez_sdk_spark_fn_free_<type>` of the object's type, modelled by
`uniffi_fn_clone` and `uniffi_fn_free`. -/
structure FfiObject where
  pointer : Pointer
  callCounter : Int
  destroyed : Bool
  deriving DecidableEq, Repr

/-- The function `newFfiObject`: the counter starts at 0 and the flag at false. -/
def newFfiObject (pointer : Pointer) : FfiObject := ⟨pointer, 0, false⟩

/-- The native clone entry point of an object type.  The native library is not part
of the repository: the call is logged, the status it writes is the next one of the
script, and the pointer it returns is taken to be the one it was given. -/
def uniffi_fn_clone (pointer : Pointer) (status : RustCallStatus) (w : World) :
    Pointer × RustCallStatus × World :=
  match w.script with
  | [] => (pointer, status, { w with calls := w.calls ++ [NativeCall.object_clone pointer] })
  | s :: rest =>
    (pointer, s, { calls := w.calls ++ [NativeCall.object_clone pointer], script := rest })

/-- The native free entry point of an object type: the call is logged and the status it
writes is the next one of the script. -/
def uniffi_fn_free (pointer : Pointer) (status : RustCallStatus) (w : World) :
    RustCallStatus × World :=
  match w.script with
  | [] => (status, { w with calls := w.calls ++ [NativeCall.object_free pointer] })
  | s :: rest => (s, { calls := w.calls ++ [NativeCall.object_free pointer], script := rest })

/-- The method `FfiObject.incrementPointer`.  The loop ends with the iteration whose
compare-and-swap succeeds; that iteration (load, the two checks, swap) is taken as
one atomic step.  The result is the returned pointer or the panic, the object after
the call and the world after the call. -/
def FfiObject.incrementPointer (ffiObject : FfiObject) (debugName : GoString) (w : World) :
    Except Panic Pointer × FfiObject × World :=
  let counter := ffiObject.callCounter
  if counter ≤ -1 then
    (.error (Panic.err (debugName ++ lit " object has already been destroyed")), ffiObject, w)
  else if counter = MaxInt64 then
    (.error (Panic.err (debugName ++ lit " object call counter would overflow")), ffiObject, w)
  else
    let ffiObject := { ffiObject with callCounter := counter + 1 }
    match rustCall (fun status w => uniffi_fn_clone ffiObject.pointer status w) w with
    | (res, w) => (res, ffiObject, w)

/-- The method `FfiObject.freeRustArcPtr`. -/
def FfiObject.freeRustArcPtr (ffiObject : FfiObject) (w : World) : Except Panic Unit × World :=
  match rustCall (fun status w =>
      match uniffi_fn_free ffiObject.pointer status w with
      | (status, w) => ((0 : Int), status, w)) w with
  | (.error p, w) => (.error p, w)
  | (.ok _, w) => (.ok (), w)

/-- The method `FfiObject.decrementPointer`; `callCounter.Add(-1)` is one atomic step
in `int64` arithmetic. -/
def FfiObject.decrementPointer (ffiObject : FfiObject) (w : World) :
    Except Panic Unit × FfiObject × World :=
  let ffiObject := { ffiObject with callCounter := wrapInt64 (ffiObject.callCounter - 1) }
  if ffiObject.callCounter = -1 then
    match ffiObject.freeRustArcPtr w with
    | (res, w) => (res, ffiObject, w)
  else (.ok (), ffiObject, w)

/-- The method `FfiObject.destroy`; `destroyed.CompareAndSwap(false, true)` is one
atomic step. -/
def FfiObject.destroy (ffiObject : FfiObject) (w : World) :
    Except Panic Unit × FfiObject × World :=
  if ffiObject.destroyed = false then
    let ffiObject := { ffiObject with destroyed := true }
    let ffiObject := { ffiObject with callCounter := wrapInt64 (ffiObject.callCounter - 1) }
    if ffiObject.callCounter = -1 then
      match ffiObject.freeRustArcPtr w with
      | (res, w) => (res, ffiObject, w)
    else (.ok (), ffiObject, w)
  else (.ok (), ffiObject, w)

/-! ## Sequences of operations on one proxy -/

/-- One operation on a proxy, by any of its users. -/
inductive ProxyOp where
  | incrementPointer
  | decrementPointer
  | destroy
  deriving DecidableEq, Repr

/-- A proxy in use: the object, the world, and the number of calls in flight, that is
of `incrementPointer` calls that returned normally and whose `decrementPointer` has
not run yet. -/
structure ProxyState where
  obj : FfiObject
  world : World
  outstanding : Nat
  deriving DecidableEq, Repr

/-- A fresh proxy: counter 0, not destroyed, no call in flight. -/
def ProxyState.fresh (pointer : Pointer) (w : World) : ProxyState :=
  ⟨newFfiObject pointer, w, 0⟩

/-- The state after one operation, run as one step.  An `incrementPointer` that
panics leaves no call in flight behind it (its caller never reaches the deferred
`decrementPointer`). -/
def ProxyOp.apply (debugName : GoString) (op : ProxyOp) (s : ProxyState) : ProxyState :=
  match op with
  | .incrementPointer =>
    match s.obj.incrementPointer debugName s.world with
    | (.ok _, obj, w) => ⟨obj, w, s.outstanding + 1⟩
    | (.error _, obj, w) => ⟨obj, w, s.outstanding⟩
  | .decrementPointer =>
    match s.obj.decrementPointer s.world with
    | (_, obj, w) => ⟨obj, w, s.outstanding - 1⟩
  | .destroy =>
    match s.obj.destroy s.world with
    | (_, obj, w) => ⟨obj, w, s.outstanding⟩

/-- The state after a sequence of operations, one step after the other: an
interleaving of the operations of all users of the proxy. -/
def runOps (debugName : GoString) : List ProxyOp → ProxyState → ProxyState
  | [], s => s
  | op :: ops, s => runOps debugName ops (op.apply debugName s)

/-- The sequence of operations is well bracketed from state `s`: each
`decrementPointer` is the one of a call in flight. -/
def wellBracketed (debugName : GoString) : List ProxyOp → ProxyState → Bool
  | [], _ => true
  | op :: ops, s =>
    (decide (op ≠ ProxyOp.decrementPointer) || decide (0 < s.outstanding))
      && wellBracketed debugName ops (op.apply debugName s)

/-- The number of calls of the native free function on `pointer` in the log. -/
def freeCalls (pointer : Pointer) (w : World) : Nat :=
  w.calls.count (NativeCall.object_free pointer)

/-- The number of calls of the native clone function on `pointer` in the log. -/
def cloneCalls (pointer : Pointer) (w : World) : Nat :=
  w.calls.count (NativeCall.object_clone pointer)

/-! ## `concurrentHandleMap` -/

/-- The struct `concurrentHandleMap[T]`: the Go map as a function from keys to the
entry stored under them, and the `uint64` counter.  The lock makes every method one
atomic step. -/
structure concurrentHandleMap (T : Type) where
  handles : Nat → Option T
  currentHandle : Nat

/-- The function `newConcurrentHandleMap`. -/
def newConcurrentHandleMap {T : Type} : concurrentHandleMap T := ⟨fun _ => none, 0⟩

/-- The method `concurrentHandleMap.insert`: the new handle and the table after. -/
def concurrentHandleMap.insert {T : Type} (cm : concurrentHandleMap T) (obj : T) :
    Nat × concurrentHandleMap T :=
  let currentHandle := (cm.currentHandle + 1) % 2 ^ 64
  (currentHandle,
    ⟨fun k => if k = currentHandle then some obj else cm.handles k, currentHandle⟩)

/-- The method `concurrentHandleMap.remove`. -/
def concurrentHandleMap.remove {T : Type} (cm : concurrentHandleMap T) (handle : Nat) :
    concurrentHandleMap T :=
  ⟨fun k => if k = handle then none else cm.handles k, cm.currentHandle⟩

/-- The method `concurrentHandleMap.tryGet`: `some val` stands for `(val, true)` and
`none` for `(zero value, false)`. -/
def concurrentHandleMap.tryGet {T : Type} (cm : concurrentHandleMap T) (handle : Nat) :
    Option T :=
  cm.handles handle

/-- One operation on a handle table. -/
inductive HandleOp (T : Type) where
  | insert (obj : T)
  | remove (handle : Nat)
  | tryGet (handle : Nat)

/-- The table after one operation. -/
def HandleOp.apply {T : Type} (op : HandleOp T) (cm : concurrentHandleMap T) :
    concurrentHandleMap T :=
  match op with
  | .insert obj => (cm.insert obj).2
  | .remove handle => cm.remove handle
  | .tryGet _ => cm

/-- The handles that the inserts of a sequence of operations return, in order. -/
def issuedHandles {T : Type} : List (HandleOp T) → concurrentHandleMap T → List Nat
  | [], _ => []
  | .insert obj :: ops, cm => (cm.insert obj).1 :: issuedHandles ops (cm.insert obj).2
  | .remove handle :: ops, cm => issuedHandles ops (cm.remove handle)
  | .tryGet _ :: ops, cm => issuedHandles ops cm

/-- The table after a sequence of operations. -/
def runHandleOps {T : Type} : List (HandleOp T) → concurrentHandleMap T → concurrentHandleMap T
  | [], cm => cm
  | op :: ops, cm => runHandleOps ops (op.apply cm)

/-- The number of inserts in a sequence of operations. -/
def insertCount {T : Type} : List (HandleOp T) → Nat
  | [] => 0
  | .insert _ :: ops => insertCount ops + 1
  | _ :: ops => insertCount ops

/-- The bookkeeping that holds in every state of a well-bracketed run on a fresh
proxy for `pointer` when the native side reports success on every call: the counter
is the number of calls in flight, less one once `destroy` has run; it has not
overflowed; and the native free function has been called once more than the `base`
calls of the initial log exactly if the counter is -1. -/
def ProxyState.bookkeeping (pointer : Pointer) (base : Nat) (s : ProxyState) : Prop :=
  s.obj.pointer = pointer ∧ s.world.script = []
    ∧ s.obj.callCounter = (s.outstanding : Int) - (if s.obj.destroyed = true then 1 else 0)
    ∧ s.obj.callCounter ≤ MaxInt64
    ∧ freeCalls pointer s.world = base + (if s.obj.callCounter = -1 then 1 else 0)

/-! ## The contract version guard and `init` -/

/-- What the loaded native library reports to the guard: the value of
`ffi_breez_sdk_spark_uniffi_contract_version()` and, for each checksum function
`uniffi_breez_sdk_spark_checksum_<operation>()`, given by its name, its value. -/
structure NativeLibrary where
  contract_version : Nat
  checksum : String → Nat

/-- The checksum functions that `uniffiCheckChecksums` calls, in the order of the
source, each with the constant its result is compared with. -/
def checksumTable : List (String × Nat) :=
  [
    ("uniffi_breez_sdk_spark_checksum_func_connect", 40345),
    ("uniffi_breez_sdk_spark_checksum_func_default_config", 62194),
    ("uniffi_breez_sdk_spark_checksum_func_init_logging", 8518),
    ("uniffi_breez_sdk_spark_checksum_method_bitcoinchainservice_get_address_utxos", 20959),
    ("uniffi_breez_sdk_spark_checksum_method_bitcoinchainservice_get_transaction_status", 23018),
    ("uniffi_breez_sdk_spark_checksum_method_bitcoinchainservice_get_transaction_hex", 59376),
    ("uniffi_breez_sdk_spark_checksum_method_bitcoinchainservice_broadcast_transaction", 65179),
    ("uniffi_breez_sdk_spark_checksum_method_bitcoinchainservice_recommended_fees", 43230),
    ("uniffi_breez_sdk_spark_checksum_method_breezsdk_add_event_listener", 37737),
    ("uniffi_breez_sdk_spark_checksum_method_breezsdk_check_lightning_address_available", 31624),
    ("uniffi_breez_sdk_spark_checksum_method_breezsdk_check_message", 4385),
    ("uniffi_breez_sdk_spark_checksum_method_breezsdk_claim_deposit", 43529),
    ("uniffi_breez_sdk_spark_checksum_method_breezsdk_claim_htlc_payment", 57587),
    ("uniffi_breez_sdk_spark_checksum_method_breezsdk_delete_lightning_address", 44132),
    ("uniffi_breez_sdk_spark_checksum_method_breezsdk_disconnect", 330),
    ("uniffi_breez_sdk_spark_checksum_method_breezsdk_get_info", 6771),
    ("uniffi_breez_sdk_spark_checksum_method_breezsdk_get_lightning_address", 36552),
    ("uniffi_breez_sdk_spark_checksum_method_breezsdk_get_payment", 11540),
    ("uniffi_breez_sdk_spark_checksum_method_breezsdk_get_token_issuer", 26649),
    ("uniffi_breez_sdk_spark_checksum_method_breezsdk_get_tokens_metadata", 40125),
    ("uniffi_breez_sdk_spark_checksum_method_breezsdk_get_user_settings", 38537),
    ("uniffi_breez_sdk_spark_checksum_method_breezsdk_list_fiat_currencies", 63366),
    ("uniffi_breez_sdk_spark_checksum_method_breezsdk_list_fiat_rates", 5904),
    ("uniffi_breez_sdk_spark_checksum_method_breezsdk_list_payments", 16156),
    ("uniffi_breez_sdk_spark_checksum_method_breezsdk_list_unclaimed_deposits", 22486),
    ("uniffi_breez_sdk_spark_checksum_method_breezsdk_lnurl_pay", 10147),
    ("uniffi_breez_sdk_spark_checksum_method_breezsdk_lnurl_withdraw", 45652),
    ("uniffi_breez_sdk_spark_checksum_method_breezsdk_parse", 14285),
    ("uniffi_breez_sdk_spark_checksum_method_breezsdk_prepare_lnurl_pay", 37691),
    ("uniffi_breez_sdk_spark_checksum_method_breezsdk_prepare_send_payment", 34185),
    ("uniffi_breez_sdk_spark_checksum_method_breezsdk_receive_payment", 36984),
    ("uniffi_breez_sdk_spark_checksum_method_breezsdk_recommended_fees", 16947),
    ("uniffi_breez_sdk_spark_checksum_method_breezsdk_refund_deposit", 33646),
    ("uniffi_breez_sdk_spark_checksum_method_breezsdk_register_lightning_address", 530),
    ("uniffi_breez_sdk_spark_checksum_method_breezsdk_remove_event_listener", 41066),
    ("uniffi_breez_sdk_spark_checksum_method_breezsdk_send_payment", 54349),
    ("uniffi_breez_sdk_spark_checksum_method_breezsdk_sign_message", 57563),
    ("uniffi_breez_sdk_spark_checksum_method_breezsdk_sync_wallet", 30368),
    ("uniffi_breez_sdk_spark_checksum_method_breezsdk_update_user_settings", 1721),
    ("uniffi_breez_sdk_spark_checksum_method_fiatservice_fetch_fiat_currencies", 19092),
    ("uniffi_breez_sdk_spark_checksum_method_fiatservice_fetch_fiat_rates", 11512),
    ("uniffi_breez_sdk_spark_checksum_method_paymentobserver_before_send", 30686),
    ("uniffi_breez_sdk_spark_checksum_method_restclient_get_request", 8260),
    ("uniffi_breez_sdk_spark_checksum_method_restclient_post_request", 24889),
    ("uniffi_breez_sdk_spark_checksum_method_restclient_delete_request", 51072),
    ("uniffi_breez_sdk_spark_checksum_method_sdkbuilder_build", 8126),
    ("uniffi_breez_sdk_spark_checksum_method_sdkbuilder_with_chain_service", 2848),
    ("uniffi_breez_sdk_spark_checksum_method_sdkbuilder_with_default_storage", 14543),
    ("uniffi_breez_sdk_spark_checksum_method_sdkbuilder_with_fiat_service", 37854),
    ("uniffi_breez_sdk_spark_checksum_method_sdkbuilder_with_key_set", 42926),
    ("uniffi_breez_sdk_spark_checksum_method_sdkbuilder_with_lnurl_client", 51060),
    ("uniffi_breez_sdk_spark_checksum_method_sdkbuilder_with_payment_observer", 21617),
    ("uniffi_breez_sdk_spark_checksum_method_sdkbuilder_with_real_time_sync_storage", 20579),
    ("uniffi_breez_sdk_spark_checksum_method_sdkbuilder_with_rest_chain_service", 63155),
    ("uniffi_breez_sdk_spark_checksum_method_sdkbuilder_with_storage", 59400),
    ("uniffi_breez_sdk_spark_checksum_method_storage_delete_cached_item", 6883),
    ("uniffi_breez_sdk_spark_checksum_method_storage_get_cached_item", 30248),
    ("uniffi_breez_sdk_spark_checksum_method_storage_set_cached_item", 7970),
    ("uniffi_breez_sdk_spark_checksum_method_storage_list_payments", 19728),
    ("uniffi_breez_sdk_spark_checksum_method_storage_insert_payment", 28075),
    ("uniffi_breez_sdk_spark_checksum_method_storage_set_payment_metadata", 45500),
    ("uniffi_breez_sdk_spark_checksum_method_storage_get_payment_by_id", 35394),
    ("uniffi_breez_sdk_spark_checksum_method_storage_get_payment_by_invoice", 57075),
    ("uniffi_breez_sdk_spark_checksum_method_storage_add_deposit", 60240),
    ("uniffi_breez_sdk_spark_checksum_method_storage_delete_deposit", 60586),
    ("uniffi_breez_sdk_spark_checksum_method_storage_list_deposits", 54118),
    ("uniffi_breez_sdk_spark_checksum_method_storage_update_deposit", 39803),
    ("uniffi_breez_sdk_spark_checksum_method_storage_set_lnurl_metadata", 7460),
    ("uniffi_breez_sdk_spark_checksum_method_syncstorage_add_outgoing_change", 19087),
    ("uniffi_breez_sdk_spark_checksum_method_syncstorage_complete_outgoing_sync", 20071),
    ("uniffi_breez_sdk_spark_checksum_method_syncstorage_get_pending_outgoing_changes", 23473),
    ("uniffi_breez_sdk_spark_checksum_method_syncstorage_get_last_revision", 36887),
    ("uniffi_breez_sdk_spark_checksum_method_syncstorage_insert_incoming_records", 41782),
    ("uniffi_breez_sdk_spark_checksum_method_syncstorage_delete_incoming_record", 23002),
    ("uniffi_breez_sdk_spark_checksum_method_syncstorage_rebase_pending_outgoing_records", 61508),
    ("uniffi_breez_sdk_spark_checksum_method_syncstorage_get_incoming_records", 53552),
    ("uniffi_breez_sdk_spark_checksum_method_syncstorage_get_latest_outgoing_change", 16326),
    ("uniffi_breez_sdk_spark_checksum_method_syncstorage_update_record_from_incoming", 9986),
    ("uniffi_breez_sdk_spark_checksum_method_tokenissuer_burn_issuer_token", 56056),
    ("uniffi_breez_sdk_spark_checksum_method_tokenissuer_create_issuer_token", 33277),
    ("uniffi_breez_sdk_spark_checksum_method_tokenissuer_freeze_issuer_token", 32344),
    ("uniffi_breez_sdk_spark_checksum_method_tokenissuer_get_issuer_token_balance", 9758),
    ("uniffi_breez_sdk_spark_checksum_method_tokenissuer_get_issuer_token_metadata", 57707),
    ("uniffi_breez_sdk_spark_checksum_method_tokenissuer_mint_issuer_token", 36459),
    ("uniffi_breez_sdk_spark_checksum_method_tokenissuer_unfreeze_issuer_token", 65025),
    ("uniffi_breez_sdk_spark_checksum_constructor_sdkbuilder_new", 65435),
    ("uniffi_breez_sdk_spark_checksum_method_eventlistener_on_event", 24807),
    ("uniffi_breez_sdk_spark_checksum_method_logger_log", 11839)
  ]

/-- The blocks of `uniffiCheckChecksums` for the given entries, one after the other:
`checksum := rustCall(...)` around the checksum function, a callback that leaves the
status alone, then the comparison with the constant and the panic that names the
function. -/
def checkChecksumEntries (lib : NativeLibrary) : List (String × Nat) → World →
    Except Panic Unit × World
  | [], w => (.ok (), w)
  | (name, expected) :: rest, w =>
    match rustCall (fun status w => (lib.checksum name, status, w)) w with
    | (.error p, w) => (.error p, w)
    | (.ok checksum, w) =>
      if checksum ≠ expected then
        (.error (Panic.str
          (lit ("breez_sdk_spark: " ++ name ++ ": UniFFI API checksum mismatch"))), w)
      else checkChecksumEntries lib rest w

/-- The function `uniffiCheckChecksums`: the contract version first, then the 88
checksum blocks in source order. -/
def uniffiCheckChecksums (lib : NativeLibrary) (w : World) : Except Panic Unit × World :=
  let bindingsContractVersion := 26
  match rustCall (fun status w => (lib.contract_version, status, w)) w with
  | (.error p, w) => (.error p, w)
  | (.ok scaffoldingContractVersion, w) =>
    if bindingsContractVersion ≠ scaffoldingContractVersion then
      (.error (Panic.str (lit "breez_sdk_spark: UniFFI contract version mismatch")), w)
    else checkChecksumEntries lib checksumTable w

/-- The native entry point `uniffi_breez_sdk_spark_fn_init_callback_vtable_<name>`: it
takes no status and the registration is logged. -/
def uniffi_fn_init_callback_vtable (name : String) (w : World) : World :=
  { w with calls := w.calls ++ [NativeCall.init_callback_vtable name] }

/-- The method `FfiConverterBitcoinChainService.register`. -/
def FfiConverterBitcoinChainService.register (w : World) : World :=
  uniffi_fn_init_callback_vtable "bitcoinchainservice" w

/-- The method `FfiConverterFiatService.register`. -/
def FfiConverterFiatService.register (w : World) : World :=
  uniffi_fn_init_callback_vtable "fiatservice" w

/-- The method `FfiConverterPaymentObserver.register`. -/
def FfiConverterPaymentObserver.register (w : World) : World :=
  uniffi_fn_init_callback_vtable "paymentobserver" w

/-- The method `FfiConverterRestClient.register`. -/
def FfiConverterRestClient.register (w : World) : World :=
  uniffi_fn_init_callback_vtable "restclient" w

/-- The method `FfiConverterStorage.register`. -/
def FfiConverterStorage.register (w : World) : World :=
  uniffi_fn_init_callback_vtable "storage" w

/-- The method `FfiConverterSyncStorage.register`. -/
def FfiConverterSyncStorage.register (w : World) : World :=
  uniffi_fn_init_callback_vtable "syncstorage" w

/-- Modelled from the spec: the method `FfiConverterCallbackInterfaceEventListener.register`,
which `init` calls and whose body is not under src/.  The callback vtable of the
interface is "registered once per interface type during initialization" (spec §6),
as the six `register` methods above do. -/
def FfiConverterCallbackInterfaceEventListener.register (w : World) : World :=
  uniffi_fn_init_callback_vtable "eventlistener" w

/-- Modelled from the spec: the method `FfiConverterCallbackInterfaceLogger.register`,
which `init` calls and whose body is not under src/; see the one of `EventListener`. -/
def FfiConverterCallbackInterfaceLogger.register (w : World) : World :=
  uniffi_fn_init_callback_vtable "logger" w

/-- The function `init` of the package. -/
def init (lib : NativeLibrary) (w : World) : Except Panic Unit × World :=
  let w := FfiConverterBitcoinChainService.register w
  let w := FfiConverterFiatService.register w
  let w := FfiConverterPaymentObserver.register w
  let w := FfiConverterRestClient.register w
  let w := FfiConverterStorage.register w
  let w := FfiConverterSyncStorage.register w
  let w := FfiConverterCallbackInterfaceEventListener.register w
  let w := FfiConverterCallbackInterfaceLogger.register w
  uniffiCheckChecksums lib w

/-! ## Callback dispatch -/

/-- The constants of type `uniffiCallbackResult`. -/
def uniffiCallbackResultSuccess : Int := 0

/-- The constant `uniffiCallbackResultError`. -/
def uniffiCallbackResultError : Int := 1

/-- The constant `uniffiCallbackUnexpectedResultError`. -/
def uniffiCallbackUnexpectedResultError : Int := 2

/-- The constant `uniffiCallbackCancelled`. -/
def uniffiCallbackCancelled : Int := 3

/-- The C struct `UniffiForeignFuture`, the token handed back to native code: the
`cgo` handle of the cancel channel (its `free` field is always
`breez_sdk_spark_uniffiFreeGorutine`). -/
structure UniffiForeignFuture where
  handle : Nat
  deriving DecidableEq, Repr

/-- The C struct `UniffiForeignFutureStructRustBuffer`: what a dispatch publishes. -/
structure UniffiForeignFutureStructRustBuffer where
  returnValue : RustBuffer
  callStatus : RustCallStatus
  deriving DecidableEq, Repr

/-- The zero value `&C.UniffiForeignFutureStructRustBuffer{}`. -/
def UniffiForeignFutureStructRustBuffer.zero : UniffiForeignFutureStructRustBuffer :=
  ⟨⟨0, none⟩, RustCallStatus.zero⟩

/-- A non-nil Go `error` value, as far as `errors.As` with a target of type
`*ChainServiceError` tells errors apart: its dynamic type is `*ChainServiceError`
(`none` is the nil pointer of that type), or it wraps another error (`Unwrap`), or it
is of any other type. -/
inductive GoError (E : Type) where
  | typed (actual : Option E)
  | wrap (msg : GoString) (inner : GoError E)
  | other (msg : GoString)
  deriving DecidableEq, Repr

/-- The call `errors.As(err, &actualError)` for `actualError` of the typed error
pointer type: `some p` when it returns true and has set `actualError` to `p`, `none`
when it returns false. -/
def errorsAs {E : Type} : GoError E → Option (Option E)
  | .typed actual => some actual
  | .wrap _ inner => errorsAs inner
  | .other _ => none

/-- The free entry point
`breez_sdk_spark_cgo_dispatchCallbackInterfaceBitcoinChainServiceFree`. -/
def breez_sdk_spark_cgo_dispatchCallbackInterfaceBitcoinChainServiceFree {T : Type}
    (handleMap : concurrentHandleMap T) (handle : Nat) :
    Except Panic Unit × concurrentHandleMap T :=
  (.ok (), handleMap.remove handle)

/-- The task of `breez_sdk_spark_cgo_dispatchCallbackInterfaceBitcoinChainServiceMethod0`
that evaluates the callback, run to its end.  The converters of the result and of
the typed error are not under src/ and are parameters (`lowerRes`, `lowerErr`), as is
the method of the managed implementation.  The result is the value that the deferred
`result <- *asyncResult` publishes, the panic the task ends with if any, and the
world after it. -/
def evalCallbackMethod0 {R E : Type}
    (lowerRes : R → World → Except Panic RustBuffer × World)
    (lowerErr : E → World → Except Panic RustBuffer × World)
    (GetAddressUtxos : GoString → R × Option (GoError E))
    (address : RustBuffer) (w : World) :
    UniffiForeignFutureStructRustBuffer × Option Panic × World :=
  let asyncResult := UniffiForeignFutureStructRustBuffer.zero
  match FfiConverterString.Lift (GoRustBuffer address) w with
  | (.error p, w) => (asyncResult, some p, w)
  | (.ok arg, w) =>
    match GetAddressUtxos arg with
    | (res, err) =>
      let lowerResult := fun (w : World) =>
        match lowerRes res w with
        | (.error p, w) => (asyncResult, some p, w)
        | (.ok buf, w) => ({ asyncResult with returnValue := buf }, none, w)
      match err with
      | none => lowerResult w
      | some err =>
        match errorsAs err with
        | some actualError =>
          match actualError with
          | some e =>
            match lowerErr e w with
            | (.error p, w) => (asyncResult, some p, w)
            | (.ok buf, w) =>
              ({ asyncResult with
                  callStatus := ⟨uniffiCallbackResultError, buf⟩ }, none, w)
          | none => lowerResult w
        | none =>
          ({ asyncResult with
              callStatus := ⟨uniffiCallbackUnexpectedResultError, ⟨0, none⟩⟩ }, none, w)

/-- What a dispatch has set up once the lookup of the handle succeeded. -/
structure DispatchStarted where
  uniffiOutReturn : UniffiForeignFuture
  published : UniffiForeignFutureStructRustBuffer
  taskPanic : Option Panic
  deriving DecidableEq, Repr

/-- The entry point
`breez_sdk_spark_cgo_dispatchCallbackInterfaceBitcoinChainServiceMethod0`: the lookup
of the handle, the token written to `uniffiOutReturn` (`guardHandle` is the value of
`cgo.NewHandle(cancel)`), and the task that evaluates the callback.  The task that
waits for the result or the cancellation is `FutureEvent.apply`. -/
def breez_sdk_spark_cgo_dispatchCallbackInterfaceBitcoinChainServiceMethod0 {T R E : Type}
    (handleMap : concurrentHandleMap T)
    (lowerRes : R → World → Except Panic RustBuffer × World)
    (lowerErr : E → World → Except Panic RustBuffer × World)
    (GetAddressUtxos : T → GoString → R × Option (GoError E))
    (uniffiHandle : Nat) (address : RustBuffer) (guardHandle : Nat) (w : World) :
    Except Panic DispatchStarted × World :=
  let handle := uniffiHandle
  match handleMap.tryGet handle with
  | none => (.error (Panic.err (lit "no callback in handle map: " ++ fmtD handle)), w)
  | some uniffiObj =>
    match evalCallbackMethod0 lowerRes lowerErr (GetAddressUtxos uniffiObj) address w with
    | (published, taskPanic, w) => (.ok ⟨⟨guardHandle⟩, published, taskPanic⟩, w)

/-- Where the task that waits (`select` on `cancel` and `result`) stands. -/
inductive WaiterPhase where
  | waiting
  | cancelled
  | completed
  deriving DecidableEq, Repr

/-- The state shared by the two tasks of one dispatch: the value the evaluating task
has published if any, the contents of the buffered channels `result` and `cancel`
(capacity 1 each), the phase of the waiting task, and the values with which the native
completion callback has been invoked. -/
structure FutureState where
  published : Option UniffiForeignFutureStructRustBuffer
  result : Option UniffiForeignFutureStructRustBuffer
  cancel : Bool
  waiter : WaiterPhase
  callbacks : List UniffiForeignFutureStructRustBuffer
  deriving DecidableEq, Repr

/-- The state when the dispatch returns: both channels empty, the waiter waiting. -/
def FutureState.initial : FutureState := ⟨none, none, false, WaiterPhase.waiting, []⟩

/-- One step of one of the tasks, or of the environment. -/
inductive FutureEvent where
  /-- The evaluating task runs its deferred `result <- *asyncResult`. -/
  | publish (r : UniffiForeignFutureStructRustBuffer)
  /-- A value is sent on `cancel`. -/
  | requestCancel
  /-- The `select` of the waiting task runs `case <-cancel`. -/
  | selectCancel
  /-- The `select` of the waiting task runs `case res := <-result` and calls
  `call_UniffiForeignFutureCompleteRustBuffer` with `res`. -/
  | selectResult
  deriving DecidableEq, Repr

/-- The state after one event.  An event that cannot happen in the state (a second
send of the evaluating task, a send on a full channel, a `select` case whose channel
is empty or whose task has ended) leaves the state as it is. -/
def FutureEvent.apply (e : FutureEvent) (s : FutureState) : FutureState :=
  match e with
  | .publish r =>
    if s.published = none then { s with published := some r, result := some r } else s
  | .requestCancel =>
    if s.cancel = false then { s with cancel := true } else s
  | .selectCancel =>
    if s.waiter = WaiterPhase.waiting ∧ s.cancel = true then
      { s with cancel := false, waiter := WaiterPhase.cancelled }
    else s
  | .selectResult =>
    if s.waiter = WaiterPhase.waiting then
      match s.result with
      | some res =>
        { s with result := none, waiter := WaiterPhase.completed,
                 callbacks := s.callbacks ++ [res] }
      | none => s
    else s

/-- The state after a sequence of events: one interleaving of the tasks. -/
def runFuture : List FutureEvent → FutureState → FutureState
  | [], s => s
  | e :: es, s => runFuture es (e.apply s)

/-- The facts that hold in every state of one dispatch: what the channel `result`
holds and what the completion callback was invoked with is the published value, and
the callback has been invoked once if the waiting task completed and not at all
otherwise. -/
def FutureState.consistent (s : FutureState) : Prop :=
  (∀ r, s.result = some r → s.published = some r)
    ∧ (∀ r ∈ s.callbacks, s.published = some r)
    ∧ (s.waiter = WaiterPhase.completed → s.callbacks.length = 1)
    ∧ (s.waiter ≠ WaiterPhase.completed → s.callbacks = [])

/-! # Properties

## Lemmas on the big-endian encoding -/

theorem putBigEndian_length (n v : Nat) : (putBigEndian n v).length = n := by
  induction n with
  | zero => rfl
  | succ n ih => simp [putBigEndian, ih]

theorem byte_val (x : Nat) : (byte x).val = x % 256 := rfl

theorem foldl_putBigEndian (n v acc : Nat) :
    (putBigEndian n v).foldl (fun acc b => acc * 256 + b.val) acc
      = acc * 256 ^ n + v % 256 ^ n := by
  induction n generalizing acc with
  | zero => simp [putBigEndian, Nat.mod_one]
  | succ n ih =>
    simp only [putBigEndian, List.foldl_cons, ih, byte_val]
    have h1 : v >>> (8 * n) = v / 256 ^ n := by
      rw [Nat.shiftRight_eq_div_pow, pow_mul]; norm_num
    rw [h1, Nat.mod_pow_succ]
    ring

theorem getBigEndian_putBigEndian (n v : Nat) :
    getBigEndian (putBigEndian n v) = v % 256 ^ n := by
  simp [getBigEndian, foldl_putBigEndian]

theorem ioReadFull_append (bs rest : List Byte) (n : Nat) (hn : bs.length = n) (hpos : 0 < n) :
    ioReadFull (bs ++ rest) n = .ok (bs, rest) := by
  subst hn
  have h0 : bs.length ≠ 0 := by omega
  have h1 : ¬ (bs.length + rest.length = 0) := by omega
  simp [ioReadFull, h0, h1]

theorem binaryRead_putBigEndian (n v : Nat) (rest : List Byte) (hpos : 0 < n) :
    binaryRead (putBigEndian n v ++ rest) n = .ok (v % 256 ^ n, rest) := by
  simp [binaryRead, ioReadFull_append _ rest n (putBigEndian_length n v) hpos,
    getBigEndian_putBigEndian]

theorem binaryWrite_eq (writer : Writer) (size u : Nat) :
    binaryWrite writer size u = (none, writer ++ putBigEndian size u) := rfl

theorem asSigned_asUnsigned8 (v : Int) (h1 : -128 ≤ v) (h2 : v ≤ 127) :
    asSigned 8 (asUnsigned 8 v % 256 ^ 1) = v := by
  simp only [asSigned, asUnsigned]
  norm_num
  omega

theorem asSigned_asUnsigned16 (v : Int) (h1 : -32768 ≤ v) (h2 : v ≤ 32767) :
    asSigned 16 (asUnsigned 16 v % 256 ^ 2) = v := by
  simp only [asSigned, asUnsigned]
  norm_num
  omega

theorem asSigned_asUnsigned32 (v : Int) (h1 : -2147483648 ≤ v) (h2 : v ≤ 2147483647) :
    asSigned 32 (asUnsigned 32 v % 256 ^ 4) = v := by
  simp only [asSigned, asUnsigned]
  norm_num
  omega

theorem asSigned_asUnsigned64 (v : Int) (h1 : -9223372036854775808 ≤ v)
    (h2 : v ≤ 9223372036854775807) :
    asSigned 64 (asUnsigned 64 v % 256 ^ 8) = v := by
  simp only [asSigned, asUnsigned]
  norm_num
  omega

/-! ## Round trip of the fixed-width integers -/

/-- C7. For each of the eight fixed-width integer types and every value `v` of the
type (bounds included), the reader applied to the bytes of the writer followed by
any suffix returns `v` and leaves exactly the suffix unread; the writer appends
`sizeof(T)` bytes. -/
theorem fixed_width_round_trip :
    (∀ v : Int, -128 ≤ v → v ≤ 127 → ∀ suffix : List Byte,
      readInt8 ((writeInt8 [] v).2 ++ suffix) = .ok (v, suffix)
        ∧ (writeInt8 [] v).1 = .ok () ∧ (writeInt8 [] v).2.length = 1)
    ∧ (∀ v : Nat, v ≤ 255 → ∀ suffix : List Byte,
      readUint8 ((writeUint8 [] v).2 ++ suffix) = .ok (v, suffix)
        ∧ (writeUint8 [] v).1 = .ok () ∧ (writeUint8 [] v).2.length = 1)
    ∧ (∀ v : Int, -32768 ≤ v → v ≤ 32767 → ∀ suffix : List Byte,
      readInt16 ((writeInt16 [] v).2 ++ suffix) = .ok (v, suffix)
        ∧ (writeInt16 [] v).1 = .ok () ∧ (writeInt16 [] v).2.length = 2)
    ∧ (∀ v : Nat, v ≤ 65535 → ∀ suffix : List Byte,
      readUint16 ((writeUint16 [] v).2 ++ suffix) = .ok (v, suffix)
        ∧ (writeUint16 [] v).1 = .ok () ∧ (writeUint16 [] v).2.length = 2)
    ∧ (∀ v : Int, -2147483648 ≤ v → v ≤ 2147483647 → ∀ suffix : List Byte,
      readInt32 ((writeInt32 [] v).2 ++ suffix) = .ok (v, suffix)
        ∧ (writeInt32 [] v).1 = .ok () ∧ (writeInt32 [] v).2.length = 4)
    ∧ (∀ v : Nat, v ≤ 4294967295 → ∀ suffix : List Byte,
      readUint32 ((writeUint32 [] v).2 ++ suffix) = .ok (v, suffix)
        ∧ (writeUint32 [] v).1 = .ok () ∧ (writeUint32 [] v).2.length = 4)
    ∧ (∀ v : Int, -9223372036854775808 ≤ v → v ≤ 9223372036854775807 →
      ∀ suffix : List Byte,
      readInt64 ((writeInt64 [] v).2 ++ suffix) = .ok (v, suffix)
        ∧ (writeInt64 [] v).1 = .ok () ∧ (writeInt64 [] v).2.length = 8)
    ∧ (∀ v : Nat, v ≤ 18446744073709551615 → ∀ suffix : List Byte,
      readUint64 ((writeUint64 [] v).2 ++ suffix) = .ok (v, suffix)
        ∧ (writeUint64 [] v).1 = .ok () ∧ (writeUint64 [] v).2.length = 8) := by
  refine ⟨?_, ?_, ?_, ?_, ?_, ?_, ?_, ?_⟩
  · intro v h1 h2 suffix
    simp only [writeInt8, readInt8, binaryWrite_eq, List.nil_append,
      binaryRead_putBigEndian 1 _ suffix (by decide), putBigEndian_length,
      asSigned_asUnsigned8 v h1 h2, and_self]
  · intro v h suffix
    have hv : v % 2 ^ 8 % 256 ^ 1 = v := by omega
    simp only [writeUint8, readUint8, binaryWrite_eq, List.nil_append,
      binaryRead_putBigEndian 1 _ suffix (by decide), putBigEndian_length, hv, and_self]
  · intro v h1 h2 suffix
    simp only [writeInt16, readInt16, binaryWrite_eq, List.nil_append,
      binaryRead_putBigEndian 2 _ suffix (by decide), putBigEndian_length,
      asSigned_asUnsigned16 v h1 h2, and_self]
  · intro v h suffix
    have hv : v % 2 ^ 16 % 256 ^ 2 = v := by omega
    simp only [writeUint16, readUint16, binaryWrite_eq, List.nil_append,
      binaryRead_putBigEndian 2 _ suffix (by decide), putBigEndian_length, hv, and_self]
  · intro v h1 h2 suffix
    simp only [writeInt32, readInt32, binaryWrite_eq, List.nil_append,
      binaryRead_putBigEndian 4 _ suffix (by decide), putBigEndian_length,
      asSigned_asUnsigned32 v h1 h2, and_self]
  · intro v h suffix
    have hv : v % 2 ^ 32 % 256 ^ 4 = v := by omega
    simp only [writeUint32, readUint32, binaryWrite_eq, List.nil_append,
      binaryRead_putBigEndian 4 _ suffix (by decide), putBigEndian_length, hv, and_self]
  · intro v h1 h2 suffix
    simp only [writeInt64, readInt64, binaryWrite_eq, List.nil_append,
      binaryRead_putBigEndian 8 _ suffix (by decide), putBigEndian_length,
      asSigned_asUnsigned64 v h1 h2, and_self]
  · intro v h suffix
    have hv : v % 2 ^ 64 % 256 ^ 8 = v := by omega
    simp only [writeUint64, readUint64, binaryWrite_eq, List.nil_append,
      binaryRead_putBigEndian 8 _ suffix (by decide), putBigEndian_length, hv, and_self]

theorem fixed_width_round_trip_witness :
    readInt8 ((writeInt8 [] (-128)).2 ++ [7]) = .ok (-128, [7])
    ∧ readUint8 ((writeUint8 [] 255).2 ++ [7]) = .ok (255, [7])
    ∧ readInt16 ((writeInt16 [] 32767).2 ++ [7]) = .ok (32767, [7])
    ∧ readUint16 ((writeUint16 [] 0).2 ++ [7]) = .ok (0, [7])
    ∧ readInt32 ((writeInt32 [] (-2147483648)).2 ++ [7]) = .ok (-2147483648, [7])
    ∧ readUint32 ((writeUint32 [] 4294967295).2 ++ [7]) = .ok (4294967295, [7])
    ∧ readInt64 ((writeInt64 [] (-9223372036854775808)).2 ++ [7])
        = .ok (-9223372036854775808, [7])
    ∧ readUint64 ((writeUint64 [] 18446744073709551615).2 ++ [7])
        = .ok (18446744073709551615, [7]) :=
  ⟨(fixed_width_round_trip.1 (-128) (by decide) (by decide) [7]).1,
   (fixed_width_round_trip.2.1 255 (by decide) [7]).1,
   (fixed_width_round_trip.2.2.1 32767 (by decide) (by decide) [7]).1,
   (fixed_width_round_trip.2.2.2.1 0 (by decide) [7]).1,
   (fixed_width_round_trip.2.2.2.2.1 (-2147483648) (by decide) (by decide) [7]).1,
   (fixed_width_round_trip.2.2.2.2.2.1 4294967295 (by decide) [7]).1,
   (fixed_width_round_trip.2.2.2.2.2.2.1 (-9223372036854775808) (by decide) (by decide) [7]).1,
   (fixed_width_round_trip.2.2.2.2.2.2.2 18446744073709551615 (by decide) [7]).1⟩

/-! ## Byte order of the writers -/

theorem mask_eq_mod (x : Nat) : x &&& 0xFF = x % 256 :=
  Nat.and_pow_two_sub_one_eq_mod x 8

/-- C8. For the widths 16, 32 and 64 and every value `v`, `writeUint<w>` appends
exactly `w/8` bytes after the bytes already in the stream, and byte `i` of them is
`(v >> (w - 8*(i+1))) & 0xFF`; each signed writer appends what the unsigned writer
of its width appends for the two's complement of the value (`v` when `v ≥ 0`,
`2^w + v` when `v < 0`). -/
theorem writers_big_endian :
    (∀ (writer : Writer) (v : Nat), v < 2 ^ 16 → ∃ bytes : List Byte,
      writeUint16 writer v = (.ok (), writer ++ bytes) ∧ bytes.length = 2
        ∧ ∀ i, i < 2 →
          bytes[i]?.map (fun b => b.val) = some ((v >>> (16 - 8 * (i + 1))) &&& 0xFF))
    ∧ (∀ (writer : Writer) (v : Nat), v < 2 ^ 32 → ∃ bytes : List Byte,
      writeUint32 writer v = (.ok (), writer ++ bytes) ∧ bytes.length = 4
        ∧ ∀ i, i < 4 →
          bytes[i]?.map (fun b => b.val) = some ((v >>> (32 - 8 * (i + 1))) &&& 0xFF))
    ∧ (∀ (writer : Writer) (v : Nat), v < 2 ^ 64 → ∃ bytes : List Byte,
      writeUint64 writer v = (.ok (), writer ++ bytes) ∧ bytes.length = 8
        ∧ ∀ i, i < 8 →
          bytes[i]?.map (fun b => b.val) = some ((v >>> (64 - 8 * (i + 1))) &&& 0xFF))
    ∧ (∀ (writer : Writer) (v : Int), -2 ^ 7 ≤ v → v < 2 ^ 7 →
      writeInt8 writer v
        = writeUint8 writer (if 0 ≤ v then v.toNat else (2 ^ 8 + v).toNat))
    ∧ (∀ (writer : Writer) (v : Int), -2 ^ 15 ≤ v → v < 2 ^ 15 →
      writeInt16 writer v
        = writeUint16 writer (if 0 ≤ v then v.toNat else (2 ^ 16 + v).toNat))
    ∧ (∀ (writer : Writer) (v : Int), -2 ^ 31 ≤ v → v < 2 ^ 31 →
      writeInt32 writer v
        = writeUint32 writer (if 0 ≤ v then v.toNat else (2 ^ 32 + v).toNat))
    ∧ (∀ (writer : Writer) (v : Int), -2 ^ 63 ≤ v → v < 2 ^ 63 →
      writeInt64 writer v
        = writeUint64 writer (if 0 ≤ v then v.toNat else (2 ^ 64 + v).toNat)) := by
  refine ⟨?_, ?_, ?_, ?_, ?_, ?_, ?_⟩
  · intro writer v hv
    refine ⟨putBigEndian 2 (v % 2 ^ 16), rfl, putBigEndian_length _ _, ?_⟩
    intro i hi
    interval_cases i <;>
      simp [putBigEndian, byte, mask_eq_mod, Nat.shiftRight_eq_div_pow] <;> omega
  · intro writer v hv
    refine ⟨putBigEndian 4 (v % 2 ^ 32), rfl, putBigEndian_length _ _, ?_⟩
    intro i hi
    interval_cases i <;>
      simp [putBigEndian, byte, mask_eq_mod, Nat.shiftRight_eq_div_pow] <;> omega
  · intro writer v hv
    refine ⟨putBigEndian 8 (v % 2 ^ 64), rfl, putBigEndian_length _ _, ?_⟩
    intro i hi
    interval_cases i <;>
      simp [putBigEndian, byte, mask_eq_mod, Nat.shiftRight_eq_div_pow] <;> omega
  · intro writer v h1 h2
    have h : asUnsigned 8 v = (if 0 ≤ v then v.toNat else (2 ^ 8 + v).toNat) % 2 ^ 8 := by
      simp only [asUnsigned]; split <;> omega
    simp only [writeInt8, writeUint8, h]
  · intro writer v h1 h2
    have h : asUnsigned 16 v = (if 0 ≤ v then v.toNat else (2 ^ 16 + v).toNat) % 2 ^ 16 := by
      simp only [asUnsigned]; split <;> omega
    simp only [writeInt16, writeUint16, h]
  · intro writer v h1 h2
    have h : asUnsigned 32 v = (if 0 ≤ v then v.toNat else (2 ^ 32 + v).toNat) % 2 ^ 32 := by
      simp only [asUnsigned]; split <;> omega
    simp only [writeInt32, writeUint32, h]
  · intro writer v h1 h2
    have h : asUnsigned 64 v = (if 0 ≤ v then v.toNat else (2 ^ 64 + v).toNat) % 2 ^ 64 := by
      simp only [asUnsigned]; split <;> omega
    simp only [writeInt64, writeUint64, h]

theorem writers_big_endian_witness :
    (∃ bytes : List Byte,
      writeUint16 [1] 0xABCD = (.ok (), [1] ++ bytes) ∧ bytes.length = 2
        ∧ ∀ i, i < 2 →
          bytes[i]?.map (fun b => b.val) = some ((0xABCD >>> (16 - 8 * (i + 1))) &&& 0xFF))
    ∧ writeInt32 [1] (-2) = writeUint32 [1] (if (0 : Int) ≤ -2 then (-2 : Int).toNat
        else (2 ^ 32 + (-2) : Int).toNat) :=
  ⟨writers_big_endian.1 [1] 0xABCD (by decide),
   writers_big_endian.2.2.2.2.2.1 [1] (-2) (by decide) (by decide)⟩

/-! ## Round trip of strings and byte sequences -/

theorem bytesReaderRead_append (s rest : List Byte) :
    ∃ e, (e = none ∨ e = some IoError.EOF)
      ∧ bytesReaderRead (s ++ rest) s.length = (s.length, e, s, rest) := by
  by_cases h : (s ++ rest).length = 0
  · have hs : s = [] := by
      cases s with
      | nil => rfl
      | cons a t => simp at h
    have hr : rest = [] := by
      subst hs
      cases rest with
      | nil => rfl
      | cons a t => simp at h
    subst hs hr
    exact ⟨some IoError.EOF, Or.inr rfl, by simp [bytesReaderRead]⟩
  · refine ⟨none, Or.inl rfl, ?_⟩
    have h2 : ¬ (s.length + rest.length = 0) := by simpa using h
    simp [bytesReaderRead, h2]

theorem readInt32_length (n : Nat) (rest : List Byte) (hn : n ≤ MaxInt32) :
    readInt32 (putBigEndian 4 (asUnsigned 32 (n : Int)) ++ rest) = .ok ((n : Int), rest) := by
  have h := asSigned_asUnsigned32 (n : Int) (by omega) (by simp only [MaxInt32] at hn; omega)
  simp only [readInt32, binaryRead_putBigEndian 4 _ rest (by decide), h]

theorem stringWrite_eq (writer : Writer) (value : GoString) (h : value.length ≤ MaxInt32) :
    FfiConverterString.Write writer value
      = (.ok (), writer ++ putBigEndian 4 (asUnsigned 32 (value.length : Int)) ++ value) := by
  have h1 : ¬ (value.length > MaxInt32) := by omega
  simp [FfiConverterString.Write, h1, writeInt32, binaryWrite_eq, bufferWrite]

theorem bytesWrite_eq (writer : Writer) (value : List Byte) (h : value.length ≤ MaxInt32) :
    FfiConverterBytes.Write writer value
      = (.ok (), writer ++ putBigEndian 4 (asUnsigned 32 (value.length : Int)) ++ value) := by
  have h1 : ¬ (value.length > MaxInt32) := by omega
  simp [FfiConverterBytes.Write, h1, writeInt32, binaryWrite_eq, bufferWrite]

theorem stringRead_encoded (s : GoString) (rest : List Byte) (h : s.length ≤ MaxInt32) :
    FfiConverterString.Read
        (putBigEndian 4 (asUnsigned 32 (s.length : Int)) ++ s ++ rest) = .ok (s, rest) := by
  obtain ⟨e, he, hread⟩ := bytesReaderRead_append s rest
  rw [List.append_assoc]
  simp only [FfiConverterString.Read, readInt32_length s.length (s ++ rest) h]
  have hneg : ¬ ((s.length : Int) < 0) := by omega
  simp only [hneg, if_false, Int.toNat_ofNat, hread]
  rcases he with he | he <;> simp [he]

theorem bytesRead_encoded (s : List Byte) (rest : List Byte) (h : s.length ≤ MaxInt32) :
    FfiConverterBytes.Read
        (putBigEndian 4 (asUnsigned 32 (s.length : Int)) ++ s ++ rest) = .ok (s, rest) := by
  obtain ⟨e, he, hread⟩ := bytesReaderRead_append s rest
  rw [List.append_assoc]
  simp only [FfiConverterBytes.Read, readInt32_length s.length (s ++ rest) h]
  have hneg : ¬ ((s.length : Int) < 0) := by omega
  simp only [hneg, if_false, Int.toNat_ofNat, hread]
  rcases he with he | he <;> simp [he]

/-- C9. For every string `s` and every byte sequence `b` of at most `2^31 - 1` bytes
(the empty ones included), `Write` succeeds and emits `4 + length` bytes, and `Read`
applied to those bytes followed by any further bytes returns the value and leaves
exactly the further bytes unread. -/
theorem string_bytes_round_trip :
    (∀ s : GoString, s.length ≤ 2 ^ 31 - 1 → ∀ rest : List Byte,
      (FfiConverterString.Write [] s).1 = .ok ()
        ∧ (FfiConverterString.Write [] s).2.length = 4 + s.length
        ∧ FfiConverterString.Read ((FfiConverterString.Write [] s).2 ++ rest) = .ok (s, rest))
    ∧ (∀ b : List Byte, b.length ≤ 2 ^ 31 - 1 → ∀ rest : List Byte,
      (FfiConverterBytes.Write [] b).1 = .ok ()
        ∧ (FfiConverterBytes.Write [] b).2.length = 4 + b.length
        ∧ FfiConverterBytes.Read ((FfiConverterBytes.Write [] b).2 ++ rest) = .ok (b, rest)) := by
  constructor
  · intro s hs rest
    have h : s.length ≤ MaxInt32 := by simp only [MaxInt32]; omega
    rw [stringWrite_eq [] s h]
    refine ⟨rfl, ?_, ?_⟩
    · simp [putBigEndian_length]
    · simpa using stringRead_encoded s rest h
  · intro b hb rest
    have h : b.length ≤ MaxInt32 := by simp only [MaxInt32]; omega
    rw [bytesWrite_eq [] b h]
    refine ⟨rfl, ?_, ?_⟩
    · simp [putBigEndian_length]
    · simpa using bytesRead_encoded b rest h

theorem string_bytes_round_trip_witness :
    ((FfiConverterString.Write [] []).1 = .ok ()
        ∧ (FfiConverterString.Write [] []).2.length = 4 + ([] : GoString).length
        ∧ FfiConverterString.Read ((FfiConverterString.Write [] []).2 ++ []) = .ok ([], []))
    ∧ ((FfiConverterBytes.Write [] [1, 2, 3]).1 = .ok ()
        ∧ (FfiConverterBytes.Write [] [1, 2, 3]).2.length = 4 + ([1, 2, 3] : List Byte).length
        ∧ FfiConverterBytes.Read ((FfiConverterBytes.Write [] [1, 2, 3]).2 ++ [9])
            = .ok ([1, 2, 3], [9])) :=
  ⟨string_bytes_round_trip.1 [] (by decide) [],
   string_bytes_round_trip.2 [1, 2, 3] (by decide) [9]⟩

/-! ## The length prefix -/

theorem asUnsigned32_length (n : Nat) (hn : n ≤ MaxInt32) : asUnsigned 32 (n : Int) = n := by
  simp only [MaxInt32] at hn
  simp only [asUnsigned]
  omega

/-- C10. For a value of at most `2^31 - 1` bytes, `FfiConverterString.Write` and
`FfiConverterBytes.Write` succeed and append, after what the stream holds, four
bytes that are the big-endian signed 32-bit encoding of the number of bytes of the
value, followed by exactly those bytes; for a longer value they fail and leave the
stream as it was. -/
theorem length_prefix_then_bytes :
    (∀ (writer : Writer) (value : GoString), value.length ≤ 2 ^ 31 - 1 →
      FfiConverterString.Write writer value
          = (.ok (), writer ++ [byte (value.length >>> 24), byte (value.length >>> 16),
              byte (value.length >>> 8), byte value.length] ++ value)
        ∧ readInt32 [byte (value.length >>> 24), byte (value.length >>> 16),
              byte (value.length >>> 8), byte value.length] = .ok ((value.length : Int), []))
    ∧ (∀ (writer : Writer) (value : List Byte), value.length ≤ 2 ^ 31 - 1 →
      FfiConverterBytes.Write writer value
          = (.ok (), writer ++ [byte (value.length >>> 24), byte (value.length >>> 16),
              byte (value.length >>> 8), byte value.length] ++ value)
        ∧ readInt32 [byte (value.length >>> 24), byte (value.length >>> 16),
              byte (value.length >>> 8), byte value.length] = .ok ((value.length : Int), []))
    ∧ (∀ (writer : Writer) (value : GoString), value.length > 2 ^ 31 - 1 →
      FfiConverterString.Write writer value
        = (.error (Panic.str (lit "String is too large to fit into Int32")), writer))
    ∧ (∀ (writer : Writer) (value : List Byte), value.length > 2 ^ 31 - 1 →
      FfiConverterBytes.Write writer value
        = (.error (Panic.str (lit "[]byte is too large to fit into Int32")), writer)) := by
  have hput : ∀ n : Nat, n ≤ MaxInt32 →
      putBigEndian 4 (asUnsigned 32 (n : Int))
        = [byte (n >>> 24), byte (n >>> 16), byte (n >>> 8), byte n] := by
    intro n hn
    rw [asUnsigned32_length n hn]
    simp [putBigEndian]
  refine ⟨?_, ?_, ?_, ?_⟩
  · intro writer value hv
    have h : value.length ≤ MaxInt32 := by simp only [MaxInt32]; omega
    constructor
    · rw [stringWrite_eq writer value h, hput _ h]
    · have := readInt32_length value.length [] h
      rwa [hput _ h, List.append_nil] at this
  · intro writer value hv
    have h : value.length ≤ MaxInt32 := by simp only [MaxInt32]; omega
    constructor
    · rw [bytesWrite_eq writer value h, hput _ h]
    · have := readInt32_length value.length [] h
      rwa [hput _ h, List.append_nil] at this
  · intro writer value hv
    have h : value.length > MaxInt32 := by simp only [MaxInt32]; omega
    simp [FfiConverterString.Write, h]
  · intro writer value hv
    have h : value.length > MaxInt32 := by simp only [MaxInt32]; omega
    simp [FfiConverterBytes.Write, h]

theorem length_prefix_then_bytes_witness :
    (FfiConverterString.Write [5] [104, 105]
          = (.ok (), ([5] : Writer) ++ [byte (([104, 105] : GoString).length >>> 24),
              byte (([104, 105] : GoString).length >>> 16),
              byte (([104, 105] : GoString).length >>> 8),
              byte ([104, 105] : GoString).length] ++ [104, 105])
        ∧ readInt32 [byte (([104, 105] : GoString).length >>> 24),
              byte (([104, 105] : GoString).length >>> 16),
              byte (([104, 105] : GoString).length >>> 8),
              byte ([104, 105] : GoString).length]
            = .ok ((([104, 105] : GoString).length : Int), []))
    ∧ FfiConverterBytes.Write [5] (List.replicate 2147483648 0)
        = (.error (Panic.str (lit "[]byte is too large to fit into Int32")), [5]) :=
  ⟨length_prefix_then_bytes.1 [5] [104, 105] (by decide),
   length_prefix_then_bytes.2.2.2 [5] (List.replicate 2147483648 0)
     (by rw [List.length_replicate]; decide)⟩

/-! ## Releasing a buffer -/

theorem liftFromRustBuffer_nil_not_ok (rbuf : RustBufferI) (w : World) (r : Option GoString) :
    (LiftFromRustBuffer (none : BufReader (Option GoString)) rbuf w).1 ≠ .ok r := by
  simp only [LiftFromRustBuffer]
  cases h : rbuf.Free w with
  | mk res w1 =>
    cases res with
    | error p => simp
    | ok u => simp

theorem free_script_nil (cb : RustBuffer) (w : World) (h : w.script = []) :
    GoRustBuffer.Free cb w
      = (.ok (), { w with calls := w.calls ++ [NativeCall.rustbuffer_free cb] }) := by
  simp [GoRustBuffer.Free, GoRustBuffer.FreeDepth, rustCallWith, rustCallWithErrorWith,
    ffi_breez_sdk_spark_rustbuffer_free, h, checkCallStatusWith, RustCallStatus.zero]

theorem free_script_success (cb : RustBuffer) (w : World) (s : RustCallStatus)
    (rest : List RustCallStatus) (h : w.script = s :: rest) (hs : s.code = 0) :
    GoRustBuffer.Free cb w
      = (.ok (), { calls := w.calls ++ [NativeCall.rustbuffer_free cb], script := rest }) := by
  simp [GoRustBuffer.Free, GoRustBuffer.FreeDepth, rustCallWith, rustCallWithErrorWith,
    ffi_breez_sdk_spark_rustbuffer_free, h, checkCallStatusWith, hs]

theorem checkCallStatusWith_nil_ok (g : RustBuffer → RustBufferI) (status : RustCallStatus)
    (w : World) (r : Option GoString)
    (h : (checkCallStatusWith g (none : BufReader (Option GoString)) status w).1 = .ok r) :
    status.code = 0 := by
  by_contra hc
  simp only [checkCallStatusWith, hc, if_false] at h
  by_cases h1 : status.code = 1
  · simp only [h1, if_true] at h
    exact liftFromRustBuffer_nil_not_ok _ _ _ h
  · simp only [h1, if_false] at h
    by_cases h2 : status.code = 2
    · simp only [h2, if_true] at h
      by_cases h3 : status.errorBuf.len > 0
      · simp only [h3, if_true] at h
        cases hl : FfiConverterString.Lift (g status.errorBuf) w with
        | mk res w1 =>
          rw [hl] at h
          cases res with
          | error p => simp at h
          | ok u => simp at h
      · simp [h3] at h
    · simp [h2] at h

theorem rustCallWith_ok {U : Type} (g : RustBuffer → RustBufferI)
    (callback : RustCallStatus → World → U × RustCallStatus × World) (w : World) (u : U)
    (h : (rustCallWith g callback w).1 = .ok u) :
    (callback RustCallStatus.zero w).2.1.code = 0
      ∧ rustCallWith g callback w
          = (.ok (callback RustCallStatus.zero w).1, (callback RustCallStatus.zero w).2.2) := by
  cases hcb : callback RustCallStatus.zero w with
  | mk ret rest =>
    cases rest with
    | mk status w1 =>
      simp only [rustCallWith, rustCallWithErrorWith, hcb] at h ⊢
      cases hck : checkCallStatusWith g (none : BufReader (Option GoString)) status w1 with
      | mk res w2 =>
        have hcode : res = .ok none → status.code = 0 := by
          intro hres
          apply checkCallStatusWith_nil_ok g status w1 none
          rw [hck, hres]
        rw [hck] at h
        cases res with
        | error p => simp at h
        | ok e =>
          cases e with
          | some m => simp at h
          | none =>
            have h0 := hcode rfl
            refine ⟨h0, ?_⟩
            have : checkCallStatusWith g (none : BufReader (Option GoString)) status w1
                = (.ok none, w1) := by
              simp [checkCallStatusWith, h0]
            rw [this] at hck
            cases hck
            rfl

theorem free_ok_world (cb : RustBuffer) (w : World)
    (h : (GoRustBuffer.Free cb w).1 = .ok ()) :
    (GoRustBuffer.Free cb w).2
      = { calls := w.calls ++ [NativeCall.rustbuffer_free cb], script := w.script.tail } := by
  cases hs : w.script with
  | nil =>
    rw [free_script_nil cb w hs]
    cases w
    simp_all
  | cons s rest =>
    by_cases hc : s.code = 0
    · rw [free_script_success cb w s rest hs hc]
      simp
    · exfalso
      simp only [GoRustBuffer.Free, GoRustBuffer.FreeDepth] at h
      generalize hg : (fun b => (⟨GoRustBuffer.AsReader b,
        GoRustBuffer.FreeDepth w.script.length b⟩ : RustBufferI)) = g at h
      generalize hcb : (fun (status : RustCallStatus) (w : World) =>
        match ffi_breez_sdk_spark_rustbuffer_free cb status w with
        | (status, w) => (false, status, w)) = callback at h
      cases hr : rustCallWith g callback w with
      | mk res w2 =>
        rw [hr] at h
        cases res with
        | error p => simp at h
        | ok u =>
          have := (rustCallWith_ok g callback w u (by rw [hr])).1
          rw [← hcb] at this
          simp [ffi_breez_sdk_spark_rustbuffer_free, hs] at this
          exact hc this

theorem checkCallStatusWith_congr {E : Type} (g1 g2 : RustBuffer → RustBufferI)
    (converter : BufReader (Option E)) (status : RustCallStatus) (w : World)
    (hr : (g1 status.errorBuf).AsReader = (g2 status.errorBuf).AsReader)
    (hf : status.code ≠ 0 → (g1 status.errorBuf).Free w = (g2 status.errorBuf).Free w) :
    checkCallStatusWith g1 converter status w = checkCallStatusWith g2 converter status w := by
  by_cases hc : status.code = 0
  · simp [checkCallStatusWith, hc]
  · simp only [checkCallStatusWith, LiftFromRustBuffer, FfiConverterString.Lift, hr, hf hc]

theorem rustCallWith_congr {U : Type} (g1 g2 : RustBuffer → RustBufferI)
    (callback : RustCallStatus → World → U × RustCallStatus × World) (w : World)
    (hr : ∀ b, (g1 b).AsReader = (g2 b).AsReader)
    (hf : (callback RustCallStatus.zero w).2.1.code ≠ 0 →
      (g1 (callback RustCallStatus.zero w).2.1.errorBuf).Free (callback RustCallStatus.zero w).2.2
        = (g2 (callback RustCallStatus.zero w).2.1.errorBuf).Free
            (callback RustCallStatus.zero w).2.2) :
    rustCallWith g1 callback w = rustCallWith g2 callback w := by
  cases hcb : callback RustCallStatus.zero w with
  | mk ret rest =>
    cases rest with
    | mk status w1 =>
      rw [hcb] at hf
      simp only [rustCallWith, rustCallWithErrorWith, hcb]
      rw [checkCallStatusWith_congr g1 g2 none status w1 (hr _) hf]

theorem freeDepth_succ (n : Nat) (cb : RustBuffer) (w : World) :
    GoRustBuffer.FreeDepth (n + 1) cb w
      = match rustCallWith (fun b => ⟨GoRustBuffer.AsReader b, GoRustBuffer.FreeDepth n b⟩)
          (fun status w =>
            match ffi_breez_sdk_spark_rustbuffer_free cb status w with
            | (status, w) => (false, status, w)) w with
        | (.error p, w) => (.error p, w)
        | (.ok _, w) => (.ok (), w) := rfl

theorem freeDepth_stable (n : Nat) :
    ∀ (cb : RustBuffer) (w : World), w.script.length < n →
      GoRustBuffer.FreeDepth n cb w = GoRustBuffer.FreeDepth (w.script.length + 1) cb w := by
  induction n with
  | zero => intro cb w h; omega
  | succ n ih =>
    intro cb w h
    rw [freeDepth_succ, freeDepth_succ]
    congr 1
    apply rustCallWith_congr
    · intro b; rfl
    · intro hcode
      cases hs : w.script with
      | nil =>
        exfalso
        simp [ffi_breez_sdk_spark_rustbuffer_free, hs, RustCallStatus.zero] at hcode
      | cons s rest =>
        have hlen : rest.length < n := by rw [hs] at h; simp at h; omega
        have key := ih s.errorBuf
          { calls := w.calls ++ [NativeCall.rustbuffer_free cb], script := rest } hlen
        simp only [ffi_breez_sdk_spark_rustbuffer_free, hs, List.length_cons]
        exact key

/-- The depth bound in `GoRustBuffer.Free` is never reached: `Free` is the body of the
source function, `rustCall` around the native free. -/
theorem free_eq_rustCall (cb : RustBuffer) (w : World) :
    GoRustBuffer.Free cb w
      = match rustCall (fun status w =>
            match ffi_breez_sdk_spark_rustbuffer_free cb status w with
            | (status, w) => (false, status, w)) w with
        | (.error p, w) => (.error p, w)
        | (.ok _, w) => (.ok (), w) := by
  rw [GoRustBuffer.Free, freeDepth_succ, rustCall]
  congr 1
  apply rustCallWith_congr
  · intro b; rfl
  · intro hcode
    cases hs : w.script with
    | nil =>
      exfalso
      simp [ffi_breez_sdk_spark_rustbuffer_free, hs, RustCallStatus.zero] at hcode
    | cons s rest =>
      simp only [ffi_breez_sdk_spark_rustbuffer_free, hs, List.length_cons, GoRustBuffer,
        GoRustBuffer.Free]

/-! ## The call-status triage -/

/-- C1, as the code has it. For a status with code 1 whose `errorBuf` holds exactly
the bytes that the error converter's `Write` produces for the typed error `e` (bytes
that the converter's `Read` decodes back to a non-nil `e`, consuming all of them),
and for a native library that reports success when the buffer is released (the
deferred `Free` returns normally), `checkCallStatus` returns normally with the
non-nil result `e`, which is the result of the converter's `Read` on the whole
`errorBuf`. -/
theorem checkCallStatus_typed_error {E : Type}
    (read : Reader → Except Panic (Option E × Reader)) (write : E → List Byte) (e : E)
    (status : RustCallStatus) (w : World)
    (hcode : status.code = 1)
    (hbuf : status.errorBuf.data = some (write e))
    (hround : read (write e) = .ok (some e, []))
    (hfree : (GoRustBuffer.Free status.errorBuf w).1 = .ok ()) :
    (checkCallStatus (some read) status w).1 = .ok (some e)
      ∧ (read (GoRustBuffer.AsReader status.errorBuf)).map Prod.fst = .ok (some e) := by
  have hreader : GoRustBuffer.AsReader status.errorBuf = write e := by
    simp [GoRustBuffer.AsReader, hbuf]
  constructor
  · simp only [checkCallStatus, checkCallStatusWith, hcode, LiftFromRustBuffer, GoRustBuffer,
      hreader, hround]
    cases hf : GoRustBuffer.Free status.errorBuf w with
    | mk res w1 =>
      rw [hf] at hfree
      simp only at hfree
      subst hfree
      simp
  · rw [hreader, hround]
    rfl

theorem checkCallStatus_typed_error_witness :
    (checkCallStatus
        (some (fun r => match FfiConverterString.Read r with
          | .ok (s, r) => .ok (some s, r)
          | .error p => .error p))
        ⟨1, ⟨6, some [0, 0, 0, 2, 104, 105]⟩⟩ ⟨[], []⟩).1 = .ok (some [104, 105])
      ∧ (match FfiConverterString.Read
            (GoRustBuffer.AsReader ⟨6, some [0, 0, 0, 2, 104, 105]⟩) with
          | .ok (s, r) => (.ok (some s, r) : Except Panic (Option GoString × Reader))
          | .error p => .error p).map Prod.fst = .ok (some [104, 105]) :=
  checkCallStatus_typed_error
    (fun r => match FfiConverterString.Read r with
      | .ok (s, r) => .ok (some s, r)
      | .error p => .error p)
    (fun s => (FfiConverterString.Write [] s).2) [104, 105]
    ⟨1, ⟨6, some [0, 0, 0, 2, 104, 105]⟩⟩ ⟨[], []⟩ (by decide) (by decide) (by decide)
    (by decide)

/-- C1, as the claim is written, fails when the native library reports a failure for
the release of the error buffer: the status has code 1 and its `errorBuf` holds
exactly the encoding of the string "hi", which `Read` decodes back consuming all of
it, yet `checkCallStatus` does not return the typed error: the deferred `Free`
panics (the native `rustbuffer_free` reports status code 2) and that panic is what
the caller gets. -/
theorem checkCallStatus_typed_error_release_fails :
    (FfiConverterString.Write [] [104, 105]).2 = [0, 0, 0, 2, 104, 105]
      ∧ FfiConverterString.Read [0, 0, 0, 2, 104, 105] = .ok ([104, 105], [])
      ∧ (checkCallStatus
          (some (fun r => match FfiConverterString.Read r with
            | .ok (s, r) => .ok (some s, r)
            | .error p => .error p))
          ⟨1, ⟨6, some [0, 0, 0, 2, 104, 105]⟩⟩ ⟨[], [⟨2, ⟨0, none⟩⟩]⟩).1
        = .error (Panic.err (lit "Rust panicked while handling Rust panic")) := by
  decide

/-- C2, as the code has it. For a status with code 2, `checkCallStatus` never returns
a value: it panics.  When `errorBuf.len > 0` and the native library reports success
when the buffer is released (the deferred `Free` returns normally), the panic carries
exactly the bytes of `errorBuf` as its message; when `errorBuf.len == 0` it carries
the fixed message "Rust panicked while handling Rust panic" and nothing else
happens. -/
theorem checkCallStatus_rust_panic {E : Type} (converter : BufReader (Option E))
    (status : RustCallStatus) (w : World) (hcode : status.code = 2) :
    (∀ r, (checkCallStatus converter status w).1 ≠ .ok r)
      ∧ (status.errorBuf.len > 0 → (GoRustBuffer.Free status.errorBuf w).1 = .ok () →
          (checkCallStatus converter status w).1
            = .error (Panic.err (GoRustBuffer.AsReader status.errorBuf)))
      ∧ (status.errorBuf.len = 0 →
          checkCallStatus converter status w
            = (.error (Panic.err (lit "Rust panicked while handling Rust panic")), w)) := by
  have h0 : status.code ≠ 0 := by omega
  have h1 : status.code ≠ 1 := by omega
  refine ⟨?_, ?_, ?_⟩
  · intro r
    simp only [checkCallStatus, checkCallStatusWith, h0, h1, hcode, if_false, if_true,
      FfiConverterString.Lift]
    by_cases hl : status.errorBuf.len > 0
    · simp only [hl, if_true]
      cases hf : (GoRustBuffer status.errorBuf).Free w with
      | mk res w1 =>
        cases res with
        | error p => simp
        | ok u => simp
    · simp [hl]
  · intro hl hfree
    simp only [checkCallStatus, checkCallStatusWith, h0, h1, hcode, if_false, if_true, hl,
      FfiConverterString.Lift, GoRustBuffer]
    cases hf : GoRustBuffer.Free status.errorBuf w with
    | mk res w1 =>
      rw [hf] at hfree
      simp only at hfree
      subst hfree
      simp
  · intro hl
    simp [checkCallStatus, checkCallStatusWith, h0, h1, hcode, hl]

theorem checkCallStatus_rust_panic_witness :
    (∀ r, (checkCallStatus (none : BufReader (Option GoString))
        ⟨2, ⟨4, some [98, 111, 111, 109]⟩⟩ ⟨[], []⟩).1 ≠ .ok r)
      ∧ (checkCallStatus (none : BufReader (Option GoString))
          ⟨2, ⟨4, some [98, 111, 111, 109]⟩⟩ ⟨[], []⟩).1 = .error (Panic.err (lit "boom"))
      ∧ checkCallStatus (none : BufReader (Option GoString)) ⟨2, ⟨0, none⟩⟩ ⟨[], []⟩
          = (.error (Panic.err (lit "Rust panicked while handling Rust panic")), ⟨[], []⟩) :=
  ⟨(checkCallStatus_rust_panic none ⟨2, ⟨4, some [98, 111, 111, 109]⟩⟩ ⟨[], []⟩ rfl).1,
   (checkCallStatus_rust_panic none ⟨2, ⟨4, some [98, 111, 111, 109]⟩⟩ ⟨[], []⟩ rfl).2.1
     (by decide) (by decide),
   (checkCallStatus_rust_panic none ⟨2, ⟨0, none⟩⟩ ⟨[], []⟩ rfl).2.2 (by decide)⟩

/-- C2, as the claim is written, fails when the native library reports a failure for
the release of the error buffer: the status has code 2 and `errorBuf` holds the four
bytes of "boom", but the native `rustbuffer_free` called by the deferred `Free`
reports status code 2 with the message "x", so the panic that surfaces carries "x"
and not the bytes of `errorBuf`. -/
theorem checkCallStatus_rust_panic_release_fails :
    (checkCallStatus (none : BufReader (Option GoString))
        ⟨2, ⟨4, some [98, 111, 111, 109]⟩⟩ ⟨[], [⟨2, ⟨1, some [120]⟩⟩]⟩).1
        = .error (Panic.err (lit "x"))
      ∧ (checkCallStatus (none : BufReader (Option GoString))
          ⟨2, ⟨4, some [98, 111, 111, 109]⟩⟩ ⟨[], [⟨2, ⟨1, some [120]⟩⟩]⟩).1
        ≠ .error (Panic.err (GoRustBuffer.AsReader ⟨4, some [98, 111, 111, 109]⟩)) := by
  decide

/-- C3. For a status whose code is not 0, 1 or 2, `checkCallStatus` panics with
"unknown status code: <code>" and returns no value; for code 0 it returns nil, and
neither reads nor releases `errorBuf` (no native call is made). -/
theorem checkCallStatus_success_and_unknown {E : Type} (converter : BufReader (Option E))
    (status : RustCallStatus) (w : World) :
    (status.code ≠ 0 → status.code ≠ 1 → status.code ≠ 2 →
        checkCallStatus converter status w
          = (.error (Panic.err (lit "unknown status code: " ++ fmtD status.code)), w))
      ∧ (status.code = 0 → checkCallStatus converter status w = (.ok none, w)) := by
  constructor
  · intro h0 h1 h2
    simp [checkCallStatus, checkCallStatusWith, h0, h1, h2]
  · intro h0
    simp [checkCallStatus, checkCallStatusWith, h0]

theorem checkCallStatus_success_and_unknown_witness :
    checkCallStatus (none : BufReader (Option GoString)) ⟨99, ⟨1, some [7]⟩⟩ ⟨[], []⟩
        = (.error (Panic.err (lit "unknown status code: 99")), ⟨[], []⟩)
      ∧ checkCallStatus (none : BufReader (Option GoString)) ⟨0, ⟨1, some [7]⟩⟩ ⟨[], []⟩
        = (.ok none, ⟨[], []⟩) :=
  ⟨(checkCallStatus_success_and_unknown none ⟨99, ⟨1, some [7]⟩⟩ ⟨[], []⟩).1
      (by decide) (by decide) (by decide),
   (checkCallStatus_success_and_unknown none ⟨0, ⟨1, some [7]⟩⟩ ⟨[], []⟩).2 rfl⟩

/-- C4, as the code has it. For a status whose code is not 0, 1 or 2,
`checkCallStatusUnknown` does not panic: it returns to its caller the non-nil error
"unknown status code: <code>" and makes no native call, where `checkCallStatus`
panics with that message.  On the codes 0 and 2 the two functions agree. -/
theorem checkCallStatusUnknown_returns_error {E : Type} (converter : BufReader (Option E))
    (status : RustCallStatus) (w : World) :
    (status.code ≠ 0 → status.code ≠ 1 → status.code ≠ 2 →
        checkCallStatusUnknown status w
            = (.ok (some (lit "unknown status code: " ++ fmtD status.code)), w)
          ∧ checkCallStatus converter status w
            = (.error (Panic.err (lit "unknown status code: " ++ fmtD status.code)), w))
      ∧ (status.code = 0 →
          checkCallStatusUnknown status w = (.ok none, w)
            ∧ checkCallStatus converter status w = (.ok none, w))
      ∧ (status.code = 2 → ∃ p,
          (checkCallStatusUnknown status w).1 = .error p
            ∧ (checkCallStatus converter status w).1 = .error p
            ∧ (checkCallStatusUnknown status w).2 = (checkCallStatus converter status w).2) := by
  refine ⟨?_, ?_, ?_⟩
  · intro h0 h1 h2
    simp [checkCallStatusUnknown, checkCallStatusUnknownWith, checkCallStatus,
      checkCallStatusWith, h0, h1, h2]
  · intro h0
    simp [checkCallStatusUnknown, checkCallStatusUnknownWith, checkCallStatus,
      checkCallStatusWith, h0]
  · intro h2
    have h0 : status.code ≠ 0 := by omega
    have h1 : status.code ≠ 1 := by omega
    simp only [checkCallStatusUnknown, checkCallStatusUnknownWith, checkCallStatus,
      checkCallStatusWith, h0, h1, h2, if_false, if_true]
    by_cases hl : status.errorBuf.len > 0
    · simp only [hl, if_true]
      cases hf : FfiConverterString.Lift (GoRustBuffer status.errorBuf) w with
      | mk res w1 =>
        cases res with
        | error p => exact ⟨p, rfl, rfl, rfl⟩
        | ok s => exact ⟨Panic.err s, rfl, rfl, rfl⟩
    · simp only [hl, if_false]
      exact ⟨_, rfl, rfl, rfl⟩

theorem checkCallStatusUnknown_returns_error_witness :
    (checkCallStatusUnknown ⟨-7, ⟨0, none⟩⟩ ⟨[], []⟩
        = (.ok (some (lit "unknown status code: -7")), ⟨[], []⟩)
      ∧ checkCallStatus (none : BufReader (Option GoString)) ⟨-7, ⟨0, none⟩⟩ ⟨[], []⟩
        = (.error (Panic.err (lit "unknown status code: -7")), ⟨[], []⟩))
    ∧ (checkCallStatusUnknown ⟨0, ⟨0, none⟩⟩ ⟨[], []⟩ = (.ok none, ⟨[], []⟩)
      ∧ checkCallStatus (none : BufReader (Option GoString)) ⟨0, ⟨0, none⟩⟩ ⟨[], []⟩
        = (.ok none, ⟨[], []⟩)) :=
  ⟨(checkCallStatusUnknown_returns_error none ⟨-7, ⟨0, none⟩⟩ ⟨[], []⟩).1
      (by decide) (by decide) (by decide),
   (checkCallStatusUnknown_returns_error none ⟨0, ⟨0, none⟩⟩ ⟨[], []⟩).2.1 rfl⟩

/-- C4, as the claim is written, fails at the status code 99: `checkCallStatusUnknown`
returns normally, handing the caller an error value, while `checkCallStatus` panics. -/
theorem checkCallStatusUnknown_not_fatal :
    (checkCallStatusUnknown ⟨99, ⟨0, none⟩⟩ ⟨[], []⟩).1
        = .ok (some (lit "unknown status code: 99"))
      ∧ (checkCallStatus (none : BufReader (Option GoString)) ⟨99, ⟨0, none⟩⟩ ⟨[], []⟩).1
        = .error (Panic.err (lit "unknown status code: 99")) := by
  decide

/-! ## Lifting a value out of a buffer -/

/-- C5. `LiftFromRustBuffer` returns an item only if the reader's `Read` returned that
item and left no byte of the buffer unread.  If `Read` returns with at least one byte
left over, `LiftFromRustBuffer` returns no item: it panics, with the message "Junk
remaining in buffer after lifting: " followed by the leftover bytes whenever the
deferred `Free` itself returns normally. -/
theorem liftFromRustBuffer_consumes_all {GoType : Type} (bufReader : BufReader GoType)
    (rbuf : RustBufferI) (w : World) :
    (∀ item, (LiftFromRustBuffer bufReader rbuf w).1 = .ok item →
        ∃ read, bufReader = some read ∧ read rbuf.AsReader = .ok (item, []))
      ∧ (∀ read item leftover, bufReader = some read →
          read rbuf.AsReader = .ok (item, leftover) → leftover ≠ [] →
          (∀ r, (LiftFromRustBuffer bufReader rbuf w).1 ≠ .ok r)
            ∧ ((rbuf.Free w).1 = .ok () →
              (LiftFromRustBuffer bufReader rbuf w).1
                = .error (Panic.err
                    (lit "Junk remaining in buffer after lifting: " ++ leftover)))) := by
  constructor
  · intro item h
    simp only [LiftFromRustBuffer] at h
    cases hf : rbuf.Free w with
    | mk res w1 =>
      rw [hf] at h
      cases res with
      | error p => simp at h
      | ok u =>
        cases bufReader with
        | none => simp at h
        | some read =>
          refine ⟨read, rfl, ?_⟩
          simp only at h
          cases hr : read rbuf.AsReader with
          | error p => rw [hr] at h; simp at h
          | ok res =>
            obtain ⟨it, rest⟩ := res
            rw [hr] at h
            simp only at h
            by_cases hlen : rest.length > 0
            · simp [hlen] at h
            · simp only [hlen, if_false, Except.ok.injEq] at h
              have : rest = [] := List.length_eq_zero.mp (by omega)
              rw [h, this]
  · intro read item leftover hb hr hne
    subst hb
    have hlen : leftover.length > 0 := List.length_pos.mpr hne
    simp only [LiftFromRustBuffer, hr, hlen, if_true]
    cases hf : rbuf.Free w with
    | mk res w1 =>
      cases res with
      | error p => simp
      | ok u => simp

theorem liftFromRustBuffer_consumes_all_witness :
    (∃ read, (some FfiConverterString.Read : BufReader GoString) = some read
        ∧ read (GoRustBuffer ⟨5, some [0, 0, 0, 1, 65]⟩).AsReader = .ok ([65], []))
      ∧ (∀ r, (LiftFromRustBuffer (some FfiConverterString.Read)
            (GoRustBuffer ⟨6, some [0, 0, 0, 1, 65, 66]⟩) ⟨[], []⟩).1 ≠ .ok r)
      ∧ (LiftFromRustBuffer (some FfiConverterString.Read)
            (GoRustBuffer ⟨6, some [0, 0, 0, 1, 65, 66]⟩) ⟨[], []⟩).1
          = .error (Panic.err (lit "Junk remaining in buffer after lifting: B")) :=
  ⟨(liftFromRustBuffer_consumes_all (some FfiConverterString.Read)
      (GoRustBuffer ⟨5, some [0, 0, 0, 1, 65]⟩) ⟨[], []⟩).1 [65] (by decide),
   ((liftFromRustBuffer_consumes_all (some FfiConverterString.Read)
      (GoRustBuffer ⟨6, some [0, 0, 0, 1, 65, 66]⟩) ⟨[], []⟩).2
        FfiConverterString.Read [65] [66] rfl (by decide) (by decide)).1,
   ((liftFromRustBuffer_consumes_all (some FfiConverterString.Read)
      (GoRustBuffer ⟨6, some [0, 0, 0, 1, 65, 66]⟩) ⟨[], []⟩).2
        FfiConverterString.Read [65] [66] rfl (by decide) (by decide)).2 (by decide)⟩

/-- C6. `LiftFromRustBuffer` invokes `Free` on its buffer exactly once on every exit
path: whatever the reader does (decode, panic, leave junk) and for every
implementation of `Free`, the state after the call is the state that one call of
`Free` leaves from the initial state; for a `GoRustBuffer` whose release the native
library answers with success, exactly one `rustbuffer_free` of that buffer is added
to the log of native calls. -/
theorem liftFromRustBuffer_frees_once {GoType : Type} (bufReader : BufReader GoType)
    (w : World) :
    (∀ rbuf : RustBufferI, (LiftFromRustBuffer bufReader rbuf w).2 = (rbuf.Free w).2)
      ∧ (∀ cb : RustBuffer, (GoRustBuffer.Free cb w).1 = .ok () →
          (LiftFromRustBuffer bufReader (GoRustBuffer cb) w).2.calls
            = w.calls ++ [NativeCall.rustbuffer_free cb]) := by
  have hgen : ∀ rbuf : RustBufferI,
      (LiftFromRustBuffer bufReader rbuf w).2 = (rbuf.Free w).2 := by
    intro rbuf
    simp only [LiftFromRustBuffer]
    cases hf : rbuf.Free w with
    | mk res w1 =>
      cases res with
      | error p => rfl
      | ok u => rfl
  refine ⟨hgen, ?_⟩
  intro cb hfree
  rw [hgen (GoRustBuffer cb)]
  simp only [GoRustBuffer]
  rw [free_ok_world cb w hfree]

theorem liftFromRustBuffer_frees_once_witness :
    (LiftFromRustBuffer (some FfiConverterString.Read)
        (GoRustBuffer ⟨5, some [0, 0, 0, 1, 65]⟩) ⟨[], []⟩
          = (.ok [65], ⟨[NativeCall.rustbuffer_free ⟨5, some [0, 0, 0, 1, 65]⟩], []⟩)
      ∧ (LiftFromRustBuffer (some FfiConverterString.Read)
          (GoRustBuffer ⟨5, some [0, 0, 0, 1, 65]⟩) ⟨[], []⟩).2.calls
          = [] ++ [NativeCall.rustbuffer_free ⟨5, some [0, 0, 0, 1, 65]⟩])
    ∧ (LiftFromRustBuffer (some FfiConverterString.Read)
        (GoRustBuffer ⟨2, some [0, 0]⟩) ⟨[], []⟩
          = (.error (Panic.io IoError.ErrUnexpectedEOF),
              ⟨[NativeCall.rustbuffer_free ⟨2, some [0, 0]⟩], []⟩)
      ∧ (LiftFromRustBuffer (some FfiConverterString.Read)
          (GoRustBuffer ⟨2, some [0, 0]⟩) ⟨[], []⟩).2.calls
          = [] ++ [NativeCall.rustbuffer_free ⟨2, some [0, 0]⟩])
    ∧ (LiftFromRustBuffer (some FfiConverterString.Read)
        (GoRustBuffer ⟨6, some [0, 0, 0, 1, 65, 66]⟩) ⟨[], []⟩
          = (.error (Panic.err (lit "Junk remaining in buffer after lifting: B")),
              ⟨[NativeCall.rustbuffer_free ⟨6, some [0, 0, 0, 1, 65, 66]⟩], []⟩)
      ∧ (LiftFromRustBuffer (some FfiConverterString.Read)
          (GoRustBuffer ⟨6, some [0, 0, 0, 1, 65, 66]⟩) ⟨[], []⟩).2.calls
          = [] ++ [NativeCall.rustbuffer_free ⟨6, some [0, 0, 0, 1, 65, 66]⟩]) :=
  ⟨⟨by decide, (liftFromRustBuffer_frees_once (some FfiConverterString.Read) ⟨[], []⟩).2
      ⟨5, some [0, 0, 0, 1, 65]⟩ (by decide)⟩,
   ⟨by decide, (liftFromRustBuffer_frees_once (some FfiConverterString.Read) ⟨[], []⟩).2
      ⟨2, some [0, 0]⟩ (by decide)⟩,
   ⟨by decide, (liftFromRustBuffer_frees_once (some FfiConverterString.Read) ⟨[], []⟩).2
      ⟨6, some [0, 0, 0, 1, 65, 66]⟩ (by decide)⟩⟩

/-! ## Records -/

theorem stringWrite_too_long (writer : Writer) (value : GoString)
    (h : value.length > MaxInt32) :
    FfiConverterString.Write writer value
      = (.error (Panic.str (lit "String is too large to fit into Int32")), writer) := by
  simp [FfiConverterString.Write, h]

theorem stringWrite_nil_snd (value : GoString) (h : value.length ≤ MaxInt32) :
    (FfiConverterString.Write [] value).2
      = putBigEndian 4 (asUnsigned 32 (value.length : Int)) ++ value := by
  rw [stringWrite_eq [] value h]
  simp

theorem stringRead_written (s : GoString) (rest : List Byte) (h : s.length ≤ MaxInt32) :
    FfiConverterString.Read ((FfiConverterString.Write [] s).2 ++ rest) = .ok (s, rest) := by
  rw [stringWrite_nil_snd s h]
  exact stringRead_encoded s rest h

theorem boolRead_written (b : Bool) (rest : List Byte) :
    (FfiConverterBool.Write [] b).1 = .ok ()
      ∧ FfiConverterBool.Read ((FfiConverterBool.Write [] b).2 ++ rest) = .ok (b, rest) := by
  cases b
  · have h := binaryRead_putBigEndian 1 (asUnsigned 8 0) rest (by decide)
    have h2 : asSigned 8 (asUnsigned 8 0 % 256) = 0 := by decide
    simp [FfiConverterBool.Write, FfiConverterBool.Read, writeInt8, readInt8, binaryWrite_eq,
      h, h2]
  · have h := binaryRead_putBigEndian 1 (asUnsigned 8 1) rest (by decide)
    have h2 : asSigned 8 (asUnsigned 8 1 % 256) = 1 := by decide
    simp [FfiConverterBool.Write, FfiConverterBool.Read, writeInt8, readInt8, binaryWrite_eq,
      h, h2]

theorem credentialsWrite_eq (writer : Writer) (v : Credentials)
    (hu : v.Username.length ≤ MaxInt32) (hp : v.Password.length ≤ MaxInt32) :
    FfiConverterCredentials.Write writer v
      = (.ok (), writer ++ (FfiConverterString.Write [] v.Username).2
          ++ (FfiConverterString.Write [] v.Password).2) := by
  rw [stringWrite_nil_snd _ hu, stringWrite_nil_snd _ hp]
  simp [FfiConverterCredentials.Write, stringWrite_eq _ _ hu, stringWrite_eq _ _ hp]

theorem aesWrite_eq (writer : Writer) (v : AesSuccessActionData)
    (hd : v.Description.length ≤ MaxInt32) (hc : v.Ciphertext.length ≤ MaxInt32)
    (hi : v.Iv.length ≤ MaxInt32) :
    FfiConverterAesSuccessActionData.Write writer v
      = (.ok (), writer ++ (FfiConverterString.Write [] v.Description).2
          ++ (FfiConverterString.Write [] v.Ciphertext).2
          ++ (FfiConverterString.Write [] v.Iv).2) := by
  rw [stringWrite_nil_snd _ hd, stringWrite_nil_snd _ hc, stringWrite_nil_snd _ hi]
  simp [FfiConverterAesSuccessActionData.Write, stringWrite_eq _ _ hd, stringWrite_eq _ _ hc,
    stringWrite_eq _ _ hi]

/-- C11. A record's wire format is the concatenation of the encodings of its fields
in declaration order.  For `Credentials`: `Write` appends `String.Write(Username)`
then `String.Write(Password)`; a field too long to encode stops the write with only
the fields before it written.  For `AesSuccessActionData`: `Write` appends the
encodings of `Description`, `Ciphertext`, `Iv` in that order.  `Read` gives the first
string of the stream to the first field, the next one to the next field, and so on,
and fails where a field's read fails. -/
theorem record_wire_format :
    (∀ (writer : Writer) (v : Credentials),
      (v.Username.length ≤ 2 ^ 31 - 1 → v.Password.length ≤ 2 ^ 31 - 1 →
        FfiConverterCredentials.Write writer v
          = (.ok (), writer ++ (FfiConverterString.Write [] v.Username).2
              ++ (FfiConverterString.Write [] v.Password).2))
      ∧ (v.Username.length > 2 ^ 31 - 1 →
        FfiConverterCredentials.Write writer v
          = (.error (Panic.str (lit "String is too large to fit into Int32")), writer))
      ∧ (v.Username.length ≤ 2 ^ 31 - 1 → v.Password.length > 2 ^ 31 - 1 →
        FfiConverterCredentials.Write writer v
          = (.error (Panic.str (lit "String is too large to fit into Int32")),
              writer ++ (FfiConverterString.Write [] v.Username).2)))
    ∧ (∀ (writer : Writer) (v : AesSuccessActionData),
      v.Description.length ≤ 2 ^ 31 - 1 → v.Ciphertext.length ≤ 2 ^ 31 - 1 →
      v.Iv.length ≤ 2 ^ 31 - 1 →
        FfiConverterAesSuccessActionData.Write writer v
          = (.ok (), writer ++ (FfiConverterString.Write [] v.Description).2
              ++ (FfiConverterString.Write [] v.Ciphertext).2
              ++ (FfiConverterString.Write [] v.Iv).2))
    ∧ (∀ (reader : Reader),
      (∀ u r1 p r2, FfiConverterString.Read reader = .ok (u, r1) →
        FfiConverterString.Read r1 = .ok (p, r2) →
        FfiConverterCredentials.Read reader = .ok (⟨u, p⟩, r2))
      ∧ (∀ e, FfiConverterString.Read reader = .error e →
        FfiConverterCredentials.Read reader = .error e)
      ∧ (∀ u r1 e, FfiConverterString.Read reader = .ok (u, r1) →
        FfiConverterString.Read r1 = .error e →
        FfiConverterCredentials.Read reader = .error e))
    ∧ (∀ (reader : Reader) d r1 c r2 i r3,
      FfiConverterString.Read reader = .ok (d, r1) →
      FfiConverterString.Read r1 = .ok (c, r2) →
      FfiConverterString.Read r2 = .ok (i, r3) →
        FfiConverterAesSuccessActionData.Read reader = .ok (⟨d, c, i⟩, r3)) := by
  refine ⟨?_, ?_, ?_, ?_⟩
  · intro writer v
    refine ⟨?_, ?_, ?_⟩
    · intro hu hp
      exact credentialsWrite_eq writer v (by simp only [MaxInt32]; omega)
        (by simp only [MaxInt32]; omega)
    · intro hu
      have h : v.Username.length > MaxInt32 := by simp only [MaxInt32]; omega
      simp [FfiConverterCredentials.Write, stringWrite_too_long _ _ h]
    · intro hu hp
      have h1 : v.Username.length ≤ MaxInt32 := by simp only [MaxInt32]; omega
      have h2 : v.Password.length > MaxInt32 := by simp only [MaxInt32]; omega
      rw [stringWrite_nil_snd _ h1]
      simp [FfiConverterCredentials.Write, stringWrite_eq _ _ h1, stringWrite_too_long _ _ h2]
  · intro writer v hd hc hi
    exact aesWrite_eq writer v (by simp only [MaxInt32]; omega)
      (by simp only [MaxInt32]; omega) (by simp only [MaxInt32]; omega)
  · intro reader
    refine ⟨?_, ?_, ?_⟩
    · intro u r1 p r2 h1 h2
      simp [FfiConverterCredentials.Read, h1, h2]
    · intro e h1
      simp [FfiConverterCredentials.Read, h1]
    · intro u r1 e h1 h2
      simp [FfiConverterCredentials.Read, h1, h2]
  · intro reader d r1 c r2 i r3 h1 h2 h3
    simp [FfiConverterAesSuccessActionData.Read, h1, h2, h3]

theorem record_wire_format_witness :
    FfiConverterCredentials.Write [9] ⟨[117], [112, 119]⟩
        = (.ok (), ([9] : Writer) ++ (FfiConverterString.Write [] [117]).2
            ++ (FfiConverterString.Write [] [112, 119]).2)
    ∧ FfiConverterCredentials.Write [9] ⟨List.replicate 2147483648 0, [112]⟩
        = (.error (Panic.str (lit "String is too large to fit into Int32")), [9])
    ∧ FfiConverterAesSuccessActionData.Write [] ⟨[100], [99], [105]⟩
        = (.ok (), ([] : Writer) ++ (FfiConverterString.Write [] [100]).2
            ++ (FfiConverterString.Write [] [99]).2 ++ (FfiConverterString.Write [] [105]).2)
    ∧ FfiConverterCredentials.Read [0, 0, 0, 1, 117, 0, 0, 0, 2, 112, 119, 7]
        = .ok (⟨[117], [112, 119]⟩, [7])
    ∧ FfiConverterAesSuccessActionData.Read
          [0, 0, 0, 1, 100, 0, 0, 0, 1, 99, 0, 0, 0, 1, 105]
        = .ok (⟨[100], [99], [105]⟩, []) :=
  ⟨(record_wire_format.1 [9] ⟨[117], [112, 119]⟩).1 (by decide) (by decide),
   (record_wire_format.1 [9] ⟨List.replicate 2147483648 0, [112]⟩).2.1
     (by rw [List.length_replicate]; decide),
   record_wire_format.2.1 [] ⟨[100], [99], [105]⟩ (by decide) (by decide) (by decide),
   (record_wire_format.2.2.1 [0, 0, 0, 1, 117, 0, 0, 0, 2, 112, 119, 7]).1
     [117] [0, 0, 0, 2, 112, 119, 7] [112, 119] [7] (by decide) (by decide),
   record_wire_format.2.2.2 [0, 0, 0, 1, 100, 0, 0, 0, 1, 99, 0, 0, 0, 1, 105]
     [100] [0, 0, 0, 1, 99, 0, 0, 0, 1, 105] [99] [0, 0, 0, 1, 105] [105] []
     (by decide) (by decide) (by decide)⟩

/-- C12. For every `Credentials` and `AesSuccessActionData` value whose string fields
are each at most `2^31 - 1` bytes long, and for every `CheckMessageResponse` value,
`Write` succeeds and `Read` applied to the bytes written, followed by any further
bytes, returns the same record and leaves exactly the further bytes unread. -/
theorem record_round_trip :
    (∀ (v : Credentials) (rest : List Byte),
      v.Username.length ≤ 2 ^ 31 - 1 → v.Password.length ≤ 2 ^ 31 - 1 →
        (FfiConverterCredentials.Write [] v).1 = .ok ()
          ∧ FfiConverterCredentials.Read ((FfiConverterCredentials.Write [] v).2 ++ rest)
              = .ok (v, rest))
    ∧ (∀ (v : AesSuccessActionData) (rest : List Byte),
      v.Description.length ≤ 2 ^ 31 - 1 → v.Ciphertext.length ≤ 2 ^ 31 - 1 →
      v.Iv.length ≤ 2 ^ 31 - 1 →
        (FfiConverterAesSuccessActionData.Write [] v).1 = .ok ()
          ∧ FfiConverterAesSuccessActionData.Read
                ((FfiConverterAesSuccessActionData.Write [] v).2 ++ rest)
              = .ok (v, rest))
    ∧ (∀ (v : CheckMessageResponse) (rest : List Byte),
        (FfiConverterCheckMessageResponse.Write [] v).1 = .ok ()
          ∧ FfiConverterCheckMessageResponse.Read
                ((FfiConverterCheckMessageResponse.Write [] v).2 ++ rest)
              = .ok (v, rest)) := by
  refine ⟨?_, ?_, ?_⟩
  · intro v rest hu hp
    have h1 : v.Username.length ≤ MaxInt32 := by simp only [MaxInt32]; omega
    have h2 : v.Password.length ≤ MaxInt32 := by simp only [MaxInt32]; omega
    rw [credentialsWrite_eq [] v h1 h2]
    refine ⟨rfl, ?_⟩
    simp only [List.nil_append, List.append_assoc, FfiConverterCredentials.Read,
      stringRead_written _ _ h1, stringRead_written _ _ h2]
  · intro v rest hd hc hi
    have h1 : v.Description.length ≤ MaxInt32 := by simp only [MaxInt32]; omega
    have h2 : v.Ciphertext.length ≤ MaxInt32 := by simp only [MaxInt32]; omega
    have h3 : v.Iv.length ≤ MaxInt32 := by simp only [MaxInt32]; omega
    rw [aesWrite_eq [] v h1 h2 h3]
    refine ⟨rfl, ?_⟩
    simp only [List.nil_append, List.append_assoc, FfiConverterAesSuccessActionData.Read,
      stringRead_written _ _ h1, stringRead_written _ _ h2, stringRead_written _ _ h3]
  · intro v rest
    obtain ⟨b⟩ := v
    have h := boolRead_written b rest
    simp only [FfiConverterCheckMessageResponse.Write, FfiConverterCheckMessageResponse.Read]
    refine ⟨h.1, ?_⟩
    rw [h.2]

theorem record_round_trip_witness :
    ((FfiConverterCredentials.Write [] ⟨[], [112, 119]⟩).1 = .ok ()
      ∧ FfiConverterCredentials.Read
          ((FfiConverterCredentials.Write [] ⟨[], [112, 119]⟩).2 ++ [7])
            = .ok (⟨[], [112, 119]⟩, [7]))
    ∧ ((FfiConverterAesSuccessActionData.Write [] ⟨[100], [], [105, 118]⟩).1 = .ok ()
      ∧ FfiConverterAesSuccessActionData.Read
          ((FfiConverterAesSuccessActionData.Write [] ⟨[100], [], [105, 118]⟩).2 ++ [])
            = .ok (⟨[100], [], [105, 118]⟩, [])) :=
  ⟨record_round_trip.1 ⟨[], [112, 119]⟩ [7] (by decide) (by decide),
   record_round_trip.2.1 ⟨[100], [], [105, 118]⟩ [] (by decide) (by decide) (by decide)⟩

/-! ## The empty buffer -/

theorem rustCall_of_code_zero {U : Type}
    (callback : RustCallStatus → World → U × RustCallStatus × World) (w : World)
    (h : (callback RustCallStatus.zero w).2.1.code = 0) :
    rustCall callback w
      = (.ok (callback RustCallStatus.zero w).1, (callback RustCallStatus.zero w).2.2) := by
  cases hcb : callback RustCallStatus.zero w with
  | mk ret rest =>
    cases rest with
    | mk status w1 =>
      rw [hcb] at h
      simp only at h
      simp [rustCall, rustCallWith, rustCallWithErrorWith, hcb, checkCallStatusWith, h]

/-- C13, as the code has it. For a zero-length byte sequence (hence for the empty
string and for a value whose `Write` emits no bytes) `bytesToRustBuffer` returns the
zero `RustBuffer` without calling the native library: length 0, capacity 0 and a null
data reference, which `AsReader` still reads as an empty stream.  Only a non-empty
sequence is handed to the native allocator, whose buffer has a non-null data
reference. -/
theorem bytesToRustBuffer_empty (w : World) :
    bytesToRustBuffer [] w = (.ok ⟨0, none⟩, w)
      ∧ stringToRustBuffer [] w = (.ok ⟨0, none⟩, w)
      ∧ (∀ (GoType : Type) (bufWriter : BufWriter GoType) (value : GoType),
          bufWriter [] value = (.ok (), []) →
          LowerIntoRustBuffer bufWriter value w = (.ok ⟨0, none⟩, w))
      ∧ (⟨0, none⟩ : RustBuffer).len = 0
      ∧ GoRustBuffer.AsReader ⟨0, none⟩ = []
      ∧ (∀ b : List Byte, b ≠ [] → b.length ≤ 2 ^ 31 - 1 → w.script = [] →
          bytesToRustBuffer b w
            = (.ok ⟨b.length, some b⟩,
                { w with calls := w.calls
                    ++ [NativeCall.rustbuffer_from_bytes ⟨(b.length : Int), b⟩] })) := by
  refine ⟨rfl, rfl, ?_, rfl, rfl, ?_⟩
  · intro GoType bufWriter value h
    simp [LowerIntoRustBuffer, h, bytesToRustBuffer]
  · intro b hb hlen hs
    have hne : b.length ≠ 0 := by
      intro h0
      exact hb (List.length_eq_zero.mp h0)
    have hsigned : asSigned 32 b.length = (b.length : Int) := by
      simp only [asSigned]
      norm_num
      omega
    simp only [bytesToRustBuffer, hne, if_false, hsigned]
    rw [rustCall_of_code_zero]
    · simp [ffi_breez_sdk_spark_rustbuffer_from_bytes, hs]
    · simp [ffi_breez_sdk_spark_rustbuffer_from_bytes, hs, RustCallStatus.zero]

theorem bytesToRustBuffer_empty_witness :
    LowerIntoRustBuffer (fun (writer : Writer) (_ : Unit) => (.ok (), writer)) ()
        ⟨[], []⟩ = (.ok ⟨0, none⟩, ⟨[], []⟩)
      ∧ bytesToRustBuffer [1, 2] ⟨[], []⟩
        = (.ok ⟨([1, 2] : List Byte).length, some [1, 2]⟩,
            { (⟨[], []⟩ : World) with calls := (⟨[], []⟩ : World).calls
                ++ [NativeCall.rustbuffer_from_bytes ⟨(([1, 2] : List Byte).length : Int),
                      [1, 2]⟩] }) :=
  ⟨(bytesToRustBuffer_empty ⟨[], []⟩).2.2.1 Unit
      (fun (writer : Writer) (_ : Unit) => (.ok (), writer)) () rfl,
   (bytesToRustBuffer_empty ⟨[], []⟩).2.2.2.2.2 [1, 2] (by decide) (by decide) rfl⟩

/-- C13, as the claim is written, fails for the empty byte sequence: the buffer that
`bytesToRustBuffer` returns has length 0 but its data reference is null, and no call
into the native library is made, where a non-empty sequence makes one. -/
theorem bytesToRustBuffer_empty_null :
    (bytesToRustBuffer [] ⟨[], []⟩).1 = .ok ⟨0, none⟩
      ∧ (⟨0, none⟩ : RustBuffer).len = 0
      ∧ (⟨0, none⟩ : RustBuffer).data = none
      ∧ (bytesToRustBuffer [] ⟨[], []⟩).2.calls = []
      ∧ (bytesToRustBuffer [1] ⟨[], []⟩).2.calls
          = [NativeCall.rustbuffer_from_bytes ⟨1, [1]⟩] := by
  decide

/-! ## Native calls made while a status is checked -/

theorem count_append_other (c d : NativeCall) (calls : List NativeCall) (h : d ≠ c) :
    (calls ++ [d]).count c = calls.count c := by
  simp [List.count_append, List.count_cons, h]

theorem liftFromRustBuffer_world {GoType : Type} (bufReader : BufReader GoType)
    (rbuf : RustBufferI) (w : World) :
    (LiftFromRustBuffer bufReader rbuf w).2 = (rbuf.Free w).2 := by
  simp only [LiftFromRustBuffer]
  cases hf : rbuf.Free w with
  | mk res w1 =>
    cases res with
    | error p => rfl
    | ok u => rfl

theorem stringLift_world (rb : RustBufferI) (w : World) :
    (FfiConverterString.Lift rb w).2 = (rb.Free w).2 := by
  simp only [FfiConverterString.Lift]
  cases hf : rb.Free w with
  | mk res w1 =>
    cases res with
    | error p => rfl
    | ok u => rfl

theorem checkCallStatusWith_count {E : Type} (c : NativeCall) (g : RustBuffer → RustBufferI)
    (hg : ∀ b w, ((g b).Free w).2.calls.count c = w.calls.count c)
    (converter : BufReader (Option E)) (status : RustCallStatus) (w : World) :
    (checkCallStatusWith g converter status w).2.calls.count c = w.calls.count c := by
  simp only [checkCallStatusWith]
  split
  · rfl
  · split
    · rw [liftFromRustBuffer_world]
      exact hg _ _
    · split
      · split
        · have h := stringLift_world (g status.errorBuf) w
          cases hl : FfiConverterString.Lift (g status.errorBuf) w with
          | mk res w1 =>
            rw [hl] at h
            simp only at h
            cases res with
            | error p => simp only; rw [h]; exact hg _ _
            | ok s => simp only; rw [h]; exact hg _ _
        · rfl
      · rfl

theorem rustCallWith_count {U : Type} (c : NativeCall) (g : RustBuffer → RustBufferI)
    (hg : ∀ b w, ((g b).Free w).2.calls.count c = w.calls.count c)
    (callback : RustCallStatus → World → U × RustCallStatus × World) (w : World) :
    (rustCallWith g callback w).2.calls.count c
      = (callback RustCallStatus.zero w).2.2.calls.count c := by
  cases hcb : callback RustCallStatus.zero w with
  | mk ret rest =>
    cases rest with
    | mk status w1 =>
      have h := checkCallStatusWith_count c g hg (none : BufReader (Option GoString)) status w1
      simp only [rustCallWith, rustCallWithErrorWith, hcb]
      cases hck : checkCallStatusWith g (none : BufReader (Option GoString)) status w1 with
      | mk res w2 =>
        rw [hck] at h
        simp only at h
        cases res with
        | error p => exact h
        | ok e =>
          cases e with
          | none => exact h
          | some m => exact h

theorem freeDepth_count (c : NativeCall) (hc : ∀ b, NativeCall.rustbuffer_free b ≠ c)
    (n : Nat) : ∀ (cb : RustBuffer) (w : World),
      (GoRustBuffer.FreeDepth n cb w).2.calls.count c = w.calls.count c := by
  induction n with
  | zero => intro cb w; rfl
  | succ n ih =>
    intro cb w
    rw [freeDepth_succ]
    have h := rustCallWith_count c
      (fun b => ⟨GoRustBuffer.AsReader b, GoRustBuffer.FreeDepth n b⟩) (fun b w => ih b w)
      (fun status w =>
        match ffi_breez_sdk_spark_rustbuffer_free cb status w with
        | (status, w) => (false, status, w)) w
    have h2 : (match ffi_breez_sdk_spark_rustbuffer_free cb RustCallStatus.zero w with
        | (status, w) => (false, status, w)).2.2.calls.count c = w.calls.count c := by
      simp only [ffi_breez_sdk_spark_rustbuffer_free]
      cases w.script with
      | nil => exact count_append_other c _ _ (hc cb)
      | cons s rest => exact count_append_other c _ _ (hc cb)
    rw [h2] at h
    cases hr : rustCallWith
        (fun b => (⟨GoRustBuffer.AsReader b, GoRustBuffer.FreeDepth n b⟩ : RustBufferI))
        (fun status w =>
          match ffi_breez_sdk_spark_rustbuffer_free cb status w with
          | (status, w) => (false, status, w)) w with
    | mk res w2 =>
      rw [hr] at h
      cases res with
      | error p => exact h
      | ok u => exact h

theorem rustCall_count {U : Type} (c : NativeCall) (hc : ∀ b, NativeCall.rustbuffer_free b ≠ c)
    (callback : RustCallStatus → World → U × RustCallStatus × World) (w : World) :
    (rustCall callback w).2.calls.count c
      = (callback RustCallStatus.zero w).2.2.calls.count c := by
  apply rustCallWith_count
  intro b w
  exact freeDepth_count c hc _ b w

/-! ## `incrementPointer` and `decrementPointer` -/

theorem wrapInt64_eq (x : Int) (h1 : -9223372036854775808 ≤ x) (h2 : x ≤ 9223372036854775807) :
    wrapInt64 x = x := by
  simp only [wrapInt64, asSigned, asUnsigned]
  norm_num
  omega

theorem incrementPointer_guarded (ffiObject : FfiObject) (debugName : GoString) (w : World)
    (h1 : 0 ≤ ffiObject.callCounter) (h2 : ffiObject.callCounter ≠ MaxInt64) :
    ffiObject.incrementPointer debugName w
      = ((rustCall (fun status w => uniffi_fn_clone ffiObject.pointer status w) w).1,
          { ffiObject with callCounter := ffiObject.callCounter + 1 },
          (rustCall (fun status w => uniffi_fn_clone ffiObject.pointer status w) w).2) := by
  have h0 : ¬ (ffiObject.callCounter ≤ -1) := by omega
  simp only [FfiObject.incrementPointer, h0, h2, if_false]

theorem uniffi_fn_clone_calls (pointer : Pointer) (status : RustCallStatus) (w : World) :
    (uniffi_fn_clone pointer status w).2.2.calls
      = w.calls ++ [NativeCall.object_clone pointer] := by
  simp only [uniffi_fn_clone]
  cases w.script <;> rfl

theorem uniffi_fn_free_calls (pointer : Pointer) (status : RustCallStatus) (w : World) :
    (uniffi_fn_free pointer status w).2.calls
      = w.calls ++ [NativeCall.object_free pointer] := by
  simp only [uniffi_fn_free]
  cases w.script <;> rfl

theorem freeRustArcPtr_world (ffiObject : FfiObject) (w : World) :
    (ffiObject.freeRustArcPtr w).2
      = (rustCall (fun status w =>
          match uniffi_fn_free ffiObject.pointer status w with
          | (status, w) => ((0 : Int), status, w)) w).2 := by
  simp only [FfiObject.freeRustArcPtr]
  cases hr : rustCall (fun status w =>
      match uniffi_fn_free ffiObject.pointer status w with
      | (status, w) => ((0 : Int), status, w)) w with
  | mk res w1 =>
    cases res with
    | error p => rfl
    | ok u => rfl

theorem freeRustArcPtr_freeCalls (ffiObject : FfiObject) (w : World) :
    freeCalls ffiObject.pointer (ffiObject.freeRustArcPtr w).2
      = freeCalls ffiObject.pointer w + 1 := by
  rw [freeRustArcPtr_world]
  simp only [freeCalls]
  rw [rustCall_count _ (by intro b; simp)]
  simp [uniffi_fn_free_calls, List.count_append]

/-- C14, as the code has it. `incrementPointer` panics with "… object has already been
destroyed" when the counter is -1 or lower and with "… object call counter would
overflow" when it is the maximum `int64`; in both cases the object and the world are
unchanged, so clone is not called.  For every other counter value the counter becomes
exactly one greater and the native clone is called exactly once, on the proxy's
pointer, whether or not the call then succeeds.  When that native clone reports
success, `incrementPointer` returns its pointer, so that it then fails if and only if
the counter is -1 or lower or the maximum; when the native clone reports a failure,
`incrementPointer` fails with the counter already raised. -/
theorem incrementPointer_spec (ffiObject : FfiObject) (debugName : GoString) (w : World) :
    (ffiObject.callCounter ≤ -1 →
        ffiObject.incrementPointer debugName w
          = (.error (Panic.err (debugName ++ lit " object has already been destroyed")),
              ffiObject, w))
      ∧ (ffiObject.callCounter = MaxInt64 →
        ffiObject.incrementPointer debugName w
          = (.error (Panic.err (debugName ++ lit " object call counter would overflow")),
              ffiObject, w))
      ∧ (0 ≤ ffiObject.callCounter → ffiObject.callCounter < MaxInt64 →
        (ffiObject.incrementPointer debugName w).2.1
            = { ffiObject with callCounter := ffiObject.callCounter + 1 }
          ∧ cloneCalls ffiObject.pointer (ffiObject.incrementPointer debugName w).2.2
              = cloneCalls ffiObject.pointer w + 1
          ∧ freeCalls ffiObject.pointer (ffiObject.incrementPointer debugName w).2.2
              = freeCalls ffiObject.pointer w)
      ∧ ((uniffi_fn_clone ffiObject.pointer RustCallStatus.zero w).2.1.code = 0 →
        ((∃ p, (ffiObject.incrementPointer debugName w).1 = .error p)
            ↔ (ffiObject.callCounter ≤ -1 ∨ ffiObject.callCounter = MaxInt64))
          ∧ (0 ≤ ffiObject.callCounter → ffiObject.callCounter < MaxInt64 →
            ffiObject.incrementPointer debugName w
              = (.ok ffiObject.pointer,
                  { ffiObject with callCounter := ffiObject.callCounter + 1 },
                  (uniffi_fn_clone ffiObject.pointer RustCallStatus.zero w).2.2)))
      ∧ (0 ≤ ffiObject.callCounter → ffiObject.callCounter < MaxInt64 →
        (uniffi_fn_clone ffiObject.pointer RustCallStatus.zero w).2.1.code ≠ 0 →
        ∃ p, (ffiObject.incrementPointer debugName w).1 = .error p) := by
  have hlow : ffiObject.callCounter ≤ -1 →
      ffiObject.incrementPointer debugName w
        = (.error (Panic.err (debugName ++ lit " object has already been destroyed")),
            ffiObject, w) := by
    intro h
    simp only [FfiObject.incrementPointer, h, if_true]
  have hmax : ffiObject.callCounter = MaxInt64 →
      ffiObject.incrementPointer debugName w
        = (.error (Panic.err (debugName ++ lit " object call counter would overflow")),
            ffiObject, w) := by
    intro h
    have h0 : ¬ (MaxInt64 ≤ -1) := by decide
    simp only [FfiObject.incrementPointer, h, h0, if_false, if_true]
  have hok : (uniffi_fn_clone ffiObject.pointer RustCallStatus.zero w).2.1.code = 0 →
      0 ≤ ffiObject.callCounter → ffiObject.callCounter < MaxInt64 →
      ffiObject.incrementPointer debugName w
        = (.ok ffiObject.pointer,
            { ffiObject with callCounter := ffiObject.callCounter + 1 },
            (uniffi_fn_clone ffiObject.pointer RustCallStatus.zero w).2.2) := by
    intro hs h1 h2
    rw [incrementPointer_guarded ffiObject debugName w h1 (by omega),
      rustCall_of_code_zero _ w hs]
    simp only [uniffi_fn_clone]
    cases w.script <;> rfl
  refine ⟨hlow, hmax, ?_, ?_, ?_⟩
  · intro h1 h2
    rw [incrementPointer_guarded ffiObject debugName w h1 (by omega)]
    refine ⟨rfl, ?_, ?_⟩
    · simp only [cloneCalls]
      rw [rustCall_count _ (by intro b; simp)]
      simp [uniffi_fn_clone_calls, List.count_append]
    · simp only [freeCalls]
      rw [rustCall_count _ (by intro b; simp)]
      simp [uniffi_fn_clone_calls, List.count_append]
  · intro hs
    refine ⟨?_, hok hs⟩
    constructor
    · rintro ⟨p, hp⟩
      by_contra hcon
      have h1 : 0 ≤ ffiObject.callCounter := by omega
      have h2 : ffiObject.callCounter < MaxInt64 := by
        have : ffiObject.callCounter ≠ MaxInt64 := fun h => hcon (Or.inr h)
        by_contra hge
        -- a counter above the maximum is excluded by the guard only through equality
        rw [incrementPointer_guarded ffiObject debugName w h1 this,
          rustCall_of_code_zero _ w hs] at hp
        simp at hp
      rw [hok hs h1 h2] at hp
      simp at hp
    · rintro (h | h)
      · exact ⟨_, by rw [hlow h]⟩
      · exact ⟨_, by rw [hmax h]⟩
  · intro h1 h2 hne
    rw [incrementPointer_guarded ffiObject debugName w h1 (by omega)]
    show ∃ p, (rustCall (fun status w => uniffi_fn_clone ffiObject.pointer status w) w).1
      = .error p
    cases hr : (rustCall (fun status w => uniffi_fn_clone ffiObject.pointer status w) w).1 with
    | error q => exact ⟨q, rfl⟩
    | ok u => exact absurd (rustCallWith_ok GoRustBuffer _ w u hr).1 hne

theorem incrementPointer_spec_witness :
    FfiObject.incrementPointer ⟨7, -1, true⟩ (lit "Sdk") ⟨[], []⟩
        = (.error (Panic.err (lit "Sdk" ++ lit " object has already been destroyed")),
            ⟨7, -1, true⟩, ⟨[], []⟩)
      ∧ FfiObject.incrementPointer ⟨7, 9223372036854775807, false⟩ (lit "Sdk") ⟨[], []⟩
        = (.error (Panic.err (lit "Sdk" ++ lit " object call counter would overflow")),
            ⟨7, 9223372036854775807, false⟩, ⟨[], []⟩)
      ∧ FfiObject.incrementPointer ⟨7, 0, false⟩ (lit "Sdk") ⟨[], []⟩
        = (.ok 7, { (⟨7, 0, false⟩ : FfiObject) with callCounter := 0 + 1 },
            (uniffi_fn_clone 7 RustCallStatus.zero ⟨[], []⟩).2.2) :=
  ⟨(incrementPointer_spec ⟨7, -1, true⟩ (lit "Sdk") ⟨[], []⟩).1 (by decide),
   (incrementPointer_spec ⟨7, 9223372036854775807, false⟩ (lit "Sdk") ⟨[], []⟩).2.1 rfl,
   ((incrementPointer_spec ⟨7, 0, false⟩ (lit "Sdk") ⟨[], []⟩).2.2.2.1 rfl).2
     (by decide) (by decide)⟩

/-- C14, as the claim is written, fails when the native clone reports a failure: with
the counter at 0 (neither -1 or lower nor the maximum) and a native library that
reports status code 2 for the clone, `incrementPointer` fails, and at that moment the
counter has already been raised to 1 and the native clone has been called once. -/
theorem incrementPointer_clone_fails :
    FfiObject.incrementPointer ⟨7, 0, false⟩ (lit "Sdk") ⟨[], [⟨2, ⟨0, none⟩⟩]⟩
        = (.error (Panic.err (lit "Rust panicked while handling Rust panic")),
            ⟨7, 1, false⟩, ⟨[NativeCall.object_clone 7], []⟩)
      ∧ ¬ ((0 : Int) ≤ -1 ∨ (0 : Int) = MaxInt64)
      ∧ cloneCalls 7 (FfiObject.incrementPointer ⟨7, 0, false⟩ (lit "Sdk")
          ⟨[], [⟨2, ⟨0, none⟩⟩]⟩).2.2 = 1 := by
  decide

/-- C15. `decrementPointer` lowers the call counter by exactly one (in `int64`
arithmetic; for a counter above the minimum `int64` the new value is the old one
minus one) and changes nothing else in the object.  If the new value is exactly -1
the native free function is called exactly once, on the proxy's pointer; for every
other new value no native call is made at all. -/
theorem decrementPointer_spec (ffiObject : FfiObject) (w : World) :
    (ffiObject.decrementPointer w).2.1
        = { ffiObject with callCounter := wrapInt64 (ffiObject.callCounter - 1) }
      ∧ (-9223372036854775808 < ffiObject.callCounter →
          ffiObject.callCounter ≤ 9223372036854775807 →
          (ffiObject.decrementPointer w).2.1.callCounter = ffiObject.callCounter - 1)
      ∧ ((ffiObject.decrementPointer w).2.1.callCounter = -1 →
          freeCalls ffiObject.pointer (ffiObject.decrementPointer w).2.2
            = freeCalls ffiObject.pointer w + 1)
      ∧ ((ffiObject.decrementPointer w).2.1.callCounter ≠ -1 →
          (ffiObject.decrementPointer w).1 = .ok ()
            ∧ (ffiObject.decrementPointer w).2.2 = w) := by
  have hobj : (ffiObject.decrementPointer w).2.1
      = { ffiObject with callCounter := wrapInt64 (ffiObject.callCounter - 1) } := by
    simp only [FfiObject.decrementPointer]
    split <;> rfl
  refine ⟨hobj, ?_, ?_, ?_⟩
  · intro h1 h2
    rw [hobj]
    exact wrapInt64_eq _ (by omega) (by omega)
  · intro h
    rw [hobj] at h
    simp only at h
    simp only [FfiObject.decrementPointer, h, if_true]
    exact freeRustArcPtr_freeCalls
      { ffiObject with callCounter := wrapInt64 (ffiObject.callCounter - 1) } w
  · intro h
    rw [hobj] at h
    simp only at h
    simp only [FfiObject.decrementPointer, h, if_false, and_self]

theorem decrementPointer_spec_witness :
    (FfiObject.decrementPointer ⟨7, 5, false⟩ ⟨[], []⟩).2.1.callCounter = 5 - 1
      ∧ freeCalls 7 (FfiObject.decrementPointer ⟨7, 0, true⟩ ⟨[], []⟩).2.2
          = freeCalls 7 ⟨[], []⟩ + 1
      ∧ ((FfiObject.decrementPointer ⟨7, 5, false⟩ ⟨[], []⟩).1 = .ok ()
          ∧ (FfiObject.decrementPointer ⟨7, 5, false⟩ ⟨[], []⟩).2.2 = ⟨[], []⟩) :=
  ⟨(decrementPointer_spec ⟨7, 5, false⟩ ⟨[], []⟩).2.1 (by decide) (by decide),
   (decrementPointer_spec ⟨7, 0, true⟩ ⟨[], []⟩).2.2.1 (by decide),
   (decrementPointer_spec ⟨7, 5, false⟩ ⟨[], []⟩).2.2.2 (by decide)⟩

/-! ## `destroy` -/

theorem incrementPointer_obj (ffiObject : FfiObject) (debugName : GoString) (w : World) :
    (ffiObject.incrementPointer debugName w).2.1.pointer = ffiObject.pointer
      ∧ (ffiObject.incrementPointer debugName w).2.1.destroyed = ffiObject.destroyed
      ∧ ((ffiObject.incrementPointer debugName w).2.1.callCounter = ffiObject.callCounter
          ∨ (0 ≤ ffiObject.callCounter
              ∧ (ffiObject.incrementPointer debugName w).2.1.callCounter
                  = ffiObject.callCounter + 1)) := by
  simp only [FfiObject.incrementPointer]
  split
  · exact ⟨rfl, rfl, Or.inl rfl⟩
  · split
    · exact ⟨rfl, rfl, Or.inl rfl⟩
    · exact ⟨rfl, rfl, Or.inr ⟨by omega, rfl⟩⟩

theorem decrementPointer_obj (ffiObject : FfiObject) (w : World) :
    (ffiObject.decrementPointer w).2.1
      = { ffiObject with callCounter := wrapInt64 (ffiObject.callCounter - 1) } := by
  simp only [FfiObject.decrementPointer]
  split <;> rfl

theorem destroy_obj (ffiObject : FfiObject) (w : World) :
    (ffiObject.destroy w).2.1
      = if ffiObject.destroyed = false then
          { ffiObject with
              destroyed := true, callCounter := wrapInt64 (ffiObject.callCounter - 1) }
        else ffiObject := by
  simp only [FfiObject.destroy]
  split
  · split <;> rfl
  · rfl

theorem destroy_noop (ffiObject : FfiObject) (w : World) (h : ffiObject.destroyed = true) :
    ffiObject.destroy w = (.ok (), ffiObject, w) := by
  simp [FfiObject.destroy, h]

theorem apply_obj_incrementPointer (debugName : GoString) (s : ProxyState) :
    (ProxyOp.incrementPointer.apply debugName s).obj
      = (s.obj.incrementPointer debugName s.world).2.1 := by
  simp only [ProxyOp.apply]
  cases h : s.obj.incrementPointer debugName s.world with
  | mk res rest =>
    obtain ⟨obj, w⟩ := rest
    cases res <;> rfl

theorem apply_obj_decrementPointer (debugName : GoString) (s : ProxyState) :
    (ProxyOp.decrementPointer.apply debugName s).obj = (s.obj.decrementPointer s.world).2.1 := by
  simp only [ProxyOp.apply]

theorem apply_obj_destroy (debugName : GoString) (s : ProxyState) :
    (ProxyOp.destroy.apply debugName s).obj = (s.obj.destroy s.world).2.1 := by
  simp only [ProxyOp.apply]

theorem apply_destroyed (debugName : GoString) (op : ProxyOp) (s : ProxyState)
    (h : s.obj.destroyed = true) : (op.apply debugName s).obj.destroyed = true := by
  cases op with
  | incrementPointer =>
    rw [apply_obj_incrementPointer, (incrementPointer_obj _ _ _).2.1, h]
  | decrementPointer =>
    rw [apply_obj_decrementPointer, decrementPointer_obj]
    exact h
  | destroy =>
    rw [apply_obj_destroy, destroy_obj]
    simp [h]

theorem apply_destroy_destroyed (debugName : GoString) (s : ProxyState) :
    (ProxyOp.destroy.apply debugName s).obj.destroyed = true := by
  rw [apply_obj_destroy, destroy_obj]
  cases h : s.obj.destroyed <;> simp [h]

theorem runOps_destroyed (debugName : GoString) (ops : List ProxyOp) :
    ∀ s : ProxyState, s.obj.destroyed = true →
      (runOps debugName ops s).obj.destroyed = true := by
  induction ops with
  | nil => intro s h; exact h
  | cons op ops ih =>
    intro s h
    exact ih _ (apply_destroyed debugName op s h)

theorem runOps_destroyed_of_mem (debugName : GoString) (ops : List ProxyOp) :
    ∀ s : ProxyState, ProxyOp.destroy ∈ ops →
      (runOps debugName ops s).obj.destroyed = true := by
  induction ops with
  | nil => intro s h; simp at h
  | cons op ops ih =>
    intro s h
    by_cases hop : op = ProxyOp.destroy
    · subst hop
      exact runOps_destroyed debugName ops _ (apply_destroy_destroyed debugName s)
    · have : ProxyOp.destroy ∈ ops := by
        rcases List.mem_cons.mp h with h1 | h1
        · exact absurd h1.symm hop
        · exact h1
      exact ih _ this

/-- C16. `destroy` is idempotent.  From every state, after a first `destroy` and any
sequence of further operations in between, another `destroy` returns normally and
changes neither the call counter nor the destroyed flag nor the world (the native
free function is not invoked).  The first `destroy` of a proxy not yet destroyed
sets the flag and lowers the counter by one (in `int64` arithmetic); a `destroy` of a
proxy already destroyed does not touch the counter. -/
theorem destroy_idempotent (debugName : GoString) (s : ProxyState) (ops : List ProxyOp) :
    (runOps debugName ops (ProxyOp.destroy.apply debugName s)).obj.destroy
          (runOps debugName ops (ProxyOp.destroy.apply debugName s)).world
        = (.ok (), (runOps debugName ops (ProxyOp.destroy.apply debugName s)).obj,
            (runOps debugName ops (ProxyOp.destroy.apply debugName s)).world)
      ∧ ProxyOp.destroy.apply debugName
            (runOps debugName ops (ProxyOp.destroy.apply debugName s))
          = runOps debugName ops (ProxyOp.destroy.apply debugName s)
      ∧ (s.obj.destroyed = false →
          (ProxyOp.destroy.apply debugName s).obj
            = { s.obj with
                  destroyed := true, callCounter := wrapInt64 (s.obj.callCounter - 1) })
      ∧ (s.obj.destroyed = true → ProxyOp.destroy.apply debugName s = s) := by
  have hd : (runOps debugName ops (ProxyOp.destroy.apply debugName s)).obj.destroyed = true :=
    runOps_destroyed debugName ops _ (apply_destroy_destroyed debugName s)
  have hnoop : ∀ t : ProxyState, t.obj.destroyed = true →
      ProxyOp.destroy.apply debugName t = t := by
    intro t ht
    simp only [ProxyOp.apply, destroy_noop t.obj t.world ht]
  refine ⟨destroy_noop _ _ hd, hnoop _ hd, ?_, hnoop s⟩
  intro h
  rw [apply_obj_destroy, destroy_obj]
  simp [h]

theorem destroy_idempotent_witness :
    (ProxyOp.destroy.apply (lit "Sdk") ⟨⟨7, 2, false⟩, ⟨[], []⟩, 2⟩).obj
        = { (⟨7, 2, false⟩ : FfiObject) with
              destroyed := true, callCounter := wrapInt64 ((2 : Int) - 1) }
      ∧ ProxyOp.destroy.apply (lit "Sdk") ⟨⟨7, 1, true⟩, ⟨[], []⟩, 2⟩
        = ⟨⟨7, 1, true⟩, ⟨[], []⟩, 2⟩
      ∧ ProxyOp.destroy.apply (lit "Sdk")
          (runOps (lit "Sdk") [ProxyOp.decrementPointer, ProxyOp.incrementPointer]
            (ProxyOp.destroy.apply (lit "Sdk") ⟨⟨7, 1, false⟩, ⟨[], []⟩, 1⟩))
        = runOps (lit "Sdk") [ProxyOp.decrementPointer, ProxyOp.incrementPointer]
            (ProxyOp.destroy.apply (lit "Sdk") ⟨⟨7, 1, false⟩, ⟨[], []⟩, 1⟩) :=
  ⟨(destroy_idempotent (lit "Sdk") ⟨⟨7, 2, false⟩, ⟨[], []⟩, 2⟩ []).2.2.1 rfl,
   (destroy_idempotent (lit "Sdk") ⟨⟨7, 1, true⟩, ⟨[], []⟩, 2⟩ []).2.2.2 rfl,
   (destroy_idempotent (lit "Sdk") ⟨⟨7, 1, false⟩, ⟨[], []⟩, 1⟩
      [ProxyOp.decrementPointer, ProxyOp.incrementPointer]).2.1⟩

/-! ## The destroyed state is final -/

theorem apply_counter_below (debugName : GoString) (op : ProxyOp) (s : ProxyState)
    (hlo : -9223372036854775808 < s.obj.callCounter) (hhi : s.obj.callCounter ≤ -1) :
    s.obj.callCounter - 1 ≤ (op.apply debugName s).obj.callCounter
      ∧ (op.apply debugName s).obj.callCounter ≤ -1 := by
  cases op with
  | incrementPointer =>
    rw [apply_obj_incrementPointer]
    rcases (incrementPointer_obj s.obj debugName s.world).2.2 with h | h
    · rw [h]; omega
    · omega
  | decrementPointer =>
    rw [apply_obj_decrementPointer, decrementPointer_obj]
    simp only
    rw [wrapInt64_eq _ (by omega) (by omega)]
    omega
  | destroy =>
    rw [apply_obj_destroy, destroy_obj]
    split
    · simp only
      rw [wrapInt64_eq _ (by omega) (by omega)]
      omega
    · omega

theorem runOps_counter_below (debugName : GoString) (ops : List ProxyOp) :
    ∀ s : ProxyState, -9223372036854775808 + (ops.length : Int) ≤ s.obj.callCounter →
      s.obj.callCounter ≤ -1 →
      -9223372036854775808 ≤ (runOps debugName ops s).obj.callCounter
        ∧ (runOps debugName ops s).obj.callCounter ≤ -1 := by
  induction ops with
  | nil =>
    intro s h1 h2
    simp only [List.length_nil, Nat.cast_zero, add_zero] at h1
    exact ⟨h1, h2⟩
  | cons op ops ih =>
    intro s h1 h2
    simp only [List.length_cons, Nat.cast_add, Nat.cast_one] at h1
    have hstep := apply_counter_below debugName op s (by omega) h2
    exact ih _ (by omega) hstep.2

/-- C19. The proxy state machine is one-way.  An `incrementPointer` that returns
normally found the counter at 0 or above; and once the counter is -1, after every
sequence of fewer than `2^63` `incrementPointer`, `decrementPointer` and `destroy`
operations the counter is still -1 or lower, so `incrementPointer` then panics with
"… object has already been destroyed" and changes nothing. -/
theorem destroyed_is_final :
    (∀ (ffiObject : FfiObject) (debugName : GoString) (w : World) (p : Pointer),
        (ffiObject.incrementPointer debugName w).1 = .ok p → 0 ≤ ffiObject.callCounter)
      ∧ (∀ (debugName : GoString) (s : ProxyState) (ops : List ProxyOp),
        s.obj.callCounter = -1 → ops.length < 2 ^ 63 →
          (runOps debugName ops s).obj.callCounter ≤ -1
            ∧ ∀ (name : GoString) (w : World),
                (runOps debugName ops s).obj.incrementPointer name w
                  = (.error (Panic.err (name ++ lit " object has already been destroyed")),
                      (runOps debugName ops s).obj, w)) := by
  constructor
  · intro ffiObject debugName w p h
    by_contra hneg
    have hlow : ffiObject.callCounter ≤ -1 := by omega
    simp only [FfiObject.incrementPointer, hlow, if_true] at h
    simp at h
  · intro debugName s ops hc hlen
    have hlen2 : (ops.length : Int) < 9223372036854775808 := by
      have : ops.length < 9223372036854775808 := by
        have h63 : (2 : Nat) ^ 63 = 9223372036854775808 := by norm_num
        omega
      exact_mod_cast this
    have hb := runOps_counter_below debugName ops s (by omega) (by omega)
    refine ⟨hb.2, ?_⟩
    intro name w
    simp only [FfiObject.incrementPointer, hb.2, if_true]

theorem destroyed_is_final_witness :
    (runOps (lit "Sdk")
        [ProxyOp.incrementPointer, ProxyOp.decrementPointer, ProxyOp.destroy,
          ProxyOp.incrementPointer]
        ⟨⟨7, -1, true⟩, ⟨[], []⟩, 0⟩).obj.callCounter ≤ -1
      ∧ ∀ (name : GoString) (w : World),
          (runOps (lit "Sdk")
            [ProxyOp.incrementPointer, ProxyOp.decrementPointer, ProxyOp.destroy,
              ProxyOp.incrementPointer]
            ⟨⟨7, -1, true⟩, ⟨[], []⟩, 0⟩).obj.incrementPointer name w
            = (.error (Panic.err (name ++ lit " object has already been destroyed")),
                (runOps (lit "Sdk")
                  [ProxyOp.incrementPointer, ProxyOp.decrementPointer, ProxyOp.destroy,
                    ProxyOp.incrementPointer]
                  ⟨⟨7, -1, true⟩, ⟨[], []⟩, 0⟩).obj, w) :=
  destroyed_is_final.2 (lit "Sdk") ⟨⟨7, -1, true⟩, ⟨[], []⟩, 0⟩
    [ProxyOp.incrementPointer, ProxyOp.decrementPointer, ProxyOp.destroy,
      ProxyOp.incrementPointer] rfl (by simp)

/-! ## Interleavings on a fresh proxy -/

theorem rustCall_clone_script_nil (pointer : Pointer) (w : World) (h : w.script = []) :
    rustCall (fun status w => uniffi_fn_clone pointer status w) w
      = (.ok pointer, { w with calls := w.calls ++ [NativeCall.object_clone pointer] }) := by
  rw [rustCall_of_code_zero]
  · simp [uniffi_fn_clone, h]
  · simp [uniffi_fn_clone, h, RustCallStatus.zero]

theorem freeRustArcPtr_script_nil (ffiObject : FfiObject) (w : World) (h : w.script = []) :
    ffiObject.freeRustArcPtr w
      = (.ok (), { w with calls := w.calls ++ [NativeCall.object_free ffiObject.pointer] }) := by
  simp only [FfiObject.freeRustArcPtr]
  rw [rustCall_of_code_zero]
  · simp [uniffi_fn_free, h]
  · simp [uniffi_fn_free, h, RustCallStatus.zero]

theorem incrementPointer_low (ffiObject : FfiObject) (debugName : GoString) (w : World)
    (h : ffiObject.callCounter ≤ -1) :
    ffiObject.incrementPointer debugName w
      = (.error (Panic.err (debugName ++ lit " object has already been destroyed")),
          ffiObject, w) := by
  simp only [FfiObject.incrementPointer, h, if_true]

theorem incrementPointer_max (ffiObject : FfiObject) (debugName : GoString) (w : World)
    (h : ffiObject.callCounter = MaxInt64) :
    ffiObject.incrementPointer debugName w
      = (.error (Panic.err (debugName ++ lit " object call counter would overflow")),
          ffiObject, w) := by
  have h0 : ¬ (MaxInt64 ≤ -1) := by decide
  simp only [FfiObject.incrementPointer, h, h0, if_false, if_true]

theorem incrementPointer_script_nil (ffiObject : FfiObject) (debugName : GoString) (w : World)
    (h1 : 0 ≤ ffiObject.callCounter) (h2 : ffiObject.callCounter ≠ MaxInt64)
    (hs : w.script = []) :
    ffiObject.incrementPointer debugName w
      = (.ok ffiObject.pointer,
          ⟨ffiObject.pointer, ffiObject.callCounter + 1, ffiObject.destroyed⟩,
          ⟨w.calls ++ [NativeCall.object_clone ffiObject.pointer], w.script⟩) := by
  rw [incrementPointer_guarded ffiObject debugName w h1 h2,
    rustCall_clone_script_nil ffiObject.pointer w hs]

theorem decrementPointer_last (ffiObject : FfiObject) (w : World)
    (hc : ffiObject.callCounter = 0) (hs : w.script = []) :
    ffiObject.decrementPointer w
      = (.ok (), ⟨ffiObject.pointer, -1, ffiObject.destroyed⟩,
          ⟨w.calls ++ [NativeCall.object_free ffiObject.pointer], w.script⟩) := by
  have hw : wrapInt64 (0 - 1) = -1 := by decide
  simp only [FfiObject.decrementPointer, hc, hw, if_true]
  rw [freeRustArcPtr_script_nil _ w hs]

theorem decrementPointer_not_last (ffiObject : FfiObject) (w : World)
    (h1 : 0 < ffiObject.callCounter) (h2 : ffiObject.callCounter ≤ MaxInt64) :
    ffiObject.decrementPointer w
      = (.ok (), ⟨ffiObject.pointer, ffiObject.callCounter - 1, ffiObject.destroyed⟩, w) := by
  have h3 : ffiObject.callCounter ≤ 9223372036854775807 := h2
  have hw : wrapInt64 (ffiObject.callCounter - 1) = ffiObject.callCounter - 1 :=
    wrapInt64_eq _ (by omega) (by omega)
  have hne : ¬ (ffiObject.callCounter - 1 = -1) := by omega
  simp only [FfiObject.decrementPointer, hw, hne, if_false]

theorem destroy_last (ffiObject : FfiObject) (w : World) (hd : ffiObject.destroyed = false)
    (hc : ffiObject.callCounter = 0) (hs : w.script = []) :
    ffiObject.destroy w
      = (.ok (), ⟨ffiObject.pointer, -1, true⟩,
          ⟨w.calls ++ [NativeCall.object_free ffiObject.pointer], w.script⟩) := by
  have hw : wrapInt64 (0 - 1) = -1 := by decide
  simp only [FfiObject.destroy, hd, hc, hw, if_true]
  rw [freeRustArcPtr_script_nil _ w hs]

theorem destroy_not_last (ffiObject : FfiObject) (w : World) (hd : ffiObject.destroyed = false)
    (h1 : 0 < ffiObject.callCounter) (h2 : ffiObject.callCounter ≤ MaxInt64) :
    ffiObject.destroy w
      = (.ok (), ⟨ffiObject.pointer, ffiObject.callCounter - 1, true⟩, w) := by
  have h3 : ffiObject.callCounter ≤ 9223372036854775807 := h2
  have hw : wrapInt64 (ffiObject.callCounter - 1) = ffiObject.callCounter - 1 :=
    wrapInt64_eq _ (by omega) (by omega)
  have hne : ¬ (ffiObject.callCounter - 1 = -1) := by omega
  simp only [FfiObject.destroy, hd, hw, hne, if_true, if_false]

theorem freeCalls_append_free (pointer : Pointer) (calls : List NativeCall)
    (script : List RustCallStatus) :
    freeCalls pointer ⟨calls ++ [NativeCall.object_free pointer], script⟩
      = freeCalls pointer ⟨calls, script⟩ + 1 := by
  simp [freeCalls, List.count_append]

theorem freeCalls_append_clone (pointer q : Pointer) (calls : List NativeCall)
    (script : List RustCallStatus) :
    freeCalls pointer ⟨calls ++ [NativeCall.object_clone q], script⟩
      = freeCalls pointer ⟨calls, script⟩ := by
  simp only [freeCalls]
  exact count_append_other _ _ _ (by simp)

theorem apply_incrementPointer_bookkeeping (debugName : GoString) (pointer : Pointer)
    (base : Nat) (s : ProxyState) (h : s.bookkeeping pointer base) :
    (ProxyOp.incrementPointer.apply debugName s).bookkeeping pointer base
      ∧ freeCalls pointer (ProxyOp.incrementPointer.apply debugName s).world
          = freeCalls pointer s.world := by
  obtain ⟨⟨p, c, d⟩, ⟨calls, script⟩, k⟩ := s
  obtain ⟨hp, hs, hc, hmax, hf⟩ := h
  simp only at hp hs hc hmax hf
  by_cases hlow : c ≤ -1
  · have happ : ProxyOp.incrementPointer.apply debugName ⟨⟨p, c, d⟩, ⟨calls, script⟩, k⟩
        = ⟨⟨p, c, d⟩, ⟨calls, script⟩, k⟩ := by
      simp only [ProxyOp.apply, incrementPointer_low ⟨p, c, d⟩ debugName _ hlow]
    rw [happ]
    exact ⟨⟨hp, hs, hc, hmax, hf⟩, rfl⟩
  · by_cases hm : c = MaxInt64
    · have happ : ProxyOp.incrementPointer.apply debugName ⟨⟨p, c, d⟩, ⟨calls, script⟩, k⟩
          = ⟨⟨p, c, d⟩, ⟨calls, script⟩, k⟩ := by
        simp only [ProxyOp.apply, incrementPointer_max ⟨p, c, d⟩ debugName _ hm]
      rw [happ]
      exact ⟨⟨hp, hs, hc, hmax, hf⟩, rfl⟩
    · have happ : ProxyOp.incrementPointer.apply debugName ⟨⟨p, c, d⟩, ⟨calls, script⟩, k⟩
          = ⟨⟨p, c + 1, d⟩, ⟨calls ++ [NativeCall.object_clone p], script⟩, k + 1⟩ := by
        simp only [ProxyOp.apply, incrementPointer_script_nil ⟨p, c, d⟩ debugName
          ⟨calls, script⟩ (by simp only; omega) hm hs]
      rw [happ]
      have hmax2 : c ≤ 9223372036854775807 := hmax
      have hm2 : c ≠ 9223372036854775807 := hm
      refine ⟨⟨hp, hs, ?_, ?_, ?_⟩, freeCalls_append_clone pointer p calls script⟩
      · show c + 1 = ((k + 1 : Nat) : Int) - (if d = true then 1 else 0)
        rw [hc]
        push_cast
        ring
      · show c + 1 ≤ 9223372036854775807
        omega
      · show freeCalls pointer ⟨calls ++ [NativeCall.object_clone p], script⟩
            = base + (if c + 1 = -1 then 1 else 0)
        rw [freeCalls_append_clone, hf]
        have h1 : ¬ (c = -1) := by omega
        have h2 : ¬ (c + 1 = -1) := by omega
        simp only [h1, h2, if_false]

theorem apply_decrementPointer_bookkeeping (debugName : GoString) (pointer : Pointer)
    (base : Nat) (s : ProxyState) (h : s.bookkeeping pointer base)
    (hout : 0 < s.outstanding) :
    (ProxyOp.decrementPointer.apply debugName s).bookkeeping pointer base := by
  obtain ⟨⟨p, c, d⟩, ⟨calls, script⟩, k⟩ := s
  obtain ⟨hp, hs, hc, hmax, hf⟩ := h
  simp only at hp hs hc hmax hf hout
  have hge : 0 ≤ c := by
    rw [hc]
    split <;> omega
  have hold : ¬ (c = -1) := by omega
  simp only [hold, if_false, add_zero] at hf
  have hk : ((k - 1 : Nat) : Int) = (k : Int) - 1 := by omega
  by_cases h0 : c = 0
  · have happ : ProxyOp.decrementPointer.apply debugName ⟨⟨p, c, d⟩, ⟨calls, script⟩, k⟩
        = ⟨⟨p, -1, d⟩, ⟨calls ++ [NativeCall.object_free p], script⟩, k - 1⟩ := by
      simp only [ProxyOp.apply, decrementPointer_last ⟨p, c, d⟩ ⟨calls, script⟩ h0 hs]
    rw [happ]
    refine ⟨hp, hs, ?_, ?_, ?_⟩
    · show (-1 : Int) = ((k - 1 : Nat) : Int) - (if d = true then 1 else 0)
      rw [hk]
      have : (k : Int) - (if d = true then 1 else 0) = 0 := by rw [← hc, h0]
      omega
    · show (-1 : Int) ≤ 9223372036854775807
      decide
    · show freeCalls pointer ⟨calls ++ [NativeCall.object_free p], script⟩
          = base + (if (-1 : Int) = -1 then 1 else 0)
      rw [hp, freeCalls_append_free, hf]
      simp
  · have hpos : 0 < c := by omega
    have happ : ProxyOp.decrementPointer.apply debugName ⟨⟨p, c, d⟩, ⟨calls, script⟩, k⟩
        = ⟨⟨p, c - 1, d⟩, ⟨calls, script⟩, k - 1⟩ := by
      simp only [ProxyOp.apply, decrementPointer_not_last ⟨p, c, d⟩ ⟨calls, script⟩ hpos hmax]
    rw [happ]
    have hmax2 : c ≤ 9223372036854775807 := hmax
    refine ⟨hp, hs, ?_, ?_, ?_⟩
    · show c - 1 = ((k - 1 : Nat) : Int) - (if d = true then 1 else 0)
      rw [hk, hc]
      ring
    · show c - 1 ≤ 9223372036854775807
      omega
    · show freeCalls pointer ⟨calls, script⟩ = base + (if c - 1 = -1 then 1 else 0)
      have h2 : ¬ (c - 1 = -1) := by omega
      simp only [h2, if_false, add_zero]
      exact hf

theorem apply_destroy_bookkeeping (debugName : GoString) (pointer : Pointer)
    (base : Nat) (s : ProxyState) (h : s.bookkeeping pointer base) :
    (ProxyOp.destroy.apply debugName s).bookkeeping pointer base := by
  by_cases hd : s.obj.destroyed = true
  · have : ProxyOp.destroy.apply debugName s = s := by
      simp only [ProxyOp.apply, destroy_noop s.obj s.world hd]
    rw [this]
    exact h
  · obtain ⟨⟨p, c, d⟩, ⟨calls, script⟩, k⟩ := s
    obtain ⟨hp, hs, hc, hmax, hf⟩ := h
    simp only at hp hs hc hmax hf hd
    have hd2 : d = false := by simpa using hd
    subst hd2
    simp only [Bool.false_eq_true, if_false, sub_zero] at hc
    have hold : ¬ (c = -1) := by omega
    simp only [hold, if_false, add_zero] at hf
    by_cases h0 : c = 0
    · have happ : ProxyOp.destroy.apply debugName ⟨⟨p, c, false⟩, ⟨calls, script⟩, k⟩
          = ⟨⟨p, -1, true⟩, ⟨calls ++ [NativeCall.object_free p], script⟩, k⟩ := by
        simp only [ProxyOp.apply, destroy_last ⟨p, c, false⟩ ⟨calls, script⟩ rfl h0 hs]
      rw [happ]
      refine ⟨hp, hs, ?_, ?_, ?_⟩
      · show (-1 : Int) = (k : Int) - (if true = true then 1 else 0)
        simp only [if_true]
        omega
      · show (-1 : Int) ≤ 9223372036854775807
        decide
      · show freeCalls pointer ⟨calls ++ [NativeCall.object_free p], script⟩
            = base + (if (-1 : Int) = -1 then 1 else 0)
        rw [hp, freeCalls_append_free, hf]
        simp
    · have hpos : 0 < c := by omega
      have happ : ProxyOp.destroy.apply debugName ⟨⟨p, c, false⟩, ⟨calls, script⟩, k⟩
          = ⟨⟨p, c - 1, true⟩, ⟨calls, script⟩, k⟩ := by
        simp only [ProxyOp.apply,
          destroy_not_last ⟨p, c, false⟩ ⟨calls, script⟩ rfl hpos hmax]
      rw [happ]
      have hmax2 : c ≤ 9223372036854775807 := hmax
      refine ⟨hp, hs, ?_, ?_, ?_⟩
      · show c - 1 = (k : Int) - (if true = true then 1 else 0)
        simp only [if_true]
        omega
      · show c - 1 ≤ 9223372036854775807
        omega
      · show freeCalls pointer ⟨calls, script⟩ = base + (if c - 1 = -1 then 1 else 0)
        have h2 : ¬ (c - 1 = -1) := by omega
        simp only [h2, if_false, add_zero]
        exact hf

theorem apply_bookkeeping (debugName : GoString) (pointer : Pointer) (base : Nat)
    (op : ProxyOp) (s : ProxyState) (h : s.bookkeeping pointer base)
    (hop : op ≠ ProxyOp.decrementPointer ∨ 0 < s.outstanding) :
    (op.apply debugName s).bookkeeping pointer base := by
  cases op with
  | incrementPointer => exact (apply_incrementPointer_bookkeeping debugName pointer base s h).1
  | decrementPointer =>
    rcases hop with hop | hop
    · exact absurd rfl hop
    · exact apply_decrementPointer_bookkeeping debugName pointer base s h hop
  | destroy => exact apply_destroy_bookkeeping debugName pointer base s h

theorem runOps_bookkeeping (debugName : GoString) (pointer : Pointer) (base : Nat)
    (ops : List ProxyOp) : ∀ s : ProxyState, s.bookkeeping pointer base →
      wellBracketed debugName ops s = true →
      (runOps debugName ops s).bookkeeping pointer base := by
  induction ops with
  | nil => intro s h _; exact h
  | cons op ops ih =>
    intro s h hb
    simp only [wellBracketed, Bool.and_eq_true, Bool.or_eq_true, decide_eq_true_eq] at hb
    exact ih _ (apply_bookkeeping debugName pointer base op s h hb.1) hb.2

theorem fresh_bookkeeping (pointer : Pointer) (w : World) (h : w.script = []) :
    (ProxyState.fresh pointer w).bookkeeping pointer (freeCalls pointer w) := by
  refine ⟨rfl, h, ?_, ?_, ?_⟩
  · simp [ProxyState.fresh, newFfiObject]
  · simp [ProxyState.fresh, newFfiObject, MaxInt64]
  · simp [ProxyState.fresh, newFfiObject]

theorem wellBracketed_append (debugName : GoString) (ops : List ProxyOp) (op : ProxyOp) :
    ∀ s : ProxyState, wellBracketed debugName (ops ++ [op]) s = true →
      wellBracketed debugName ops s = true
        ∧ (op ≠ ProxyOp.decrementPointer ∨ 0 < (runOps debugName ops s).outstanding) := by
  induction ops with
  | nil =>
    intro s h
    simp only [List.nil_append, wellBracketed, Bool.and_eq_true, Bool.or_eq_true,
      decide_eq_true_eq, and_true] at h
    exact ⟨rfl, h⟩
  | cons o ops ih =>
    intro s h
    simp only [List.cons_append, wellBracketed, Bool.and_eq_true, Bool.or_eq_true,
      decide_eq_true_eq] at h
    have := ih _ h.2
    simp only [wellBracketed, Bool.and_eq_true, Bool.or_eq_true, decide_eq_true_eq, runOps]
    exact ⟨⟨h.1, this.1⟩, this.2⟩

/-- C17, as the code has it. Starting from a fresh proxy (counter 0, not destroyed)
and with a native library that reports success on every call, for every interleaving
of `incrementPointer` / `decrementPointer` pairs with one `destroy` call, each
operation taken as one atomic step (every `decrementPointer` belongs to a call in
flight, an `incrementPointer` that failed has none, and at the end no call is in
flight), the native free function has been called on the proxy's pointer exactly
once more than before the run, that is exactly once on a fresh log. -/
theorem free_exactly_once (debugName : GoString) (pointer : Pointer) (w : World)
    (ops : List ProxyOp) (hnative : w.script = [])
    (hb : wellBracketed debugName ops (ProxyState.fresh pointer w) = true)
    (hd : ops.count ProxyOp.destroy = 1)
    (hdone : (runOps debugName ops (ProxyState.fresh pointer w)).outstanding = 0) :
    freeCalls pointer (runOps debugName ops (ProxyState.fresh pointer w)).world
        = freeCalls pointer w + 1
      ∧ (w.calls = [] →
          freeCalls pointer (runOps debugName ops (ProxyState.fresh pointer w)).world = 1) := by
  have hmem : ProxyOp.destroy ∈ ops := by
    apply List.count_pos_iff.mp
    omega
  have hdes := runOps_destroyed_of_mem debugName ops (ProxyState.fresh pointer w) hmem
  obtain ⟨_, _, hc, _, hf⟩ :=
    runOps_bookkeeping debugName pointer _ ops _ (fresh_bookkeeping pointer w hnative) hb
  rw [hdone, hdes] at hc
  have hc1 : (runOps debugName ops (ProxyState.fresh pointer w)).obj.callCounter = -1 := by
    rw [hc]; simp
  rw [hc1] at hf
  simp only [if_true] at hf
  refine ⟨hf, ?_⟩
  intro hcalls
  rw [hf]
  simp [freeCalls, hcalls]

theorem free_exactly_once_witness :
    freeCalls 7 (runOps (lit "Sdk")
        [ProxyOp.incrementPointer, ProxyOp.incrementPointer, ProxyOp.decrementPointer,
          ProxyOp.destroy, ProxyOp.incrementPointer, ProxyOp.decrementPointer,
          ProxyOp.decrementPointer, ProxyOp.incrementPointer]
        (ProxyState.fresh 7 ⟨[], []⟩)).world = freeCalls 7 ⟨[], []⟩ + 1
      ∧ ((⟨[], []⟩ : World).calls = [] →
          freeCalls 7 (runOps (lit "Sdk")
            [ProxyOp.incrementPointer, ProxyOp.incrementPointer, ProxyOp.decrementPointer,
              ProxyOp.destroy, ProxyOp.incrementPointer, ProxyOp.decrementPointer,
              ProxyOp.decrementPointer, ProxyOp.incrementPointer]
            (ProxyState.fresh 7 ⟨[], []⟩)).world = 1) :=
  free_exactly_once (lit "Sdk") 7 ⟨[], []⟩
    [ProxyOp.incrementPointer, ProxyOp.incrementPointer, ProxyOp.decrementPointer,
      ProxyOp.destroy, ProxyOp.incrementPointer, ProxyOp.decrementPointer,
      ProxyOp.decrementPointer, ProxyOp.incrementPointer]
    rfl (by decide) (by decide) (by decide)

/-- C17, as the claim is written, fails when the native clone reports a failure: on a
fresh proxy, an `incrementPointer` whose native clone reports status code 2 fails
(so it has no `decrementPointer`) but has already raised the counter to 1; the one
`destroy` that follows lowers it to 0, not to -1.  The run is well bracketed, holds
exactly one `destroy`, ends with no call in flight, and the native free function has
not been called at all. -/
theorem free_never_called_after_failed_clone :
    wellBracketed (lit "Sdk") [ProxyOp.incrementPointer, ProxyOp.destroy]
        (ProxyState.fresh 7 ⟨[], [⟨2, ⟨0, none⟩⟩]⟩) = true
      ∧ [ProxyOp.incrementPointer, ProxyOp.destroy].count ProxyOp.destroy = 1
      ∧ (∃ p, ((newFfiObject 7).incrementPointer (lit "Sdk") ⟨[], [⟨2, ⟨0, none⟩⟩]⟩).1
          = .error p)
      ∧ (runOps (lit "Sdk") [ProxyOp.incrementPointer, ProxyOp.destroy]
          (ProxyState.fresh 7 ⟨[], [⟨2, ⟨0, none⟩⟩]⟩)).outstanding = 0
      ∧ (runOps (lit "Sdk") [ProxyOp.incrementPointer, ProxyOp.destroy]
          (ProxyState.fresh 7 ⟨[], [⟨2, ⟨0, none⟩⟩]⟩)).obj = ⟨7, 0, true⟩
      ∧ freeCalls 7 (runOps (lit "Sdk") [ProxyOp.incrementPointer, ProxyOp.destroy]
          (ProxyState.fresh 7 ⟨[], [⟨2, ⟨0, none⟩⟩]⟩)).world = 0 := by
  refine ⟨by decide, by decide, ⟨_, rfl⟩, by decide, by decide, by decide⟩

/-- C18. The native object is never released while a call is in flight.  In every
well-bracketed interleaving on a fresh proxy (the native library reporting success on
every call), a step that invokes the native free function leaves no call in flight
behind it; a `destroy` made while some call is in flight does not invoke free; and
after `destroy`, the `decrementPointer` of the last call in flight invokes free. -/
theorem no_free_while_in_flight (debugName : GoString) (pointer : Pointer) (w : World)
    (ops : List ProxyOp) (op : ProxyOp) (hnative : w.script = [])
    (hb : wellBracketed debugName (ops ++ [op]) (ProxyState.fresh pointer w) = true) :
    (freeCalls pointer
          (op.apply debugName (runOps debugName ops (ProxyState.fresh pointer w))).world
        ≠ freeCalls pointer (runOps debugName ops (ProxyState.fresh pointer w)).world →
        (op.apply debugName (runOps debugName ops (ProxyState.fresh pointer w))).outstanding
          = 0)
      ∧ (op = ProxyOp.destroy →
          0 < (runOps debugName ops (ProxyState.fresh pointer w)).outstanding →
          (op.apply debugName (runOps debugName ops (ProxyState.fresh pointer w))).world
            = (runOps debugName ops (ProxyState.fresh pointer w)).world)
      ∧ (op = ProxyOp.decrementPointer →
          (runOps debugName ops (ProxyState.fresh pointer w)).outstanding = 1 →
          (runOps debugName ops (ProxyState.fresh pointer w)).obj.destroyed = true →
          freeCalls pointer
              (op.apply debugName (runOps debugName ops (ProxyState.fresh pointer w))).world
            = freeCalls pointer (runOps debugName ops (ProxyState.fresh pointer w)).world
                + 1) := by
  obtain ⟨hb1, hop⟩ := wellBracketed_append debugName ops op _ hb
  have hbk := runOps_bookkeeping debugName pointer _ ops _
    (fresh_bookkeeping pointer w hnative) hb1
  have hbk2 := apply_bookkeeping debugName pointer _ op _ hbk hop
  generalize runOps debugName ops (ProxyState.fresh pointer w) = s at hop hbk hbk2 ⊢
  obtain ⟨⟨p, c, d⟩, ⟨calls, script⟩, k⟩ := s
  obtain ⟨hp, hs, hc, hmax, hf⟩ := hbk
  simp only at hp hs hc hmax hf hop
  refine ⟨?_, ?_, ?_⟩
  · intro hne
    obtain ⟨_, _, hc2, _, hf2⟩ := hbk2
    by_cases hnew : (op.apply debugName
        ⟨⟨p, c, d⟩, ⟨calls, script⟩, k⟩).obj.callCounter = -1
    · rw [hnew] at hc2
      split at hc2 <;> omega
    · exfalso
      simp only [hnew, if_false, add_zero] at hf2
      by_cases hold : c = -1
      · have hk0 : k = 0 := by
          rw [hold] at hc
          split at hc <;> omega
        have hd1 : d = true := by
          rw [hold, hk0] at hc
          by_contra hdf
          simp [hdf] at hc
        have hsame : op.apply debugName ⟨⟨p, c, d⟩, ⟨calls, script⟩, k⟩
            = ⟨⟨p, c, d⟩, ⟨calls, script⟩, k⟩ := by
          cases op with
          | incrementPointer =>
            simp only [ProxyOp.apply,
              incrementPointer_low ⟨p, c, d⟩ debugName _ (by simp only; omega)]
          | decrementPointer =>
            rcases hop with hop | hop
            · exact absurd rfl hop
            · omega
          | destroy =>
            simp only [ProxyOp.apply, destroy_noop ⟨p, c, d⟩ ⟨calls, script⟩ hd1]
        rw [hsame] at hnew
        exact hnew hold
      · simp only [hold, if_false, add_zero] at hf
        apply hne
        rw [hf2]
        exact hf.symm
  · intro hdes hk
    subst hdes
    simp only at hk
    by_cases hd1 : d = true
    · simp only [ProxyOp.apply, destroy_noop ⟨p, c, d⟩ ⟨calls, script⟩ hd1]
    · have hd2 : d = false := by simpa using hd1
      subst hd2
      simp only [Bool.false_eq_true, if_false, sub_zero] at hc
      simp only [ProxyOp.apply, destroy_not_last ⟨p, c, false⟩ ⟨calls, script⟩ rfl
        (by simp only; omega) hmax]
  · intro hdec hk hd1
    subst hdec
    simp only at hk hd1
    have hc0 : c = 0 := by
      rw [hc, hk, hd1]
      simp
    simp only [ProxyOp.apply, decrementPointer_last ⟨p, c, d⟩ ⟨calls, script⟩ hc0 hs]
    rw [← hp]
    exact freeCalls_append_free p calls script

theorem no_free_while_in_flight_witness :
    (ProxyOp.destroy.apply (lit "Sdk")
        (runOps (lit "Sdk") [ProxyOp.incrementPointer, ProxyOp.incrementPointer]
          (ProxyState.fresh 7 ⟨[], []⟩))).world
      = (runOps (lit "Sdk") [ProxyOp.incrementPointer, ProxyOp.incrementPointer]
          (ProxyState.fresh 7 ⟨[], []⟩)).world
    ∧ freeCalls 7 (ProxyOp.decrementPointer.apply (lit "Sdk")
        (runOps (lit "Sdk") [ProxyOp.incrementPointer, ProxyOp.destroy]
          (ProxyState.fresh 7 ⟨[], []⟩))).world
      = freeCalls 7 (runOps (lit "Sdk") [ProxyOp.incrementPointer, ProxyOp.destroy]
          (ProxyState.fresh 7 ⟨[], []⟩)).world + 1
    ∧ (ProxyOp.decrementPointer.apply (lit "Sdk")
        (runOps (lit "Sdk") [ProxyOp.incrementPointer, ProxyOp.destroy]
          (ProxyState.fresh 7 ⟨[], []⟩))).outstanding = 0 :=
  ⟨(no_free_while_in_flight (lit "Sdk") 7 ⟨[], []⟩
      [ProxyOp.incrementPointer, ProxyOp.incrementPointer] ProxyOp.destroy rfl
      (by decide)).2.1 rfl (by decide),
   (no_free_while_in_flight (lit "Sdk") 7 ⟨[], []⟩
      [ProxyOp.incrementPointer, ProxyOp.destroy] ProxyOp.decrementPointer rfl
      (by decide)).2.2 rfl (by decide) (by decide),
   (no_free_while_in_flight (lit "Sdk") 7 ⟨[], []⟩
      [ProxyOp.incrementPointer, ProxyOp.destroy] ProxyOp.decrementPointer rfl
      (by decide)).1 (by decide)⟩

/-! ## The handle table -/

theorem issuedHandles_range {T : Type} (ops : List (HandleOp T)) :
    ∀ cm : concurrentHandleMap T, cm.currentHandle + insertCount ops < 2 ^ 64 →
      issuedHandles ops cm = List.range' (cm.currentHandle + 1) (insertCount ops) := by
  induction ops with
  | nil => intro cm _; rfl
  | cons op ops ih =>
    intro cm h
    cases op with
    | insert obj =>
      simp only [insertCount] at h
      have hmod : (cm.currentHandle + 1) % 2 ^ 64 = cm.currentHandle + 1 :=
        Nat.mod_eq_of_lt (by omega)
      have hcur : (cm.insert obj).2.currentHandle = cm.currentHandle + 1 := by
        simp only [concurrentHandleMap.insert, hmod]
      have hfst : (cm.insert obj).1 = cm.currentHandle + 1 := by
        simp only [concurrentHandleMap.insert, hmod]
      simp only [issuedHandles, insertCount]
      rw [ih (cm.insert obj).2 (by rw [hcur]; omega), hcur, hfst]
      rfl
    | remove handle =>
      simp only [insertCount] at h
      simp only [issuedHandles, insertCount]
      exact ih (cm.remove handle) h
    | tryGet handle =>
      simp only [insertCount] at h
      simp only [issuedHandles, insertCount]
      exact ih cm h

/-- C20. `concurrentHandleMap` hands out monotonically increasing ids.  `insert`
returns `currentHandle + 1` (in `uint64` arithmetic) and stores the object under it:
`tryGet` of the new handle returns the object and the entries of all other handles
are unchanged.  In every sequence of `insert`, `remove` and `tryGet` operations on a
new table with fewer than `2^64` inserts, the handles returned are 1, 2, 3, … in
order: each is strictly greater than all returned before, none is 0 and none is
issued twice, whatever was removed in between. -/
theorem handles_monotonic (T : Type) :
    (∀ (cm : concurrentHandleMap T) (obj : T),
        (cm.insert obj).1 = (cm.currentHandle + 1) % 2 ^ 64
          ∧ (cm.currentHandle + 1 < 2 ^ 64 → (cm.insert obj).1 = cm.currentHandle + 1)
          ∧ (cm.insert obj).2.currentHandle = (cm.insert obj).1
          ∧ (cm.insert obj).2.tryGet (cm.insert obj).1 = some obj
          ∧ ∀ h, h ≠ (cm.insert obj).1 → (cm.insert obj).2.tryGet h = cm.tryGet h)
      ∧ (∀ ops : List (HandleOp T), insertCount ops < 2 ^ 64 →
        issuedHandles ops newConcurrentHandleMap = List.range' 1 (insertCount ops)
          ∧ List.Pairwise (fun a b => a < b) (issuedHandles ops newConcurrentHandleMap)
          ∧ 0 ∉ issuedHandles ops newConcurrentHandleMap
          ∧ (issuedHandles ops newConcurrentHandleMap).Nodup) := by
  constructor
  · intro cm obj
    refine ⟨rfl, ?_, rfl, ?_, ?_⟩
    · intro h
      simp only [concurrentHandleMap.insert]
      exact Nat.mod_eq_of_lt h
    · simp [concurrentHandleMap.insert, concurrentHandleMap.tryGet]
    · intro h hne
      simp only [concurrentHandleMap.insert] at hne
      simp only [concurrentHandleMap.insert, concurrentHandleMap.tryGet, hne, if_false]
  · intro ops hlt
    have hr : issuedHandles ops (newConcurrentHandleMap : concurrentHandleMap T)
        = List.range' 1 (insertCount ops) := by
      have := issuedHandles_range ops (newConcurrentHandleMap : concurrentHandleMap T)
        (by simpa [newConcurrentHandleMap] using hlt)
      simpa [newConcurrentHandleMap] using this
    rw [hr]
    refine ⟨rfl, ?_, ?_, ?_⟩
    · exact List.pairwise_lt_range' 1 (insertCount ops)
    · simp only [List.mem_range']
      rintro ⟨i, _, hi⟩
      omega
    · exact List.nodup_range' 1 (insertCount ops)

theorem handles_monotonic_witness :
    ((newConcurrentHandleMap : concurrentHandleMap Nat).insert 5).1
        = (newConcurrentHandleMap : concurrentHandleMap Nat).currentHandle + 1
      ∧ (issuedHandles
            [HandleOp.insert 5, HandleOp.remove 1, HandleOp.insert 6, HandleOp.tryGet 1,
              HandleOp.insert 7]
            (newConcurrentHandleMap : concurrentHandleMap Nat)
          = List.range' 1
              (insertCount [HandleOp.insert 5, HandleOp.remove 1, HandleOp.insert 6,
                HandleOp.tryGet 1, HandleOp.insert (7 : Nat)])
        ∧ List.Pairwise (fun a b => a < b)
            (issuedHandles
              [HandleOp.insert 5, HandleOp.remove 1, HandleOp.insert 6, HandleOp.tryGet 1,
                HandleOp.insert 7]
              (newConcurrentHandleMap : concurrentHandleMap Nat))
        ∧ 0 ∉ issuedHandles
              [HandleOp.insert 5, HandleOp.remove 1, HandleOp.insert 6, HandleOp.tryGet 1,
                HandleOp.insert 7]
              (newConcurrentHandleMap : concurrentHandleMap Nat)
        ∧ (issuedHandles
              [HandleOp.insert 5, HandleOp.remove 1, HandleOp.insert 6, HandleOp.tryGet 1,
                HandleOp.insert 7]
              (newConcurrentHandleMap : concurrentHandleMap Nat)).Nodup) :=
  ⟨((handles_monotonic Nat).1 newConcurrentHandleMap 5).2.1 (by decide),
   (handles_monotonic Nat).2
     [HandleOp.insert 5, HandleOp.remove 1, HandleOp.insert 6, HandleOp.tryGet 1,
       HandleOp.insert 7] (by decide)⟩

/-! ## The contract version guard -/

theorem rustCall_const {U : Type} (v : U) (w : World) :
    rustCall (fun status w => (v, status, w)) w = (.ok v, w) := by
  rw [rustCall_of_code_zero]
  rfl

theorem checkChecksumEntries_ok (lib : NativeLibrary) (w : World) :
    ∀ table : List (String × Nat), (∀ e ∈ table, lib.checksum e.1 = e.2) →
      checkChecksumEntries lib table w = (.ok (), w) := by
  intro table
  induction table with
  | nil => intro _; rfl
  | cons e rest ih =>
    intro h
    obtain ⟨name, expected⟩ := e
    have h1 : lib.checksum name = expected := h (name, expected) (List.mem_cons_self _ _)
    simp only [checkChecksumEntries, rustCall_const, h1, ne_eq, not_true_eq_false, if_false]
    exact ih (fun e he => h e (List.mem_cons_of_mem _ he))

theorem checkChecksumEntries_first_mismatch (lib : NativeLibrary) (w : World)
    (name : String) (expected : Nat) (post : List (String × Nat))
    (hne : lib.checksum name ≠ expected) :
    ∀ pre : List (String × Nat), (∀ e ∈ pre, lib.checksum e.1 = e.2) →
      checkChecksumEntries lib (pre ++ (name, expected) :: post) w
        = (.error (Panic.str
            (lit ("breez_sdk_spark: " ++ name ++ ": UniFFI API checksum mismatch"))), w) := by
  intro pre
  induction pre with
  | nil =>
    intro _
    simp only [List.nil_append, checkChecksumEntries, rustCall_const, ne_eq, hne,
      not_false_eq_true, if_true]
  | cons e rest ih =>
    intro h
    obtain ⟨n, x⟩ := e
    have h1 : lib.checksum n = x := h (n, x) (List.mem_cons_self _ _)
    simp only [List.cons_append, checkChecksumEntries, rustCall_const, h1, ne_eq,
      not_true_eq_false, if_false]
    exact ih (fun e he => h e (List.mem_cons_of_mem _ he))

theorem checkChecksumEntries_ok_iff (lib : NativeLibrary) (w : World) :
    ∀ table : List (String × Nat),
      (checkChecksumEntries lib table w).1 = .ok ()
        ↔ ∀ e ∈ table, lib.checksum e.1 = e.2 := by
  intro table
  constructor
  · induction table with
    | nil => intro _ e he; simp at he
    | cons e rest ih =>
      obtain ⟨name, expected⟩ := e
      intro h e he
      simp only [checkChecksumEntries, rustCall_const] at h
      by_cases hc : lib.checksum name = expected
      · simp only [hc, ne_eq, not_true_eq_false, if_false] at h
        rcases List.mem_cons.mp he with h1 | h1
        · rw [h1]; exact hc
        · exact ih h e h1
      · simp [hc] at h
  · intro h
    rw [checkChecksumEntries_ok lib w table h]

/-- C25. `uniffiCheckChecksums` returns normally if and only if the native library
reports contract version 26 and every one of the 88 checksum functions reports its
expected constant (among them `func_connect` = 40345, `func_default_config` = 62194,
`method_logger_log` = 11839).  If the contract version differs it panics with the
contract version mismatch; otherwise, if some checksum differs, it panics with the
checksum mismatch that names the first function (in source order) whose value
differs. -/
theorem uniffiCheckChecksums_spec (lib : NativeLibrary) (w : World) :
    ((uniffiCheckChecksums lib w).1 = .ok ()
        ↔ (lib.contract_version = 26 ∧ ∀ e ∈ checksumTable, lib.checksum e.1 = e.2))
      ∧ (lib.contract_version ≠ 26 →
          uniffiCheckChecksums lib w
            = (.error (Panic.str (lit "breez_sdk_spark: UniFFI contract version mismatch")),
                w))
      ∧ (∀ (pre : List (String × Nat)) (name : String) (expected : Nat)
          (post : List (String × Nat)),
          checksumTable = pre ++ (name, expected) :: post →
          lib.contract_version = 26 → (∀ e ∈ pre, lib.checksum e.1 = e.2) →
          lib.checksum name ≠ expected →
          uniffiCheckChecksums lib w
            = (.error (Panic.str
                (lit ("breez_sdk_spark: " ++ name ++ ": UniFFI API checksum mismatch"))), w))
      ∧ checksumTable.length = 88
      ∧ ("uniffi_breez_sdk_spark_checksum_func_connect", 40345) ∈ checksumTable
      ∧ ("uniffi_breez_sdk_spark_checksum_func_default_config", 62194) ∈ checksumTable
      ∧ ("uniffi_breez_sdk_spark_checksum_method_logger_log", 11839) ∈ checksumTable := by
  refine ⟨?_, ?_, ?_, rfl, ?_, ?_, ?_⟩
  · by_cases hv : lib.contract_version = 26
    · have h26 : ¬ ((26 : Nat) ≠ lib.contract_version) := by simp [hv]
      simp only [uniffiCheckChecksums, rustCall_const, h26, if_false, hv, true_and]
      exact checkChecksumEntries_ok_iff lib w checksumTable
    · have h26 : (26 : Nat) ≠ lib.contract_version := fun h => hv h.symm
      simp [uniffiCheckChecksums, rustCall_const, h26, hv]
  · intro hv
    have h26 : (26 : Nat) ≠ lib.contract_version := fun h => hv h.symm
    simp only [uniffiCheckChecksums, rustCall_const]
    rw [if_pos h26]
  · intro pre name expected post htab hv hpre hne
    have h26 : ¬ ((26 : Nat) ≠ lib.contract_version) := by simp [hv]
    simp only [uniffiCheckChecksums, rustCall_const, h26, if_false]
    rw [htab]
    exact checkChecksumEntries_first_mismatch lib w name expected post hne pre hpre
  · simp [checksumTable]
  · simp [checksumTable]
  · simp [checksumTable]

theorem uniffiCheckChecksums_spec_witness :
    uniffiCheckChecksums ⟨25, fun _ => 0⟩ ⟨[], []⟩
        = (.error (Panic.str (lit "breez_sdk_spark: UniFFI contract version mismatch")),
            ⟨[], []⟩)
      ∧ uniffiCheckChecksums
          ⟨26, fun name =>
            if name = "uniffi_breez_sdk_spark_checksum_func_connect" then 40345 else 0⟩
          ⟨[], []⟩
        = (.error (Panic.str (lit ("breez_sdk_spark: "
              ++ "uniffi_breez_sdk_spark_checksum_func_default_config"
              ++ ": UniFFI API checksum mismatch"))), ⟨[], []⟩) :=
  ⟨(uniffiCheckChecksums_spec ⟨25, fun _ => 0⟩ ⟨[], []⟩).2.1 (by decide),
   (uniffiCheckChecksums_spec
      ⟨26, fun name =>
        if name = "uniffi_breez_sdk_spark_checksum_func_connect" then 40345 else 0⟩
      ⟨[], []⟩).2.2.1
      [("uniffi_breez_sdk_spark_checksum_func_connect", 40345)]
      "uniffi_breez_sdk_spark_checksum_func_default_config" 62194
      (checksumTable.drop 2) rfl rfl (by decide) (by decide)⟩

/-! ## `init` -/

theorem checkChecksumEntries_world (lib : NativeLibrary) (w : World) :
    ∀ table : List (String × Nat), (checkChecksumEntries lib table w).2 = w := by
  intro table
  induction table with
  | nil => rfl
  | cons e rest ih =>
    obtain ⟨name, expected⟩ := e
    simp only [checkChecksumEntries, rustCall_const]
    split
    · rfl
    · exact ih

theorem uniffiCheckChecksums_world (lib : NativeLibrary) (w : World) :
    (uniffiCheckChecksums lib w).2 = w := by
  simp only [uniffiCheckChecksums, rustCall_const]
  split
  · rfl
  · exact checkChecksumEntries_world lib w checksumTable

/-- C26, as the code has it. `init` registers the eight callback vtables with the
native library, in the order of the source, and only then runs
`uniffiCheckChecksums`, which itself changes nothing.  So when the native library
reports a mismatched checksum for an operation, `init` panics with that operation's
checksum mismatch, and at that moment the eight vtables have already been
registered. -/
theorem init_registers_then_checks (lib : NativeLibrary) (w : World) :
    (init lib w).2
        = { w with calls := w.calls ++
            [NativeCall.init_callback_vtable "bitcoinchainservice",
              NativeCall.init_callback_vtable "fiatservice",
              NativeCall.init_callback_vtable "paymentobserver",
              NativeCall.init_callback_vtable "restclient",
              NativeCall.init_callback_vtable "storage",
              NativeCall.init_callback_vtable "syncstorage",
              NativeCall.init_callback_vtable "eventlistener",
              NativeCall.init_callback_vtable "logger"] }
      ∧ (uniffiCheckChecksums lib w).2 = w
      ∧ (∀ (pre : List (String × Nat)) (name : String) (expected : Nat)
          (post : List (String × Nat)),
          checksumTable = pre ++ (name, expected) :: post →
          lib.contract_version = 26 → (∀ e ∈ pre, lib.checksum e.1 = e.2) →
          lib.checksum name ≠ expected →
          (init lib w).1
            = .error (Panic.str
                (lit ("breez_sdk_spark: " ++ name ++ ": UniFFI API checksum mismatch")))) := by
  refine ⟨?_, uniffiCheckChecksums_world lib w, ?_⟩
  · simp only [init, uniffiCheckChecksums_world, FfiConverterBitcoinChainService.register,
      FfiConverterFiatService.register, FfiConverterPaymentObserver.register,
      FfiConverterRestClient.register, FfiConverterStorage.register,
      FfiConverterSyncStorage.register, FfiConverterCallbackInterfaceEventListener.register,
      FfiConverterCallbackInterfaceLogger.register, uniffi_fn_init_callback_vtable,
      List.append_assoc, List.cons_append, List.nil_append]
  · intro pre name expected post htab hv hpre hne
    have h26 : ¬ ((26 : Nat) ≠ lib.contract_version) := by simp [hv]
    simp only [init, uniffiCheckChecksums, rustCall_const, h26, if_false]
    rw [htab, checkChecksumEntries_first_mismatch lib _ name expected post hne pre hpre]

theorem init_registers_then_checks_witness :
    (init ⟨26, fun _ => 0⟩ ⟨[], []⟩).1
      = .error (Panic.str (lit ("breez_sdk_spark: "
          ++ "uniffi_breez_sdk_spark_checksum_func_connect"
          ++ ": UniFFI API checksum mismatch"))) :=
  (init_registers_then_checks ⟨26, fun _ => 0⟩ ⟨[], []⟩).2.2 []
    "uniffi_breez_sdk_spark_checksum_func_connect" 40345 (checksumTable.drop 1)
    rfl rfl (by decide) (by decide)

/-- C26, as the claim is written, fails for a native library that reports a wrong
checksum for the single operation `func_connect` and the expected value for every
other one: `init` aborts with the checksum mismatch, and the log of native calls
already starts with the registrations of six callback vtables. -/
theorem init_partial_bring_up :
    (init ⟨26, fun name =>
        if name = "uniffi_breez_sdk_spark_checksum_func_connect" then 0
        else (checksumTable.lookup name).getD 0⟩ ⟨[], []⟩).1
      = .error (Panic.str
          (lit "breez_sdk_spark: uniffi_breez_sdk_spark_checksum_func_connect: UniFFI API checksum mismatch"))
    ∧ (init ⟨26, fun name =>
        if name = "uniffi_breez_sdk_spark_checksum_func_connect" then 0
        else (checksumTable.lookup name).getD 0⟩ ⟨[], []⟩).2.calls.take 6
      = [NativeCall.init_callback_vtable "bitcoinchainservice",
          NativeCall.init_callback_vtable "fiatservice",
          NativeCall.init_callback_vtable "paymentobserver",
          NativeCall.init_callback_vtable "restclient",
          NativeCall.init_callback_vtable "storage",
          NativeCall.init_callback_vtable "syncstorage"] := by
  decide

/-! ## Handles after `free` -/

theorem runHandleOps_removed {T : Type} (h : Nat) (ops : List (HandleOp T)) :
    ∀ cm : concurrentHandleMap T, cm.tryGet h = none → h ≤ cm.currentHandle →
      cm.currentHandle + insertCount ops < 2 ^ 64 →
      (runHandleOps ops cm).tryGet h = none := by
  induction ops with
  | nil => intro cm hg _ _; exact hg
  | cons op ops ih =>
    intro cm hg hle hlt
    cases op with
    | insert obj =>
      simp only [insertCount] at hlt
      have hmod : (cm.currentHandle + 1) % 2 ^ 64 = cm.currentHandle + 1 :=
        Nat.mod_eq_of_lt (by omega)
      have hcur : (cm.insert obj).2.currentHandle = cm.currentHandle + 1 := by
        simp only [concurrentHandleMap.insert, hmod]
      have hne : h ≠ (cm.currentHandle + 1) % 2 ^ 64 := by rw [hmod]; omega
      have hget : (cm.insert obj).2.tryGet h = none := by
        simp only [concurrentHandleMap.insert, concurrentHandleMap.tryGet, hne, if_false]
        exact hg
      simp only [runHandleOps, HandleOp.apply]
      exact ih _ hget (by rw [hcur]; omega) (by rw [hcur]; omega)
    | remove handle =>
      simp only [insertCount] at hlt
      have hget : (cm.remove handle).tryGet h = none := by
        simp only [concurrentHandleMap.remove, concurrentHandleMap.tryGet]
        split
        · rfl
        · exact hg
      simp only [runHandleOps, HandleOp.apply]
      exact ih _ hget hle hlt
    | tryGet handle =>
      simp only [insertCount] at hlt
      simp only [runHandleOps, HandleOp.apply]
      exact ih _ hg hle hlt

theorem remove_tryGet {T : Type} (cm : concurrentHandleMap T) (h : Nat) :
    (cm.remove h).tryGet h = none := by
  simp [concurrentHandleMap.remove, concurrentHandleMap.tryGet]

/-- C21. After the free entry point has removed handle `h` from the table, a lookup of
`h` fails: `tryGet(h)` returns not-found right after `remove(h)` for every table and
every `h`, and for a handle the table had issued it still does after every further
sequence of `insert`, `remove` and `tryGet` operations (fewer than `2^64` inserts in
all).  A method dispatch for a handle that is not in the table panics with "no
callback in handle map: <handle>" and does nothing else: no token is written, the
argument buffer is not lifted and the managed implementation is not invoked. -/
theorem lookup_after_free_fails (T R E : Type) :
    (∀ (cm : concurrentHandleMap T) (h : Nat),
        (cm.remove h).tryGet h = none
          ∧ (breez_sdk_spark_cgo_dispatchCallbackInterfaceBitcoinChainServiceFree cm h).2
              = cm.remove h)
      ∧ (∀ (cm : concurrentHandleMap T) (h : Nat) (ops : List (HandleOp T)),
          h ≤ cm.currentHandle → cm.currentHandle + insertCount ops < 2 ^ 64 →
          (runHandleOps ops
            (breez_sdk_spark_cgo_dispatchCallbackInterfaceBitcoinChainServiceFree cm h).2).tryGet
              h = none)
      ∧ (∀ (cm : concurrentHandleMap T)
          (lowerRes : R → World → Except Panic RustBuffer × World)
          (lowerErr : E → World → Except Panic RustBuffer × World)
          (GetAddressUtxos : T → GoString → R × Option (GoError E))
          (handle : Nat) (address : RustBuffer) (guardHandle : Nat) (w : World),
          cm.tryGet handle = none →
          breez_sdk_spark_cgo_dispatchCallbackInterfaceBitcoinChainServiceMethod0 cm lowerRes
              lowerErr GetAddressUtxos handle address guardHandle w
            = (.error (Panic.err (lit "no callback in handle map: " ++ fmtD handle)), w)) := by
  refine ⟨?_, ?_, ?_⟩
  · intro cm h
    exact ⟨remove_tryGet cm h, rfl⟩
  · intro cm h ops hle hlt
    exact runHandleOps_removed h ops (cm.remove h) (remove_tryGet cm h) hle hlt
  · intro cm lowerRes lowerErr GetAddressUtxos handle address guardHandle w hg
    simp only [breez_sdk_spark_cgo_dispatchCallbackInterfaceBitcoinChainServiceMethod0, hg]

theorem lookup_after_free_fails_witness :
    (runHandleOps [HandleOp.insert 8, HandleOp.tryGet 1, HandleOp.remove 2]
        (breez_sdk_spark_cgo_dispatchCallbackInterfaceBitcoinChainServiceFree
          ((newConcurrentHandleMap : concurrentHandleMap Nat).insert 7).2 1).2).tryGet 1
        = none
      ∧ breez_sdk_spark_cgo_dispatchCallbackInterfaceBitcoinChainServiceMethod0
          (breez_sdk_spark_cgo_dispatchCallbackInterfaceBitcoinChainServiceFree
            ((newConcurrentHandleMap : concurrentHandleMap Nat).insert 7).2 1).2
          FfiConverterString.Lower FfiConverterString.Lower
          (fun (_ : Nat) (a : GoString) => (a, (none : Option (GoError GoString))))
          1 ⟨1, some [65]⟩ 9 ⟨[], []⟩
        = (.error (Panic.err (lit "no callback in handle map: " ++ fmtD ((1 : Nat) : Int))),
            ⟨[], []⟩) :=
  ⟨(lookup_after_free_fails Nat GoString GoString).2.1
      ((newConcurrentHandleMap : concurrentHandleMap Nat).insert 7).2 1
      [HandleOp.insert 8, HandleOp.tryGet 1, HandleOp.remove 2] (by decide) (by decide),
   (lookup_after_free_fails Nat GoString GoString).2.2
      (breez_sdk_spark_cgo_dispatchCallbackInterfaceBitcoinChainServiceFree
        ((newConcurrentHandleMap : concurrentHandleMap Nat).insert 7).2 1).2
      FfiConverterString.Lower FfiConverterString.Lower
      (fun (_ : Nat) (a : GoString) => (a, (none : Option (GoError GoString))))
      1 ⟨1, some [65]⟩ 9 ⟨[], []⟩ rfl⟩

/-- C22, as the code has it. The free entry point never stops execution: for every
table and every handle it returns normally.  For a handle that is not, or is no
longer, in the table it leaves every entry and the counter as they are (a second free
is a silent no-op); the lookup of such a handle by a later method dispatch is what
panics. -/
theorem free_entry_point_returns (T : Type) (cm : concurrentHandleMap T) (h : Nat) :
    (breez_sdk_spark_cgo_dispatchCallbackInterfaceBitcoinChainServiceFree cm h).1 = .ok ()
      ∧ (cm.tryGet h = none →
          (breez_sdk_spark_cgo_dispatchCallbackInterfaceBitcoinChainServiceFree cm h).2 = cm)
      ∧ (breez_sdk_spark_cgo_dispatchCallbackInterfaceBitcoinChainServiceFree
            (breez_sdk_spark_cgo_dispatchCallbackInterfaceBitcoinChainServiceFree cm h).2 h)
          = (.ok (),
              (breez_sdk_spark_cgo_dispatchCallbackInterfaceBitcoinChainServiceFree cm h).2)
      ∧ (∀ k, k ≠ h →
          (breez_sdk_spark_cgo_dispatchCallbackInterfaceBitcoinChainServiceFree cm h).2.tryGet k
            = cm.tryGet k) := by
  have hnoop : ∀ c : concurrentHandleMap T, c.tryGet h = none → c.remove h = c := by
    intro c hc
    obtain ⟨handles, cur⟩ := c
    simp only [concurrentHandleMap.tryGet] at hc
    simp only [concurrentHandleMap.remove, concurrentHandleMap.mk.injEq, and_true]
    funext k
    by_cases hk : k = h
    · simp [hk, hc]
    · simp [hk]
  refine ⟨rfl, ?_, ?_, ?_⟩
  · intro hg
    exact hnoop cm hg
  · simp only [breez_sdk_spark_cgo_dispatchCallbackInterfaceBitcoinChainServiceFree]
    rw [hnoop (cm.remove h) (remove_tryGet cm h)]
  · intro k hk
    simp [breez_sdk_spark_cgo_dispatchCallbackInterfaceBitcoinChainServiceFree,
      concurrentHandleMap.remove, concurrentHandleMap.tryGet, hk]

theorem free_entry_point_returns_witness :
    (breez_sdk_spark_cgo_dispatchCallbackInterfaceBitcoinChainServiceFree
        (newConcurrentHandleMap : concurrentHandleMap Nat) 5).2
      = (newConcurrentHandleMap : concurrentHandleMap Nat) :=
  (free_entry_point_returns Nat newConcurrentHandleMap 5).2.1 rfl

/-- C22, as the claim is written, fails: the free entry point called for handle 5 on
a new, empty table returns normally, and called a second time for a handle already
freed it returns normally again. -/
theorem double_free_not_fatal :
    (breez_sdk_spark_cgo_dispatchCallbackInterfaceBitcoinChainServiceFree
        (newConcurrentHandleMap : concurrentHandleMap Nat) 5).1 = .ok ()
      ∧ (breez_sdk_spark_cgo_dispatchCallbackInterfaceBitcoinChainServiceFree
          (breez_sdk_spark_cgo_dispatchCallbackInterfaceBitcoinChainServiceFree
            ((newConcurrentHandleMap : concurrentHandleMap Nat).insert 7).2 1).2 1).1
        = .ok () :=
  ⟨rfl, rfl⟩

/-! ## The result of a callback -/

theorem evalCallback_no_error {R E : Type}
    (lowerRes : R → World → Except Panic RustBuffer × World)
    (lowerErr : E → World → Except Panic RustBuffer × World)
    (GetAddressUtxos : GoString → R × Option (GoError E))
    (address : RustBuffer) (w w1 w2 : World) (arg : GoString) (res : R) (buf : RustBuffer)
    (hlift : FfiConverterString.Lift (GoRustBuffer address) w = (.ok arg, w1))
    (himpl : GetAddressUtxos arg = (res, none))
    (hlower : lowerRes res w1 = (.ok buf, w2)) :
    evalCallbackMethod0 lowerRes lowerErr GetAddressUtxos address w
      = (⟨buf, RustCallStatus.zero⟩, none, w2) := by
  simp only [evalCallbackMethod0, hlift, himpl, hlower,
    UniffiForeignFutureStructRustBuffer.zero]

theorem evalCallback_typed {R E : Type}
    (lowerRes : R → World → Except Panic RustBuffer × World)
    (lowerErr : E → World → Except Panic RustBuffer × World)
    (GetAddressUtxos : GoString → R × Option (GoError E))
    (address : RustBuffer) (w w1 w2 : World) (arg : GoString) (res : R) (err : GoError E)
    (actual : E) (buf : RustBuffer)
    (hlift : FfiConverterString.Lift (GoRustBuffer address) w = (.ok arg, w1))
    (himpl : GetAddressUtxos arg = (res, some err))
    (has : errorsAs err = some (some actual))
    (hlower : lowerErr actual w1 = (.ok buf, w2)) :
    evalCallbackMethod0 lowerRes lowerErr GetAddressUtxos address w
      = (⟨⟨0, none⟩, ⟨1, buf⟩⟩, none, w2) := by
  simp only [evalCallbackMethod0, hlift, himpl, has, hlower,
    UniffiForeignFutureStructRustBuffer.zero, uniffiCallbackResultError]

theorem evalCallback_unexpected {R E : Type}
    (lowerRes : R → World → Except Panic RustBuffer × World)
    (lowerErr : E → World → Except Panic RustBuffer × World)
    (GetAddressUtxos : GoString → R × Option (GoError E))
    (address : RustBuffer) (w w1 : World) (arg : GoString) (res : R) (err : GoError E)
    (hlift : FfiConverterString.Lift (GoRustBuffer address) w = (.ok arg, w1))
    (himpl : GetAddressUtxos arg = (res, some err))
    (has : errorsAs err = none) :
    evalCallbackMethod0 lowerRes lowerErr GetAddressUtxos address w
      = (⟨⟨0, none⟩, ⟨2, ⟨0, none⟩⟩⟩, none, w1) := by
  simp only [evalCallbackMethod0, hlift, himpl, has,
    UniffiForeignFutureStructRustBuffer.zero, uniffiCallbackUnexpectedResultError]

theorem evalCallback_typed_nil {R E : Type}
    (lowerRes : R → World → Except Panic RustBuffer × World)
    (lowerErr : E → World → Except Panic RustBuffer × World)
    (GetAddressUtxos : GoString → R × Option (GoError E))
    (address : RustBuffer) (w w1 w2 : World) (arg : GoString) (res : R) (err : GoError E)
    (buf : RustBuffer)
    (hlift : FfiConverterString.Lift (GoRustBuffer address) w = (.ok arg, w1))
    (himpl : GetAddressUtxos arg = (res, some err))
    (has : errorsAs err = some none)
    (hlower : lowerRes res w1 = (.ok buf, w2)) :
    evalCallbackMethod0 lowerRes lowerErr GetAddressUtxos address w
      = (⟨buf, RustCallStatus.zero⟩, none, w2) := by
  simp only [evalCallbackMethod0, hlift, himpl, has, hlower,
    UniffiForeignFutureStructRustBuffer.zero]

/-- C23, as the code has it. Let the argument buffer be lifted and the managed
implementation return `(res, err)`.  If `err` is nil, the published status code is 0
and the return value is the encoding of `res`.  If `errors.As` finds in `err` (in it
or in what it wraps) a non-nil typed error, the published status code is 1 with
`errorBuf` the encoding of that error and no return value.  If `errors.As` finds no
typed error in `err`, the published status code is 2 with an empty error payload and
no return value.  If `errors.As` finds a typed error pointer that is nil, `err` is
treated like no error: status code 0 and the encoding of `res`. -/
theorem callback_result_translation {R E : Type}
    (lowerRes : R → World → Except Panic RustBuffer × World)
    (lowerErr : E → World → Except Panic RustBuffer × World)
    (GetAddressUtxos : GoString → R × Option (GoError E))
    (address : RustBuffer) (w w1 : World) (arg : GoString) (res : R)
    (err : Option (GoError E))
    (hlift : FfiConverterString.Lift (GoRustBuffer address) w = (.ok arg, w1))
    (himpl : GetAddressUtxos arg = (res, err)) :
    (err = none → ∀ buf w2, lowerRes res w1 = (.ok buf, w2) →
        evalCallbackMethod0 lowerRes lowerErr GetAddressUtxos address w
          = (⟨buf, ⟨0, ⟨0, none⟩⟩⟩, none, w2))
      ∧ (∀ e actual, err = some e → errorsAs e = some (some actual) →
          ∀ buf w2, lowerErr actual w1 = (.ok buf, w2) →
          evalCallbackMethod0 lowerRes lowerErr GetAddressUtxos address w
            = (⟨⟨0, none⟩, ⟨1, buf⟩⟩, none, w2))
      ∧ (∀ e, err = some e → errorsAs e = none →
          evalCallbackMethod0 lowerRes lowerErr GetAddressUtxos address w
            = (⟨⟨0, none⟩, ⟨2, ⟨0, none⟩⟩⟩, none, w1))
      ∧ (∀ e, err = some e → errorsAs e = some none →
          ∀ buf w2, lowerRes res w1 = (.ok buf, w2) →
          evalCallbackMethod0 lowerRes lowerErr GetAddressUtxos address w
            = (⟨buf, ⟨0, ⟨0, none⟩⟩⟩, none, w2)) := by
  refine ⟨?_, ?_, ?_, ?_⟩
  · intro he buf w2 hl
    subst he
    exact evalCallback_no_error lowerRes lowerErr GetAddressUtxos address w w1 w2 arg res buf
      hlift himpl hl
  · intro e actual he has buf w2 hl
    subst he
    exact evalCallback_typed lowerRes lowerErr GetAddressUtxos address w w1 w2 arg res e
      actual buf hlift himpl has hl
  · intro e he has
    subst he
    exact evalCallback_unexpected lowerRes lowerErr GetAddressUtxos address w w1 arg res e
      hlift himpl has
  · intro e he has buf w2 hl
    subst he
    exact evalCallback_typed_nil lowerRes lowerErr GetAddressUtxos address w w1 w2 arg res e
      buf hlift himpl has hl

theorem callback_result_translation_witness :
    evalCallbackMethod0 FfiConverterString.Lower FfiConverterString.Lower
        (fun a => (a, some (GoError.wrap [119] (GoError.typed (some [101])))))
        ⟨1, some [65]⟩ ⟨[], []⟩
      = (⟨⟨0, none⟩, ⟨1, ⟨1, some [101]⟩⟩⟩, none,
          ⟨[NativeCall.rustbuffer_free ⟨1, some [65]⟩,
            NativeCall.rustbuffer_from_bytes ⟨1, [101]⟩], []⟩)
    ∧ evalCallbackMethod0 FfiConverterString.Lower FfiConverterString.Lower
        (fun a => (a, some (GoError.other [111])))
        ⟨1, some [65]⟩ ⟨[], []⟩
      = (⟨⟨0, none⟩, ⟨2, ⟨0, none⟩⟩⟩, none,
          ⟨[NativeCall.rustbuffer_free ⟨1, some [65]⟩], []⟩) :=
  ⟨(callback_result_translation FfiConverterString.Lower FfiConverterString.Lower
      (fun a => (a, some (GoError.wrap [119] (GoError.typed (some [101])))))
      ⟨1, some [65]⟩ ⟨[], []⟩ ⟨[NativeCall.rustbuffer_free ⟨1, some [65]⟩], []⟩ [65] [65]
      (some (GoError.wrap [119] (GoError.typed (some [101])))) (by decide) rfl).2.1
      (GoError.wrap [119] (GoError.typed (some [101]))) [101] rfl rfl
      ⟨1, some [101]⟩
      ⟨[NativeCall.rustbuffer_free ⟨1, some [65]⟩,
        NativeCall.rustbuffer_from_bytes ⟨1, [101]⟩], []⟩ (by decide),
   (callback_result_translation FfiConverterString.Lower FfiConverterString.Lower
      (fun a => (a, some (GoError.other [111])))
      ⟨1, some [65]⟩ ⟨[], []⟩ ⟨[NativeCall.rustbuffer_free ⟨1, some [65]⟩], []⟩ [65] [65]
      (some (GoError.other [111])) (by decide) rfl).2.2.1
      (GoError.other [111]) rfl rfl⟩

/-- C23, as the claim is written, fails for the error value that holds a nil typed
error pointer: it is a non-nil error that neither is nor wraps a non-nil typed error,
yet the published status code is 0, not 2, and the return value is the encoding of
the result. -/
theorem typed_nil_error_not_unexpected :
    (evalCallbackMethod0 FfiConverterString.Lower FfiConverterString.Lower
        (fun a => (a, some (GoError.typed (none : Option GoString))))
        ⟨1, some [65]⟩ ⟨[], []⟩).1
      = ⟨⟨1, some [65]⟩, ⟨0, ⟨0, none⟩⟩⟩
    ∧ (evalCallbackMethod0 FfiConverterString.Lower FfiConverterString.Lower
        (fun a => (a, some (GoError.typed (none : Option GoString))))
        ⟨1, some [65]⟩ ⟨[], []⟩).1.callStatus.code ≠ 2 := by
  decide

/-- C27. A non-nil error can be reported to native code as success: when the managed
implementation returns, next to `res`, an error whose dynamic value is a nil typed
error pointer (`err != nil`, `errors.As` succeeds, `actualError == nil`), neither
error branch sets the status: the published status code is 0, the error payload is
empty and the return value is the encoding of `res`. -/
theorem typed_nil_error_is_success {R E : Type}
    (lowerRes : R → World → Except Panic RustBuffer × World)
    (lowerErr : E → World → Except Panic RustBuffer × World)
    (GetAddressUtxos : GoString → R × Option (GoError E))
    (address : RustBuffer) (w w1 w2 : World) (arg : GoString) (res : R) (buf : RustBuffer)
    (hlift : FfiConverterString.Lift (GoRustBuffer address) w = (.ok arg, w1))
    (himpl : GetAddressUtxos arg = (res, some (GoError.typed none)))
    (hlower : lowerRes res w1 = (.ok buf, w2)) :
    errorsAs (GoError.typed (none : Option E)) = some none
      ∧ (evalCallbackMethod0 lowerRes lowerErr GetAddressUtxos address w).1.callStatus.code = 0
      ∧ (evalCallbackMethod0 lowerRes lowerErr GetAddressUtxos address w).1.callStatus.errorBuf
          = ⟨0, none⟩
      ∧ (evalCallbackMethod0 lowerRes lowerErr GetAddressUtxos address w).1.returnValue = buf
      ∧ (evalCallbackMethod0 lowerRes lowerErr GetAddressUtxos address w).2.1 = none := by
  have h := evalCallback_typed_nil lowerRes lowerErr GetAddressUtxos address w w1 w2 arg res
    (GoError.typed none) buf hlift himpl rfl hlower
  rw [h]
  exact ⟨rfl, rfl, rfl, rfl, rfl⟩

theorem typed_nil_error_is_success_witness :
    errorsAs (GoError.typed (none : Option GoString)) = some none
      ∧ (evalCallbackMethod0 FfiConverterString.Lower FfiConverterString.Lower
          (fun a => (a, some (GoError.typed (none : Option GoString))))
          ⟨1, some [65]⟩ ⟨[], []⟩).1.callStatus.code = 0
      ∧ (evalCallbackMethod0 FfiConverterString.Lower FfiConverterString.Lower
          (fun a => (a, some (GoError.typed (none : Option GoString))))
          ⟨1, some [65]⟩ ⟨[], []⟩).1.callStatus.errorBuf = ⟨0, none⟩
      ∧ (evalCallbackMethod0 FfiConverterString.Lower FfiConverterString.Lower
          (fun a => (a, some (GoError.typed (none : Option GoString))))
          ⟨1, some [65]⟩ ⟨[], []⟩).1.returnValue = ⟨1, some [65]⟩
      ∧ (evalCallbackMethod0 FfiConverterString.Lower FfiConverterString.Lower
          (fun a => (a, some (GoError.typed (none : Option GoString))))
          ⟨1, some [65]⟩ ⟨[], []⟩).2.1 = none :=
  typed_nil_error_is_success FfiConverterString.Lower FfiConverterString.Lower
    (fun a => (a, some (GoError.typed (none : Option GoString))))
    ⟨1, some [65]⟩ ⟨[], []⟩ ⟨[NativeCall.rustbuffer_free ⟨1, some [65]⟩], []⟩
    ⟨[NativeCall.rustbuffer_free ⟨1, some [65]⟩,
      NativeCall.rustbuffer_from_bytes ⟨1, [65]⟩], []⟩
    [65] [65] ⟨1, some [65]⟩ (by decide) rfl (by decide)

/-! ## Completion against cancellation -/

theorem apply_consistent (e : FutureEvent) (s : FutureState) (h : s.consistent) :
    (e.apply s).consistent := by
  obtain ⟨published, result, cancel, waiter, callbacks⟩ := s
  obtain ⟨h1, h2, h3, h4⟩ := h
  simp only at h1 h2 h3 h4
  cases e with
  | publish r =>
    simp only [FutureEvent.apply]
    split
    · rename_i hp
      subst hp
      refine ⟨?_, ?_, h3, h4⟩
      · intro x hx; simp only at hx ⊢; rw [← hx]
      · intro x hx
        have := h2 x hx
        simp at this
    · exact ⟨h1, h2, h3, h4⟩
  | requestCancel =>
    simp only [FutureEvent.apply]
    split
    · exact ⟨h1, h2, h3, h4⟩
    · exact ⟨h1, h2, h3, h4⟩
  | selectCancel =>
    simp only [FutureEvent.apply]
    split
    · rename_i hc
      refine ⟨h1, h2, ?_, ?_⟩
      · intro hw; simp at hw
      · intro _
        exact h4 (by rw [hc.1]; simp)
    · exact ⟨h1, h2, h3, h4⟩
  | selectResult =>
    simp only [FutureEvent.apply]
    split
    · rename_i hw
      cases result with
      | none => exact ⟨h1, h2, h3, h4⟩
      | some res =>
        have hnil : callbacks = [] := h4 (by rw [hw]; simp)
        refine ⟨?_, ?_, ?_, ?_⟩
        · intro x hx; simp at hx
        · intro x hx
          simp only [hnil, List.nil_append, List.mem_singleton] at hx
          rw [hx]
          exact h1 res rfl
        · intro _
          simp [hnil]
        · intro hne
          simp at hne
    · exact ⟨h1, h2, h3, h4⟩

theorem runFuture_consistent (events : List FutureEvent) :
    ∀ s : FutureState, s.consistent → (runFuture events s).consistent := by
  induction events with
  | nil => intro s h; exact h
  | cons e es ih => intro s h; exact ih _ (apply_consistent e s h)

theorem initial_consistent : FutureState.initial.consistent := by
  refine ⟨?_, ?_, ?_, ?_⟩
  · intro r hr; simp [FutureState.initial] at hr
  · intro r hr; simp [FutureState.initial] at hr
  · intro hw; simp [FutureState.initial] at hw
  · intro _; rfl

theorem apply_cancelled (e : FutureEvent) (s : FutureState)
    (h : s.waiter = WaiterPhase.cancelled) :
    (e.apply s).waiter = WaiterPhase.cancelled ∧ (e.apply s).callbacks = s.callbacks := by
  obtain ⟨published, result, cancel, waiter, callbacks⟩ := s
  simp only at h
  subst h
  cases e with
  | publish r =>
    simp only [FutureEvent.apply]
    split <;> exact ⟨rfl, rfl⟩
  | requestCancel =>
    simp only [FutureEvent.apply]
    split <;> exact ⟨rfl, rfl⟩
  | selectCancel => simp [FutureEvent.apply]
  | selectResult => simp [FutureEvent.apply]

theorem runFuture_cancelled (events : List FutureEvent) :
    ∀ s : FutureState, s.waiter = WaiterPhase.cancelled →
      (runFuture events s).waiter = WaiterPhase.cancelled
        ∧ (runFuture events s).callbacks = s.callbacks := by
  induction events with
  | nil => intro s h; exact ⟨h, rfl⟩
  | cons e es ih =>
    intro s h
    have h1 := apply_cancelled e s h
    have h2 := ih _ h1.1
    exact ⟨h2.1, h2.2.trans h1.2⟩

theorem runFuture_append (pre post : List FutureEvent) :
    ∀ s : FutureState, runFuture (pre ++ post) s = runFuture post (runFuture pre s) := by
  induction pre with
  | nil => intro s; rfl
  | cons e es ih => intro s; exact ih _

/-- C24. In a callback dispatch, for every interleaving of the events "result
published", "cancellation requested" and the two cases of the `select` of the waiting
task, the native completion callback is invoked at most once, only with the
published result, and, once the waiting task has taken the cancellation, never (not
then and not after any further events). -/
theorem completion_at_most_once (events : List FutureEvent) :
    (runFuture events FutureState.initial).callbacks.length ≤ 1
      ∧ (∀ r ∈ (runFuture events FutureState.initial).callbacks,
          (runFuture events FutureState.initial).published = some r)
      ∧ (∀ pre post : List FutureEvent, events = pre ++ post →
          (runFuture pre FutureState.initial).waiter = WaiterPhase.cancelled →
          (runFuture events FutureState.initial).callbacks = []) := by
  have hc := runFuture_consistent events FutureState.initial initial_consistent
  refine ⟨?_, hc.2.1, ?_⟩
  · by_cases hw : (runFuture events FutureState.initial).waiter = WaiterPhase.completed
    · rw [hc.2.2.1 hw]
    · rw [hc.2.2.2 hw]
      simp
  · intro pre post hev hcan
    have hpre := runFuture_consistent pre FutureState.initial initial_consistent
    have hnil : (runFuture pre FutureState.initial).callbacks = [] :=
      hpre.2.2.2 (by rw [hcan]; simp)
    rw [hev, runFuture_append, (runFuture_cancelled post _ hcan).2, hnil]

theorem completion_at_most_once_witness :
    (runFuture
        [FutureEvent.requestCancel, FutureEvent.publish ⟨⟨1, some [65]⟩, ⟨0, ⟨0, none⟩⟩⟩,
          FutureEvent.selectCancel, FutureEvent.selectResult]
        FutureState.initial).callbacks = [] :=
  (completion_at_most_once
      [FutureEvent.requestCancel, FutureEvent.publish ⟨⟨1, some [65]⟩, ⟨0, ⟨0, none⟩⟩⟩,
        FutureEvent.selectCancel, FutureEvent.selectResult]).2.2
    [FutureEvent.requestCancel, FutureEvent.publish ⟨⟨1, some [65]⟩, ⟨0, ⟨0, none⟩⟩⟩,
      FutureEvent.selectCancel]
    [FutureEvent.selectResult] rfl (by decide)

/-! ## `incrementPointer` after `destroy` -/

theorem messages_differ (debugName : GoString) :
    debugName ++ lit " object call counter would overflow"
      ≠ debugName ++ lit " object has already been destroyed" := by
  intro h
  have := List.append_cancel_left h
  revert this
  decide

/-- C28. On a fresh proxy (the native library reporting success), the sequence
`incrementPointer`, `destroy`, `incrementPointer` ends with the counter at 1, the
destroyed flag set, two calls in flight and the native free function not called: the
second `incrementPointer`, made after `destroy`, returns normally.  In every
well-bracketed run on a fresh proxy that has reached a destroyed state,
`incrementPointer` is rejected as "already destroyed" exactly when no call is in
flight any more. -/
theorem increment_after_destroy (debugName : GoString) (pointer : Pointer) (w : World)
    (hnative : w.script = []) :
    (runOps debugName
        [ProxyOp.incrementPointer, ProxyOp.destroy, ProxyOp.incrementPointer]
        (ProxyState.fresh pointer w)).obj = ⟨pointer, 1, true⟩
      ∧ (runOps debugName
          [ProxyOp.incrementPointer, ProxyOp.destroy, ProxyOp.incrementPointer]
          (ProxyState.fresh pointer w)).outstanding = 2
      ∧ freeCalls pointer (runOps debugName
          [ProxyOp.incrementPointer, ProxyOp.destroy, ProxyOp.incrementPointer]
          (ProxyState.fresh pointer w)).world = freeCalls pointer w
      ∧ ((runOps debugName [ProxyOp.incrementPointer, ProxyOp.destroy]
            (ProxyState.fresh pointer w)).obj.destroyed = true
          ∧ ((runOps debugName [ProxyOp.incrementPointer, ProxyOp.destroy]
              (ProxyState.fresh pointer w)).obj.incrementPointer debugName
                (runOps debugName [ProxyOp.incrementPointer, ProxyOp.destroy]
                  (ProxyState.fresh pointer w)).world).1 = .ok pointer)
      ∧ (∀ ops : List ProxyOp,
          wellBracketed debugName ops (ProxyState.fresh pointer w) = true →
          (runOps debugName ops (ProxyState.fresh pointer w)).obj.destroyed = true →
          (((runOps debugName ops (ProxyState.fresh pointer w)).obj.incrementPointer debugName
              (runOps debugName ops (ProxyState.fresh pointer w)).world).1
              = .error (Panic.err (debugName ++ lit " object has already been destroyed"))
            ↔ (runOps debugName ops (ProxyState.fresh pointer w)).outstanding = 0)) := by
  have hmax : (1 : Int) ≤ MaxInt64 := by decide
  have hne0 : (0 : Int) ≠ MaxInt64 := by decide
  have s1 : ProxyOp.incrementPointer.apply debugName (ProxyState.fresh pointer w)
      = ⟨⟨pointer, 1, false⟩, ⟨w.calls ++ [NativeCall.object_clone pointer], w.script⟩, 1⟩ := by
    simp only [ProxyOp.apply, ProxyState.fresh, newFfiObject,
      incrementPointer_script_nil ⟨pointer, 0, false⟩ debugName w (le_refl (0 : Int)) hne0
        hnative]
    rfl
  have s2 : ProxyOp.destroy.apply debugName
      ⟨⟨pointer, 1, false⟩, ⟨w.calls ++ [NativeCall.object_clone pointer], w.script⟩, 1⟩
      = ⟨⟨pointer, 0, true⟩, ⟨w.calls ++ [NativeCall.object_clone pointer], w.script⟩, 1⟩ := by
    simp only [ProxyOp.apply,
      destroy_not_last ⟨pointer, 1, false⟩
        ⟨w.calls ++ [NativeCall.object_clone pointer], w.script⟩ rfl
        (show (0 : Int) < 1 from Int.one_pos) hmax]
    rfl
  have s3 : (⟨pointer, 0, true⟩ : FfiObject).incrementPointer debugName
        ⟨w.calls ++ [NativeCall.object_clone pointer], w.script⟩
      = (.ok pointer, ⟨pointer, 1, true⟩,
          ⟨w.calls ++ [NativeCall.object_clone pointer] ++ [NativeCall.object_clone pointer],
            w.script⟩) := by
    rw [incrementPointer_script_nil ⟨pointer, 0, true⟩ debugName
      ⟨w.calls ++ [NativeCall.object_clone pointer], w.script⟩ (le_refl (0 : Int)) hne0 hnative]
    rfl
  have r2 : runOps debugName [ProxyOp.incrementPointer, ProxyOp.destroy]
      (ProxyState.fresh pointer w)
      = ⟨⟨pointer, 0, true⟩, ⟨w.calls ++ [NativeCall.object_clone pointer], w.script⟩, 1⟩ := by
    simp only [runOps, s1, s2]
  have r3 : runOps debugName
      [ProxyOp.incrementPointer, ProxyOp.destroy, ProxyOp.incrementPointer]
      (ProxyState.fresh pointer w)
      = ⟨⟨pointer, 1, true⟩,
          ⟨w.calls ++ [NativeCall.object_clone pointer] ++ [NativeCall.object_clone pointer],
            w.script⟩, 2⟩ := by
    simp only [runOps, s1, s2]
    simp only [ProxyOp.apply, s3]
  refine ⟨?_, ?_, ?_, ?_, ?_⟩
  · rw [r3]
  · rw [r3]
  · rw [r3, freeCalls_append_clone, freeCalls_append_clone]
  · rw [r2]
    exact ⟨rfl, by rw [s3]⟩
  · intro ops hb hd
    obtain ⟨_, hs, hc, hmax2, _⟩ :=
      runOps_bookkeeping debugName pointer _ ops _ (fresh_bookkeeping pointer w hnative) hb
    generalize runOps debugName ops (ProxyState.fresh pointer w) = s at hd hs hc hmax2 ⊢
    obtain ⟨⟨p, c, d⟩, ⟨calls, script⟩, k⟩ := s
    simp only at hd hs hc hmax2 ⊢
    subst hd
    simp only [if_true] at hc
    constructor
    · intro herr
      by_contra hk
      have hc0 : 0 ≤ c := by omega
      by_cases hm : c = MaxInt64
      · rw [incrementPointer_max ⟨p, c, true⟩ debugName _ hm] at herr
        simp only [Except.error.injEq, Panic.err.injEq] at herr
        exact messages_differ debugName herr
      · rw [incrementPointer_script_nil ⟨p, c, true⟩ debugName ⟨calls, script⟩ hc0 hm hs]
          at herr
        simp at herr
    · intro hk
      rw [incrementPointer_low ⟨p, c, true⟩ debugName _ (by simp only; omega)]

theorem increment_after_destroy_witness :
    (runOps (lit "Sdk")
        [ProxyOp.incrementPointer, ProxyOp.destroy, ProxyOp.incrementPointer]
        (ProxyState.fresh 7 ⟨[], []⟩)).obj = ⟨7, 1, true⟩
      ∧ freeCalls 7 (runOps (lit "Sdk")
          [ProxyOp.incrementPointer, ProxyOp.destroy, ProxyOp.incrementPointer]
          (ProxyState.fresh 7 ⟨[], []⟩)).world = freeCalls 7 ⟨[], []⟩ :=
  ⟨(increment_after_destroy (lit "Sdk") 7 ⟨[], []⟩ rfl).1,
   (increment_after_destroy (lit "Sdk") 7 ⟨[], []⟩ rfl).2.2.1⟩

/-! ## `rustCall` -/

/-- C29. `rustCall` returns a value if and only if the callback leaves the status code
at 0, and the value is then the callback's return value.  For every non-zero code it
does not return normally; for code 1 in particular the nil converter that `rustCall`
passes makes the lifting of the error buffer panic with a nil dereference (once the
release of the error buffer has returned normally) instead of yielding a typed
error. -/
theorem rustCall_returns_iff {U : Type}
    (callback : RustCallStatus → World → U × RustCallStatus × World) (w : World) :
    ((∃ u, (rustCall callback w).1 = .ok u)
        ↔ (callback RustCallStatus.zero w).2.1.code = 0)
      ∧ ((callback RustCallStatus.zero w).2.1.code = 0 →
          rustCall callback w
            = (.ok (callback RustCallStatus.zero w).1, (callback RustCallStatus.zero w).2.2))
      ∧ ((callback RustCallStatus.zero w).2.1.code ≠ 0 →
          ∀ u, (rustCall callback w).1 ≠ .ok u)
      ∧ ((callback RustCallStatus.zero w).2.1.code = 1 →
          (GoRustBuffer.Free (callback RustCallStatus.zero w).2.1.errorBuf
            (callback RustCallStatus.zero w).2.2).1 = .ok () →
          (rustCall callback w).1 = .error Panic.nilDereference) := by
  have hok : ∀ u, (rustCall callback w).1 = .ok u →
      (callback RustCallStatus.zero w).2.1.code = 0 := by
    intro u hu
    exact (rustCallWith_ok GoRustBuffer callback w u hu).1
  refine ⟨?_, rustCall_of_code_zero callback w, ?_, ?_⟩
  · constructor
    · rintro ⟨u, hu⟩
      exact hok u hu
    · intro h
      exact ⟨_, by rw [rustCall_of_code_zero callback w h]⟩
  · intro hne u hu
    exact hne (hok u hu)
  · intro h1 hfree
    cases hcb : callback RustCallStatus.zero w with
    | mk ret rest =>
      obtain ⟨status, w1⟩ := rest
      rw [hcb] at h1 hfree
      simp only at h1 hfree
      have h0 : status.code ≠ 0 := by omega
      simp only [rustCall, rustCallWith, rustCallWithErrorWith, hcb, checkCallStatusWith, h0,
        h1, if_false, if_true, LiftFromRustBuffer, GoRustBuffer]
      cases hf : GoRustBuffer.Free status.errorBuf w1 with
      | mk res w2 =>
        rw [hf] at hfree
        simp only at hfree
        subst hfree
        rfl

theorem rustCall_returns_iff_witness :
    rustCall (fun status w => ((5 : Nat), status, w)) ⟨[], []⟩ = (.ok 5, ⟨[], []⟩)
      ∧ (∀ u, (rustCall (fun _ w => ((5 : Nat), (⟨2, ⟨0, none⟩⟩ : RustCallStatus), w))
          ⟨[], []⟩).1 ≠ .ok u)
      ∧ (rustCall (fun _ w => ((5 : Nat), (⟨1, ⟨1, some [7]⟩⟩ : RustCallStatus), w))
          ⟨[], []⟩).1 = .error Panic.nilDereference :=
  ⟨(rustCall_returns_iff (fun status w => ((5 : Nat), status, w)) ⟨[], []⟩).2.1 rfl,
   (rustCall_returns_iff (fun _ w => ((5 : Nat), (⟨2, ⟨0, none⟩⟩ : RustCallStatus), w))
      ⟨[], []⟩).2.2.1 (by decide),
   (rustCall_returns_iff (fun _ w => ((5 : Nat), (⟨1, ⟨1, some [7]⟩⟩ : RustCallStatus), w))
      ⟨[], []⟩).2.2.2 rfl (by decide)⟩

/-! ## The length prefix on the read side -/

theorem readInt32_eq (reader : Reader) :
    readInt32 reader =
      if reader.length < 4 then
        .error (Panic.io (if reader.length = 0 then IoError.EOF else IoError.ErrUnexpectedEOF))
      else .ok (asSigned 32 (getBigEndian (reader.take 4)), reader.drop 4) := by
  simp only [readInt32, binaryRead, ioReadFull]
  by_cases h0 : reader.length = 0
  · have h4 : reader.length < 4 := by omega
    simp [h0]
  · by_cases h4 : reader.length < 4
    · simp [h0, h4]
    · simp [h0, h4]

theorem bytesReaderRead_checked (r : Reader) (k : Nat) :
    ¬ ((bytesReaderRead r k).2.1 ≠ none ∧ (bytesReaderRead r k).2.1 ≠ some IoError.EOF)
      ∧ ((bytesReaderRead r k).1 = k ↔ k ≤ r.length)
      ∧ (k ≤ r.length →
          (bytesReaderRead r k).2.2.1 = r.take k ∧ (bytesReaderRead r k).2.2.2 = r.drop k)
      ∧ (¬ k ≤ r.length → (bytesReaderRead r k).1 = r.length) := by
  unfold bytesReaderRead
  by_cases h0 : r.length = 0
  · have hr : r = [] := List.length_eq_zero.mp h0
    subst hr
    simp only [List.length_nil, if_true]
    refine ⟨by simp, ?_, ?_, ?_⟩
    · constructor
      · intro h
        omega
      · intro h
        simp only [List.length_nil] at h
        omega
    · intro h
      have hk : k = 0 := by simpa using h
      subst hk
      simp
    · intro _
      trivial
  · simp only [h0, if_false]
    refine ⟨by simp, ?_, ?_, ?_⟩
    · simp only [min_eq_left_iff]
    · intro h
      simp only [min_eq_left h, Nat.sub_self, List.replicate_zero, List.append_nil, and_self]
    · intro h
      simp only [min_eq_right (Nat.le_of_lt (Nat.lt_of_not_le h))]


theorem stringRead_cases (reader : Reader) :
    FfiConverterString.Read reader =
      if reader.length < 4 then
        .error (Panic.io (if reader.length = 0 then IoError.EOF else IoError.ErrUnexpectedEOF))
      else if asSigned 32 (getBigEndian (reader.take 4)) < 0 then .error Panic.makeslice
      else if ((reader.length - 4 : Nat) : Int) < asSigned 32 (getBigEndian (reader.take 4)) then
        .error (Panic.err (lit "bad read length when reading string, expected "
          ++ fmtD (asSigned 32 (getBigEndian (reader.take 4))) ++ lit ", read "
          ++ fmtD ((reader.length - 4 : Nat) : Int)))
      else .ok ((reader.drop 4).take (asSigned 32 (getBigEndian (reader.take 4))).toNat,
        reader.drop (4 + (asSigned 32 (getBigEndian (reader.take 4))).toNat)) := by
  rw [FfiConverterString.Read, readInt32_eq]
  by_cases h4 : reader.length < 4
  · simp only [h4, if_true]
  · simp only [h4, if_false]
    by_cases hneg : asSigned 32 (getBigEndian (reader.take 4)) < 0
    · simp only [hneg, if_true]
    · simp only [hneg, if_false]
      generalize asSigned 32 (getBigEndian (reader.take 4)) = n at hneg ⊢
      obtain ⟨k, rfl⟩ := Int.eq_ofNat_of_zero_le (not_lt.mp hneg)
      have hlen : (reader.drop 4).length = reader.length - 4 := List.length_drop 4 reader
      obtain ⟨herr, hcount, hfit, hshort⟩ := bytesReaderRead_checked (reader.drop 4) k
      simp only [Int.toNat_ofNat, herr, if_false]
      by_cases hk : k ≤ (reader.drop 4).length
      · have hc : ((bytesReaderRead (reader.drop 4) k).1 : Int) = (k : Int) := by
          exact_mod_cast hcount.mpr hk
        have hlt : ¬ (((reader.length - 4 : Nat) : Int) < (k : Int)) := by
          rw [hlen] at hk
          omega
        simp only [ne_eq, hc, not_true_eq_false, if_false, hlt, (hfit hk).1, (hfit hk).2,
          List.drop_drop]
      · have hlt : ((reader.length - 4 : Nat) : Int) < (k : Int) := by
          rw [hlen] at hk
          omega
        have hne : ¬ (((reader.length - 4 : Nat) : Int) = (k : Int)) := by omega
        simp only [ne_eq, hshort hk, hlen, hne, not_false_eq_true, if_true, hlt]

theorem bytesRead_cases (reader : Reader) :
    FfiConverterBytes.Read reader =
      if reader.length < 4 then
        .error (Panic.io (if reader.length = 0 then IoError.EOF else IoError.ErrUnexpectedEOF))
      else if asSigned 32 (getBigEndian (reader.take 4)) < 0 then .error Panic.makeslice
      else if ((reader.length - 4 : Nat) : Int) < asSigned 32 (getBigEndian (reader.take 4)) then
        .error (Panic.err (lit "bad read length when reading []byte, expected "
          ++ fmtD (asSigned 32 (getBigEndian (reader.take 4))) ++ lit ", read "
          ++ fmtD ((reader.length - 4 : Nat) : Int)))
      else .ok ((reader.drop 4).take (asSigned 32 (getBigEndian (reader.take 4))).toNat,
        reader.drop (4 + (asSigned 32 (getBigEndian (reader.take 4))).toNat)) := by
  rw [FfiConverterBytes.Read, readInt32_eq]
  by_cases h4 : reader.length < 4
  · simp only [h4, if_true]
  · simp only [h4, if_false]
    by_cases hneg : asSigned 32 (getBigEndian (reader.take 4)) < 0
    · simp only [hneg, if_true]
    · simp only [hneg, if_false]
      generalize asSigned 32 (getBigEndian (reader.take 4)) = n at hneg ⊢
      obtain ⟨k, rfl⟩ := Int.eq_ofNat_of_zero_le (not_lt.mp hneg)
      have hlen : (reader.drop 4).length = reader.length - 4 := List.length_drop 4 reader
      obtain ⟨herr, hcount, hfit, hshort⟩ := bytesReaderRead_checked (reader.drop 4) k
      simp only [Int.toNat_ofNat, herr, if_false]
      by_cases hk : k ≤ (reader.drop 4).length
      · have hc : ((bytesReaderRead (reader.drop 4) k).1 : Int) = (k : Int) := by
          exact_mod_cast hcount.mpr hk
        have hlt : ¬ (((reader.length - 4 : Nat) : Int) < (k : Int)) := by
          rw [hlen] at hk
          omega
        simp only [ne_eq, hc, not_true_eq_false, if_false, hlt, (hfit hk).1, (hfit hk).2,
          List.drop_drop]
      · have hlt : ((reader.length - 4 : Nat) : Int) < (k : Int) := by
          rw [hlen] at hk
          omega
        have hne : ¬ (((reader.length - 4 : Nat) : Int) = (k : Int)) := by omega
        simp only [ne_eq, hshort hk, hlen, hne, not_false_eq_true, if_true, hlt]


/-- C30. On an in-memory reader, with `n` the signed value of the first four bytes:
whenever `FfiConverterString.Read` or `FfiConverterBytes.Read` returns a value, the
stream held at least four bytes, `0 ≤ n ≤` the number of bytes after the prefix, the
value is exactly the `n` bytes that follow the prefix (neither shortened nor padded)
and the rest of the stream starts right after them.  For every stream that holds fewer
than four bytes, or whose prefix is negative, or whose prefix exceeds the bytes that
remain, both functions fail. -/
theorem read_length_checked (reader : Reader) :
    (∀ value rest, FfiConverterString.Read reader = .ok (value, rest) →
        4 ≤ reader.length
          ∧ 0 ≤ asSigned 32 (getBigEndian (reader.take 4))
          ∧ asSigned 32 (getBigEndian (reader.take 4)) ≤ ((reader.length - 4 : Nat) : Int)
          ∧ value = (reader.drop 4).take (asSigned 32 (getBigEndian (reader.take 4))).toNat
          ∧ (value.length : Int) = asSigned 32 (getBigEndian (reader.take 4))
          ∧ rest = reader.drop (4 + (asSigned 32 (getBigEndian (reader.take 4))).toNat))
      ∧ (∀ value rest, FfiConverterBytes.Read reader = .ok (value, rest) →
        4 ≤ reader.length
          ∧ 0 ≤ asSigned 32 (getBigEndian (reader.take 4))
          ∧ asSigned 32 (getBigEndian (reader.take 4)) ≤ ((reader.length - 4 : Nat) : Int)
          ∧ value = (reader.drop 4).take (asSigned 32 (getBigEndian (reader.take 4))).toNat
          ∧ (value.length : Int) = asSigned 32 (getBigEndian (reader.take 4))
          ∧ rest = reader.drop (4 + (asSigned 32 (getBigEndian (reader.take 4))).toNat))
      ∧ (reader.length < 4
          ∨ asSigned 32 (getBigEndian (reader.take 4)) < 0
          ∨ ((reader.length - 4 : Nat) : Int) < asSigned 32 (getBigEndian (reader.take 4)) →
        (∃ p, FfiConverterString.Read reader = .error p)
          ∧ (∃ p, FfiConverterBytes.Read reader = .error p)) := by
  have key : ∀ (value rest : List Byte),
      4 ≤ reader.length →
      ¬ asSigned 32 (getBigEndian (reader.take 4)) < 0 →
      ¬ ((reader.length - 4 : Nat) : Int) < asSigned 32 (getBigEndian (reader.take 4)) →
      (reader.drop 4).take (asSigned 32 (getBigEndian (reader.take 4))).toNat = value →
      reader.drop (4 + (asSigned 32 (getBigEndian (reader.take 4))).toNat) = rest →
      4 ≤ reader.length
          ∧ 0 ≤ asSigned 32 (getBigEndian (reader.take 4))
          ∧ asSigned 32 (getBigEndian (reader.take 4)) ≤ ((reader.length - 4 : Nat) : Int)
          ∧ value = (reader.drop 4).take (asSigned 32 (getBigEndian (reader.take 4))).toNat
          ∧ (value.length : Int) = asSigned 32 (getBigEndian (reader.take 4))
          ∧ rest = reader.drop (4 + (asSigned 32 (getBigEndian (reader.take 4))).toNat) := by
    intro value rest h4 hneg hfit hv hr
    refine ⟨h4, not_lt.mp hneg, not_lt.mp hfit, hv.symm, ?_, hr.symm⟩
    rw [← hv, List.length_take, List.length_drop]
    generalize asSigned 32 (getBigEndian (reader.take 4)) = n at hneg hfit ⊢
    omega
  refine ⟨?_, ?_, ?_⟩
  · intro value rest h
    rw [stringRead_cases] at h
    split_ifs at h with h4 hneg hfit
    simp only [Except.ok.injEq, Prod.mk.injEq] at h
    exact key value rest (not_lt.mp h4) hneg hfit h.1 h.2
  · intro value rest h
    rw [bytesRead_cases] at h
    split_ifs at h with h4 hneg hfit
    simp only [Except.ok.injEq, Prod.mk.injEq] at h
    exact key value rest (not_lt.mp h4) hneg hfit h.1 h.2
  · intro h
    rw [stringRead_cases, bytesRead_cases]
    by_cases h4 : reader.length < 4
    · simp only [h4, if_true]
      exact ⟨⟨_, rfl⟩, ⟨_, rfl⟩⟩
    · by_cases hneg : asSigned 32 (getBigEndian (reader.take 4)) < 0
      · simp only [h4, hneg, if_true, if_false]
        exact ⟨⟨_, rfl⟩, ⟨_, rfl⟩⟩
      · have hfit : ((reader.length - 4 : Nat) : Int)
            < asSigned 32 (getBigEndian (reader.take 4)) := by
          rcases h with h | h | h
          · exact absurd h h4
          · exact absurd h hneg
          · exact h
        simp only [h4, hneg, hfit, if_true, if_false]
        exact ⟨⟨_, rfl⟩, ⟨_, rfl⟩⟩

theorem read_length_checked_witness :
    (((([104, 105] : List Byte).length : Nat) : Int)
        = asSigned 32 (getBigEndian (([0, 0, 0, 2, 104, 105, 9] : Reader).take 4))
      ∧ ([9] : List Byte) = ([0, 0, 0, 2, 104, 105, 9] : Reader).drop
          (4 + (asSigned 32 (getBigEndian (([0, 0, 0, 2, 104, 105, 9] : Reader).take 4))).toNat))
      ∧ (∃ p, FfiConverterString.Read [255, 255, 255, 255, 1] = .error p)
      ∧ (∃ p, FfiConverterBytes.Read [0, 0, 0, 5, 1] = .error p)
      ∧ (∃ p, FfiConverterBytes.Read [0, 0] = .error p) :=
  ⟨((read_length_checked [0, 0, 0, 2, 104, 105, 9]).1 [104, 105] [9] (by decide)).2.2.2.2,
   ((read_length_checked [255, 255, 255, 255, 1]).2.2 (Or.inr (Or.inl (by decide)))).1,
   ((read_length_checked [0, 0, 0, 5, 1]).2.2 (Or.inr (Or.inr (by decide)))).2,
   ((read_length_checked [0, 0]).2.2 (Or.inl (by decide))).2⟩

end BreezSdkSpark
